import Mathlib

/-! Matrices genéricas: `MatrizBase`, `MatrizDinamica`, `MatrizEstatica`

Shallow embedding of `src/main.cpp`.

The C++ program manipulates raw storage (`T**` row tables obtained with `new`),
so the embedding works over an explicit memory:

* every `new T*[f]` block, every `new T[c]` block and every matrix object lives at
  an address (a natural number) of a `Memoria`;
* member functions take the address of `*this` (and of `other` / `otra`) and the
  memory, and return the new memory (or a `Falla`);
* `assert` failure and invalid memory use (null / dangling / out-of-bounds access,
  which is undefined behaviour in C++) are the two kinds of `Falla`;
* `int` values are `Int`; counted loops `for (int i = 0; i < n; ++i)` run
  `n.toNat` iterations (none when `n ≤ 0`);
* the element type `T` is any type with `T()` (`0`) and `+`.
-/

namespace Matrices

/-- The two ways a call can go wrong: a failed `assert`, or an invalid memory
access (undefined behaviour in the C++ program). -/
inductive Falla where
  | asercion
  | memoria
  deriving DecidableEq

/-- What is sent to `cout`. -/
inductive Item (T : Type) where
  | texto (s : String)
  | entero (n : Int)
  | valor (v : T)
  deriving DecidableEq

/-- Fields of a `MatrizDinamica<T>` object: `_filas`, `_columnas` (from `MatrizBase`)
and the pointer `T **_datos` (`none` is `nullptr`). -/
structure MatrizDinamica where
  _filas : Int
  _columnas : Int
  _datos : Option Nat
  deriving DecidableEq

/-- Fields of a `MatrizEstatica<T, M, N>` object: the template arguments, `_filas`,
`_columnas` (from `MatrizBase`) and the inline array `T _datos[M][N]`. -/
structure MatrizEstatica (T : Type) where
  M : Nat
  N : Nat
  _filas : Int
  _columnas : Int
  _datos : List (List T)
  deriving DecidableEq

/-- A live object behind a `MatrizBase<T>*`: one of the two concrete classes. -/
inductive Objeto (T : Type) where
  | dinamica (d : MatrizDinamica)
  | estatica (e : MatrizEstatica T)
  deriving DecidableEq

/-- The memory of the program.
* `tablas a`: the live block created by `new T*[f]` at address `a` (an entry is `none`
  while it has not been assigned);
* `bloques a`: the live block created by `new T[c]` at address `a`;
* `objetos a`: the live matrix object at address `a`;
* `libre`: the next address handed out by an allocation;
* `basura`: the value found in storage that has not been initialised;
* `entrada`, `salida`: what `cin` still holds and what was written to `cout`. -/
structure Memoria (T : Type) where
  tablas : Nat → Option (List (Option Nat))
  bloques : Nat → Option (List T)
  objetos : Nat → Option (Objeto T)
  libre : Nat
  basura : T
  entrada : List T
  salida : List (Item T)

variable {T : Type}

namespace Memoria

/-- Replace (or remove) the row-pointer table at address `a`. -/
def ponerTabla (m : Memoria T) (a : Nat) (t : Option (List (Option Nat))) : Memoria T :=
  { m with tablas := fun x => if x = a then t else m.tablas x }

/-- Replace (or remove) the element block at address `a`. -/
def ponerBloque (m : Memoria T) (a : Nat) (b : Option (List T)) : Memoria T :=
  { m with bloques := fun x => if x = a then b else m.bloques x }

/-- Replace (or remove) the object at address `a`. -/
def ponerObjeto (m : Memoria T) (a : Nat) (o : Option (Objeto T)) : Memoria T :=
  { m with objetos := fun x => if x = a then o else m.objetos x }

/-- Consume one address. -/
def avanzar (m : Memoria T) : Memoria T :=
  { m with libre := m.libre + 1 }

/-- The statement `cout << x`. -/
def escribir (m : Memoria T) (x : Item T) : Memoria T :=
  { m with salida := m.salida ++ [x] }

/-- A memory with nothing allocated. -/
def vacia (b : T) : Memoria T :=
  { tablas := fun _ => none, bloques := fun _ => none, objetos := fun _ => none,
    libre := 0, basura := b, entrada := [], salida := [] }

end Memoria

/-- The loop `for (int i = desde; i < desde + k; ++i) cuerpo(i)`. -/
def bucleDesde (cuerpo : Nat → Memoria T → Except Falla (Memoria T)) :
    Nat → Nat → Memoria T → Except Falla (Memoria T)
  | _, 0, m => .ok m
  | i, k + 1, m =>
    match cuerpo i m with
    | .error e => .error e
    | .ok m1 => bucleDesde cuerpo (i + 1) k m1

/-- The loop `for (int i = 0; i < n; ++i) cuerpo(i)`. -/
def bucle (n : Nat) (cuerpo : Nat → Memoria T → Except Falla (Memoria T))
    (m : Memoria T) : Except Falla (Memoria T) :=
  bucleDesde cuerpo 0 n m

/-- The object at `this`, which has to be a live `MatrizDinamica`. -/
def objDin (m : Memoria T) (this : Nat) : Except Falla MatrizDinamica :=
  match m.objetos this with
  | some (.dinamica d) => .ok d
  | _ => .error .memoria

/-- The object at `this`, which has to be a live `MatrizEstatica`. -/
def objEst (m : Memoria T) (this : Nat) : Except Falla (MatrizEstatica T) :=
  match m.objetos this with
  | some (.estatica e) => .ok e
  | _ => .error .memoria

/-- The expression `datos[i][j]` read through a `T**` value. -/
def leerCelda (datos : Option Nat) (i j : Nat) (m : Memoria T) : Except Falla T :=
  match datos with
  | none => .error .memoria
  | some p =>
    match m.tablas p with
    | none => .error .memoria
    | some ps =>
      match ps[i]? with
      | some (some r) =>
        match m.bloques r with
        | none => .error .memoria
        | some es =>
          match es[j]? with
          | some v => .ok v
          | none => .error .memoria
      | _ => .error .memoria

/-- The statement `datos[i][j] = v` through a `T**` value. -/
def escribirCelda (datos : Option Nat) (i j : Nat) (v : T) (m : Memoria T) :
    Except Falla (Memoria T) :=
  match datos with
  | none => .error .memoria
  | some p =>
    match m.tablas p with
    | none => .error .memoria
    | some ps =>
      match ps[i]? with
      | some (some r) =>
        match m.bloques r with
        | none => .error .memoria
        | some es =>
          if j < es.length then .ok (m.ponerBloque r (some (es.set j v)))
          else .error .memoria
      | _ => .error .memoria

/-- The statement `datos[i] = new T[c]`. -/
def reservarFila (p : Nat) (c : Nat) (i : Nat) (m : Memoria T) : Except Falla (Memoria T) :=
  let r := m.libre
  let m1 := (m.ponerBloque r (some (List.replicate c m.basura))).avanzar
  match m1.tablas p with
  | none => .error .memoria
  | some ps =>
    if i < ps.length then .ok (m1.ponerTabla p (some (ps.set i (some r))))
    else .error .memoria

/-- The statement `delete[] datos[i]`. -/
def liberarFila (p : Nat) (i : Nat) (m : Memoria T) : Except Falla (Memoria T) :=
  match m.tablas p with
  | none => .error .memoria
  | some ps =>
    match ps[i]? with
    | some (some r) =>
      match m.bloques r with
      | none => .error .memoria
      | some _ => .ok (m.ponerBloque r none)
    | _ => .error .memoria

namespace MatrizDinamica

/-- `MatrizDinamica::reservar` (main.cpp 41-50). -/
def reservar (this : Nat) (f c : Int) (m : Memoria T) : Except Falla (Memoria T) :=
  match objDin m this with
  | .error e => .error e
  | .ok d =>
    if f ≤ 0 ∨ c ≤ 0 then
      .ok (m.ponerObjeto this (some (.dinamica { d with _datos := none })))
    else
      let p := m.libre
      let m1 := (m.ponerTabla p (some (List.replicate f.toNat none))).avanzar
      let m2 := m1.ponerObjeto this (some (.dinamica { d with _datos := some p }))
      bucle f.toNat (reservarFila p c.toNat) m2

/-- `MatrizDinamica::liberar` (main.cpp 52-59). -/
def liberar (this : Nat) (m : Memoria T) : Except Falla (Memoria T) :=
  match objDin m this with
  | .error e => .error e
  | .ok d =>
    match d._datos with
    | none => .ok m
    | some p =>
      match bucle d._filas.toNat (liberarFila p) m with
      | .error e => .error e
      | .ok m1 =>
        match m1.tablas p with
        | none => .error .memoria
        | some _ =>
          .ok ((m1.ponerTabla p none).ponerObjeto this
            (some (.dinamica { d with _datos := none })))

/-- The constructor `MatrizDinamica(int f, int c)` (main.cpp 63-69), building the
object at the next free address, which is returned. -/
def crear [Zero T] (f c : Int) (m : Memoria T) : Except Falla (Nat × Memoria T) :=
  let this := m.libre
  let m0 := (m.ponerObjeto this (some (.dinamica ⟨f, c, none⟩))).avanzar
  match reservar this f c m0 with
  | .error e => .error e
  | .ok m1 =>
    match objDin m1 this with
    | .error e => .error e
    | .ok d =>
      match bucle d._filas.toNat (fun i =>
          bucle d._columnas.toNat (fun j => escribirCelda d._datos i j (0 : T))) m1 with
      | .error e => .error e
      | .ok m2 => .ok (this, m2)

/-- The destructor `~MatrizDinamica()` (main.cpp 72-74); the object then ceases to exist. -/
def destruir (this : Nat) (m : Memoria T) : Except Falla (Memoria T) :=
  match liberar this m with
  | .error e => .error e
  | .ok m1 => .ok (m1.ponerObjeto this none)

/-- The copy constructor `MatrizDinamica(const MatrizDinamica<T>& other)`
(main.cpp 77-82), building the object at the next free address, which is returned. -/
def copiar (other : Nat) (m : Memoria T) : Except Falla (Nat × Memoria T) :=
  match objDin m other with
  | .error e => .error e
  | .ok o =>
    let this := m.libre
    let m0 := (m.ponerObjeto this (some (.dinamica ⟨o._filas, o._columnas, none⟩))).avanzar
    match reservar this o._filas o._columnas m0 with
    | .error e => .error e
    | .ok m1 =>
      match objDin m1 this with
      | .error e => .error e
      | .ok d =>
        match bucle d._filas.toNat (fun i =>
            bucle d._columnas.toNat (fun j mm =>
              match leerCelda o._datos i j mm with
              | .error e => .error e
              | .ok v => escribirCelda d._datos i j v mm)) m1 with
        | .error e => .error e
        | .ok m2 => .ok (this, m2)

/-- The copy assignment `operator=(const MatrizDinamica<T>& other)` (main.cpp 85-94):
a temporary copy, three swaps, and the temporary is destroyed on return. -/
def asignarCopia (this other : Nat) (m : Memoria T) : Except Falla (Memoria T) :=
  if this = other then .ok m
  else
    match copiar other m with
    | .error e => .error e
    | .ok (temp, m1) =>
      match objDin m1 this, objDin m1 temp with
      | .ok d, .ok t =>
        let m2 := (m1.ponerObjeto this (some (.dinamica t))).ponerObjeto temp (some (.dinamica d))
        destruir temp m2
      | _, _ => .error .memoria

/-- The move constructor `MatrizDinamica(MatrizDinamica<T>&& other)` (main.cpp 97-100),
building the object at the next free address, which is returned. -/
def mover (other : Nat) (m : Memoria T) : Except Falla (Nat × Memoria T) :=
  match objDin m other with
  | .error e => .error e
  | .ok o =>
    let this := m.libre
    let m0 := (m.ponerObjeto this
      (some (.dinamica ⟨o._filas, o._columnas, o._datos⟩))).avanzar
    .ok (this, m0.ponerObjeto other (some (.dinamica ⟨0, 0, none⟩)))

/-- The move assignment `operator=(MatrizDinamica<T>&& other)` (main.cpp 103-112). -/
def asignarMov (this other : Nat) (m : Memoria T) : Except Falla (Memoria T) :=
  if this = other then .ok m
  else
    match liberar this m with
    | .error e => .error e
    | .ok m1 =>
      match objDin m1 this, objDin m1 other with
      | .ok _, .ok o =>
        let m2 := m1.ponerObjeto this (some (.dinamica ⟨o._filas, o._columnas, o._datos⟩))
        .ok (m2.ponerObjeto other (some (.dinamica ⟨0, 0, none⟩)))
      | _, _ => .error .memoria

/-- `MatrizDinamica::obtener` (main.cpp 115-118). -/
def obtener (this : Nat) (i j : Int) (m : Memoria T) : Except Falla T :=
  match objDin m this with
  | .error e => .error e
  | .ok d =>
    if i ≥ 0 ∧ i < d._filas ∧ j ≥ 0 ∧ j < d._columnas then
      leerCelda d._datos i.toNat j.toNat m
    else .error .asercion

/-- `MatrizDinamica::asignar` (main.cpp 119-122). -/
def asignar (this : Nat) (i j : Int) (val : T) (m : Memoria T) : Except Falla (Memoria T) :=
  match objDin m this with
  | .error e => .error e
  | .ok d =>
    if i ≥ 0 ∧ i < d._filas ∧ j ≥ 0 ∧ j < d._columnas then
      escribirCelda d._datos i.toNat j.toNat val m
    else .error .asercion

end MatrizDinamica

/-- The statement `_datos[i][j] = v` on the inline array of the `MatrizEstatica` at `this`. -/
def escribirInline (this : Nat) (i j : Nat) (v : T) (m : Memoria T) :
    Except Falla (Memoria T) :=
  match objEst m this with
  | .error e => .error e
  | .ok e =>
    match e._datos[i]? with
    | none => .error .memoria
    | some fila =>
      if j < fila.length then
        .ok (m.ponerObjeto this
          (some (.estatica { e with _datos := e._datos.set i (fila.set j v) })))
      else .error .memoria

/-- The expression `_datos[i][j]` on the inline array of a `MatrizEstatica`. -/
def leerInline (e : MatrizEstatica T) (i j : Nat) : Except Falla T :=
  match e._datos[i]? with
  | none => .error .memoria
  | some fila =>
    match fila[j]? with
    | none => .error .memoria
    | some v => .ok v

namespace MatrizEstatica

/-- The constructor `MatrizEstatica()` of `MatrizEstatica<T, M, N>` (main.cpp 171-175),
building the object at the next free address, which is returned. -/
def crear [Zero T] (M N : Nat) (m : Memoria T) : Except Falla (Nat × Memoria T) :=
  let this := m.libre
  let m0 := (m.ponerObjeto this (some (.estatica
    ⟨M, N, M, N, List.replicate M (List.replicate N m.basura)⟩))).avanzar
  match bucle M (fun i => bucle N (fun j => escribirInline this i j (0 : T))) m0 with
  | .error e => .error e
  | .ok m1 => .ok (this, m1)

/-- `MatrizEstatica::obtener` (main.cpp 178-181). -/
def obtener (this : Nat) (i j : Int) (m : Memoria T) : Except Falla T :=
  match objEst m this with
  | .error e => .error e
  | .ok s =>
    if i ≥ 0 ∧ i < s._filas ∧ j ≥ 0 ∧ j < s._columnas then
      leerInline s i.toNat j.toNat
    else .error .asercion

/-- `MatrizEstatica::asignar` (main.cpp 182-185). -/
def asignar (this : Nat) (i j : Int) (val : T) (m : Memoria T) : Except Falla (Memoria T) :=
  match objEst m this with
  | .error e => .error e
  | .ok s =>
    if i ≥ 0 ∧ i < s._filas ∧ j ≥ 0 ∧ j < s._columnas then
      escribirInline this i.toNat j.toNat val m
    else .error .asercion

end MatrizEstatica

namespace MatrizBase

/-- `MatrizBase::filas` (main.cpp 21). -/
def filas (this : Nat) (m : Memoria T) : Except Falla Int :=
  match m.objetos this with
  | some (.dinamica d) => .ok d._filas
  | some (.estatica e) => .ok e._filas
  | none => .error .memoria

/-- `MatrizBase::columnas` (main.cpp 22). -/
def columnas (this : Nat) (m : Memoria T) : Except Falla Int :=
  match m.objetos this with
  | some (.dinamica d) => .ok d._columnas
  | some (.estatica e) => .ok e._columnas
  | none => .error .memoria

/-- The virtual call `obtener(i, j)` through a `MatrizBase<T>` reference. -/
def obtener (this : Nat) (i j : Int) (m : Memoria T) : Except Falla T :=
  match m.objetos this with
  | some (.dinamica _) => MatrizDinamica.obtener this i j m
  | some (.estatica _) => MatrizEstatica.obtener this i j m
  | none => .error .memoria

/-- The virtual call `asignar(i, j, val)` through a `MatrizBase<T>` reference. -/
def asignar (this : Nat) (i j : Int) (val : T) (m : Memoria T) : Except Falla (Memoria T) :=
  match m.objetos this with
  | some (.dinamica _) => MatrizDinamica.asignar this i j val m
  | some (.estatica _) => MatrizEstatica.asignar this i j val m
  | none => .error .memoria

end MatrizBase

/-- The body of the two nested loops of both `sumar` (main.cpp 145 and 208):
`resultado->asignar(i, j, this->obtener(i, j) + otra.obtener(i, j))`. -/
def sumarCelda [Add T] (resultado this otra : Nat) (i j : Nat) (m : Memoria T) :
    Except Falla (Memoria T) :=
  match MatrizBase.obtener this i j m with
  | .error e => .error e
  | .ok x =>
    match MatrizBase.obtener otra i j m with
    | .error e => .error e
    | .ok y => MatrizBase.asignar resultado i j (x + y) m

/-- `MatrizDinamica::sumar` (main.cpp 137-148); `none` is the returned `nullptr`. -/
def MatrizDinamica.sumar [Zero T] [Add T] (this otra : Nat) (m : Memoria T) :
    Except Falla (Option Nat × Memoria T) :=
  match objDin m this, MatrizBase.filas otra m, MatrizBase.columnas otra m with
  | .ok d, .ok f, .ok c =>
    if d._filas ≠ f ∨ d._columnas ≠ c then
      .ok (none, m.escribir (.texto "Error: dimensiones incompatibles para la suma.\n"))
    else
      match MatrizDinamica.crear d._filas d._columnas m with
      | .error e => .error e
      | .ok (resultado, m1) =>
        match bucle d._filas.toNat (fun i =>
            bucle d._columnas.toNat (fun j => sumarCelda resultado this otra i j)) m1 with
        | .error e => .error e
        | .ok m2 => .ok (some resultado, m2)
  | _, _, _ => .error .memoria

/-- `MatrizEstatica::sumar` (main.cpp 200-211); `none` is the returned `nullptr`. -/
def MatrizEstatica.sumar [Zero T] [Add T] (this otra : Nat) (m : Memoria T) :
    Except Falla (Option Nat × Memoria T) :=
  match objEst m this, MatrizBase.filas otra m, MatrizBase.columnas otra m with
  | .ok s, .ok f, .ok c =>
    if s._filas ≠ f ∨ s._columnas ≠ c then
      .ok (none, m.escribir
        (.texto "Error: dimensiones incompatibles para la suma (estatica).\n"))
    else
      match MatrizEstatica.crear s.M s.N m with
      | .error e => .error e
      | .ok (resultado, m1) =>
        match bucle s._filas.toNat (fun i =>
            bucle s._columnas.toNat (fun j => sumarCelda resultado this otra i j)) m1 with
        | .error e => .error e
        | .ok m2 => .ok (some resultado, m2)
  | _, _, _ => .error .memoria

/-- The virtual call `sumar(otra)` through a `MatrizBase<T>` reference. -/
def MatrizBase.sumar [Zero T] [Add T] (this otra : Nat) (m : Memoria T) :
    Except Falla (Option Nat × Memoria T) :=
  match m.objetos this with
  | some (.dinamica _) => MatrizDinamica.sumar this otra m
  | some (.estatica _) => MatrizEstatica.sumar this otra m
  | none => .error .memoria

/-- The free `operator+` (main.cpp 225-228). -/
def operadorMas [Zero T] [Add T] (a b : Nat) (m : Memoria T) :
    Except Falla (Option Nat × Memoria T) :=
  MatrizBase.sumar a b m

/-! ## Input and output: `cargarValores` and `imprimir` -/

/-- The statements `T val; cin >> val;`: the next value of the input, which is consumed;
when the input is exhausted the extraction fails and `val` keeps whatever the
uninitialised local held. -/
def leerEntrada (m : Memoria T) : T × Memoria T :=
  match m.entrada with
  | [] => (m.basura, m)
  | v :: resto => (v, { m with entrada := resto })

/-- The prompt `cout << " [" << i << "," << j << "] = "` of both `cargarValores`. -/
def pedirCelda (i j : Nat) (m : Memoria T) : Memoria T :=
  ((((m.escribir (.texto " [")).escribir (.entero i)).escribir (.texto ",")).escribir
    (.entero j)).escribir (.texto "] = ")

/-- `MatrizDinamica::cargarValores` (main.cpp 125-134). -/
def MatrizDinamica.cargarValores (this : Nat) (m : Memoria T) : Except Falla (Memoria T) :=
  match objDin m this with
  | .error e => .error e
  | .ok d =>
    let m0 := ((((m.escribir (.texto "Ingrese valores (")).escribir
      (.entero d._filas)).escribir (.texto "x")).escribir
      (.entero d._columnas)).escribir (.texto "):\n")
    bucle d._filas.toNat (fun i =>
      bucle d._columnas.toNat (fun j mm =>
        escribirCelda d._datos i j (leerEntrada (pedirCelda i j mm)).1
          (leerEntrada (pedirCelda i j mm)).2)) m0

/-- `MatrizEstatica::cargarValores` (main.cpp 188-197). -/
def MatrizEstatica.cargarValores (this : Nat) (m : Memoria T) : Except Falla (Memoria T) :=
  match objEst m this with
  | .error e => .error e
  | .ok s =>
    let m0 := ((((m.escribir (.texto "Ingrese valores estaticos (")).escribir
      (.entero s._filas)).escribir (.texto "x")).escribir
      (.entero s._columnas)).escribir (.texto "):\n")
    bucle s._filas.toNat (fun i =>
      bucle s._columnas.toNat (fun j mm =>
        escribirInline this i j (leerEntrada (pedirCelda i j mm)).1
          (leerEntrada (pedirCelda i j mm)).2)) m0

/-- The virtual call `cargarValores()` through a `MatrizBase<T>` reference. -/
def MatrizBase.cargarValores (this : Nat) (m : Memoria T) : Except Falla (Memoria T) :=
  match m.objetos this with
  | some (.dinamica _) => MatrizDinamica.cargarValores this m
  | some (.estatica _) => MatrizEstatica.cargarValores this m
  | none => .error .memoria

/-- `MatrizDinamica::imprimir` (main.cpp 150-161). The manipulator `setw(6)` only pads
the element that follows, so `cout << setw(6) << x` is the item `valor x`. -/
def MatrizDinamica.imprimir (this : Nat) (m : Memoria T) : Except Falla (Memoria T) :=
  match objDin m this with
  | .error e => .error e
  | .ok d =>
    match bucle d._filas.toNat (fun i mi =>
        match bucle d._columnas.toNat (fun j mj =>
            match leerCelda d._datos i j mj with
            | .error e => .error e
            | .ok v => .ok ((mj.escribir (.valor v)).escribir (.texto " ")))
          ((if i ≠ 0 then mi.escribir (.texto "\n") else mi).escribir (.texto "| ")) with
        | .error e => .error e
        | .ok m3 => .ok (m3.escribir (.texto "|")))
      (m.escribir (.texto "| ")) with
    | .error e => .error e
    | .ok m4 => .ok (m4.escribir (.texto "\n"))

/-- `MatrizEstatica::imprimir` (main.cpp 213-221). -/
def MatrizEstatica.imprimir (this : Nat) (m : Memoria T) : Except Falla (Memoria T) :=
  match objEst m this with
  | .error e => .error e
  | .ok s =>
    bucle s._filas.toNat (fun i mi =>
      match bucle s._columnas.toNat (fun j mj =>
          match leerInline s i j with
          | .error e => .error e
          | .ok v => .ok ((mj.escribir (.valor v)).escribir (.texto " ")))
        (mi.escribir (.texto "| ")) with
      | .error e => .error e
      | .ok m3 => .ok (m3.escribir (.texto "|\n"))) m

/-- The virtual call `imprimir()` through a `MatrizBase<T>` reference. -/
def MatrizBase.imprimir (this : Nat) (m : Memoria T) : Except Falla (Memoria T) :=
  match m.objetos this with
  | some (.dinamica _) => MatrizDinamica.imprimir this m
  | some (.estatica _) => MatrizEstatica.imprimir this m
  | none => .error .memoria

/-- The statement `delete p` on a `MatrizBase<T>*` (main.cpp 270-274, 294): the virtual
destructor runs (`~MatrizDinamica` releases the storage, `~MatrizEstatica` is the
default one) and the object ceases to exist. -/
def MatrizBase.destruir (this : Nat) (m : Memoria T) : Except Falla (Memoria T) :=
  match m.objetos this with
  | some (.dinamica _) => MatrizDinamica.destruir this m
  | some (.estatica _) => .ok (m.ponerObjeto this none)
  | none => .error .memoria


/-! ## Representation invariant and footprints -/

/-- Row addresses reachable through a `T**` value. -/
def filasDir (m : Memoria T) (datos : Option Nat) : List Nat :=
  match datos with
  | none => []
  | some p =>
    match m.tablas p with
    | none => []
    | some ps => ps.reduceOption

/-- Entry `q` of a row table points to a live block of `c` elements. -/
def filaValida (m : Memoria T) (c : Nat) (q : Option Nat) : Bool :=
  match q with
  | none => false
  | some r =>
    decide (r < m.libre) &&
      (match m.bloques r with
       | none => false
       | some es => decide (es.length = c))

/-- Representation invariant of a `MatrizDinamica`: `_datos` is null exactly when a
dimension is not positive; otherwise it is a live table of `_filas` distinct live rows
of `_columnas` elements each. -/
def MatrizDinamica.bienFormada (m : Memoria T) (d : MatrizDinamica) : Bool :=
  if d._filas ≤ 0 ∨ d._columnas ≤ 0 then d._datos.isNone
  else
    match d._datos with
    | none => false
    | some p =>
      match m.tablas p with
      | none => false
      | some ps =>
        decide (p < m.libre) && decide (ps.length = d._filas.toNat) &&
          ps.all (filaValida m d._columnas.toNat) && decide ps.Nodup

/-- Representation invariant of a `MatrizEstatica<T, M, N>`: the dimensions are the
template arguments and the inline array is `M` rows of `N` elements. -/
def MatrizEstatica.bienFormada (e : MatrizEstatica T) : Bool :=
  decide (e._filas = (e.M : Int)) && decide (e._columnas = (e.N : Int)) &&
    decide (e._datos.length = e.M) && e._datos.all (fun fila => decide (fila.length = e.N))

/-- The address `a` holds a live matrix object satisfying its representation invariant. -/
def bienFormadaEn (m : Memoria T) (a : Nat) : Bool :=
  match m.objetos a with
  | none => false
  | some (.dinamica d) => decide (a < m.libre) && d.bienFormada m
  | some (.estatica e) => decide (a < m.libre) && e.bienFormada

/-- Everything allocated below address `L` is the same in `m1` as in `m`. -/
def Conserva (L : Nat) (m m1 : Memoria T) : Prop :=
  ∀ a, a < L → m1.tablas a = m.tablas a ∧ m1.bloques a = m.bloques a ∧
    m1.objetos a = m.objetos a

/-- The memory `m1` differs from `m` at most in the contents (not the sizes) of
element blocks. -/
def SoloBloques (m m1 : Memoria T) : Prop :=
  m1.tablas = m.tablas ∧ m1.objetos = m.objetos ∧ m1.libre = m.libre ∧
    m1.basura = m.basura ∧ m1.entrada = m.entrada ∧ m1.salida = m.salida ∧
    ∀ r, (m1.bloques r).map List.length = (m.bloques r).map List.length

/-- Same variant (and, for `MatrizEstatica`, same template arguments). -/
def mismaClase : Option (Objeto T) → Option (Objeto T) → Bool
  | some (.dinamica _), some (.dinamica _) => true
  | some (.estatica e), some (.estatica e1) => decide (e.M = e1.M) && decide (e.N = e1.N)
  | _, _ => false

/-- Post-condition shared by the constructors of `MatrizDinamica` run in memory `m`:
in `m2` a new well-formed `f × c` object sits at `m.libre`, its storage lies above
`m.libre`, its cell `(i, j)` holds `V i j`, and nothing that existed in `m` has changed. -/
def Construida (m : Memoria T) (f c : Int) (V : Nat → Nat → T) (m2 : Memoria T) : Prop :=
  ∃ datos, m2.objetos m.libre = some (.dinamica ⟨f, c, datos⟩) ∧
    MatrizDinamica.bienFormada m2 ⟨f, c, datos⟩ = true ∧
    (∀ a, a ≠ m.libre → m2.objetos a = m.objetos a) ∧
    (∀ a, a < m.libre → m2.tablas a = m.tablas a ∧ m2.bloques a = m.bloques a) ∧
    (∀ r, r ∈ filasDir m2 datos → m.libre < r) ∧
    (∀ p, datos = some p → m.libre < p) ∧
    m.libre < m2.libre ∧ m2.basura = m.basura ∧ m2.entrada = m.entrada ∧
    m2.salida = m.salida ∧
    ∀ i j, i < f.toNat → j < c.toNat → leerCelda datos i j m2 = .ok (V i j)

/-- The memory `m1` differs from `m` at most in the object at address `this`. -/
def SoloObjeto (this : Nat) (m m1 : Memoria T) : Prop :=
  m1.tablas = m.tablas ∧ m1.bloques = m.bloques ∧ m1.libre = m.libre ∧
    m1.basura = m.basura ∧ m1.entrada = m.entrada ∧ m1.salida = m.salida ∧
    ∀ a, a ≠ this → m1.objetos a = m.objetos a

/-- The object `e1` is `e` with (possibly) other element values: same class, same
dimensions, well formed. -/
def MismaForma (e e1 : MatrizEstatica T) : Prop :=
  e1.M = e.M ∧ e1.N = e.N ∧ e1._filas = e._filas ∧ e1._columnas = e._columnas ∧
    e1.bienFormada = true

/-- The value of a successful read (`b` when the read failed). -/
def valorDe (x : Except Falla T) (b : T) : T :=
  match x with
  | .ok v => v
  | .error _ => b

/-- Post-condition of a successful `a.sumar(b)` run in memory `m`: in `m2` the result
sits at `m.libre`, has the class and the dimensions of `a`, is well formed, holds the
element-wise sums, nothing was printed, and nothing that existed in `m` has changed. -/
def Sumada [Add T] (m : Memoria T) (a b : Nat) (m2 : Memoria T) : Prop :=
  Conserva m.libre m m2 ∧ mismaClase (m2.objetos m.libre) (m.objetos a) = true ∧
    MatrizBase.filas m.libre m2 = MatrizBase.filas a m ∧
    MatrizBase.columnas m.libre m2 = MatrizBase.columnas a m ∧
    bienFormadaEn m2 m.libre = true ∧ m2.salida = m.salida ∧
    ∀ (f c : Int) (i j : Nat), MatrizBase.filas a m = .ok f → MatrizBase.columnas a m = .ok c →
      i < f.toNat → j < c.toNat →
      ∃ x y, MatrizBase.obtener a (i : Int) (j : Int) m = .ok x ∧
        MatrizBase.obtener b (i : Int) (j : Int) m = .ok y ∧
        MatrizBase.obtener m.libre (i : Int) (j : Int) m2 = .ok (x + y)

/-- Runs a list of memory-changing steps in order. -/
def enOrden (pasos : List (Memoria T → Except Falla (Memoria T))) (m : Memoria T) :
    Except Falla (Memoria T) :=
  match pasos with
  | [] => .ok m
  | p :: resto =>
    match p m with
    | .error e => .error e
    | .ok m1 => enOrden resto m1

/-- The memory reached if the steps succeed (the starting memory otherwise). -/
def trasPasos (pasos : List (Memoria T → Except Falla (Memoria T))) (m : Memoria T) :
    Memoria T :=
  match enOrden pasos m with
  | .ok m1 => m1
  | .error _ => m

/-- The `int` demonstration of `main` (main.cpp 278-285): `Ai` is a 2×2 dynamic matrix
`[[1,2],[3,4]]` at address 0, `Bi` a 2×2 static matrix `[[5,6],[7,8]]` at address 4. -/
def memDemoInt : Memoria Int :=
  trasPasos
    [fun m => (MatrizDinamica.crear 2 2 m).map Prod.snd,
     fun m => (MatrizEstatica.crear 2 2 m).map Prod.snd,
     MatrizBase.asignar 0 0 0 1, MatrizBase.asignar 0 0 1 2,
     MatrizBase.asignar 0 1 0 3, MatrizBase.asignar 0 1 1 4,
     MatrizBase.asignar 4 0 0 5, MatrizBase.asignar 4 0 1 6,
     MatrizBase.asignar 4 1 0 7, MatrizBase.asignar 4 1 1 8]
    (Memoria.vacia 0)

/-- The `float` demonstration of `main` (main.cpp 239-254) with every value doubled so
that it is an integer: `A` is a 3×2 dynamic matrix at address 0, `B` a 3×2 static
matrix at address 5. -/
def memDemoMixta : Memoria Int :=
  trasPasos
    [fun m => (MatrizDinamica.crear 3 2 m).map Prod.snd,
     fun m => (MatrizEstatica.crear 3 2 m).map Prod.snd,
     MatrizBase.asignar 0 0 0 3, MatrizBase.asignar 0 0 1 4,
     MatrizBase.asignar 0 1 0 0, MatrizBase.asignar 0 1 1 2,
     MatrizBase.asignar 0 2 0 9, MatrizBase.asignar 0 2 1 6,
     MatrizBase.asignar 5 0 0 1, MatrizBase.asignar 5 0 1 2,
     MatrizBase.asignar 5 1 0 4, MatrizBase.asignar 5 1 1 6,
     MatrizBase.asignar 5 2 0 2, MatrizBase.asignar 5 2 1 2]
    (Memoria.vacia 0)

/-- A 2×2 dynamic matrix at address 0 and a 3×2 dynamic matrix at address 4. -/
def memDispar : Memoria Int :=
  trasPasos
    [fun m => (MatrizDinamica.crear 2 2 m).map Prod.snd,
     fun m => (MatrizDinamica.crear 3 2 m).map Prod.snd]
    (Memoria.vacia 0)

/-- The memory left by a call that returns a pointer (the starting memory if it failed). -/
def memoriaTras {α : Type} (x : Except Falla (α × Memoria T)) (m : Memoria T) : Memoria T :=
  match x with
  | .ok (_, m1) => m1
  | .error _ => m

/-- A sequence of calls `asignar(i, j, v)`, each on the grid at the given address. -/
def asignarVarios (ops : List (Nat × Int × Int × T)) (m : Memoria T) :
    Except Falla (Memoria T) :=
  match ops with
  | [] => .ok m
  | (a, i, j, v) :: resto =>
    match MatrizBase.asignar a i j v m with
    | .error e => .error e
    | .ok m1 => asignarVarios resto m1

/-- The two dynamic matrices at `x` and `y` have no row block in common. -/
def separadas (m : Memoria T) (x y : Nat) : Bool :=
  match m.objetos x, m.objetos y with
  | some (.dinamica d1), some (.dinamica d2) =>
    (filasDir m d1._datos).all (fun r => !(filasDir m d2._datos).contains r)
  | _, _ => false

/-- A 2×2 dynamic matrix `[[1,2],[3,4]]` at address 0 and a 3×2 dynamic matrix
`[[5,6],[7,8],[9,10]]` at address 4. -/
def memDosDinamicas : Memoria Int :=
  trasPasos
    [fun m => (MatrizDinamica.crear 2 2 m).map Prod.snd,
     fun m => (MatrizDinamica.crear 3 2 m).map Prod.snd,
     MatrizBase.asignar 0 0 0 1, MatrizBase.asignar 0 0 1 2,
     MatrizBase.asignar 0 1 0 3, MatrizBase.asignar 0 1 1 4,
     MatrizBase.asignar 4 0 0 5, MatrizBase.asignar 4 0 1 6,
     MatrizBase.asignar 4 1 0 7, MatrizBase.asignar 4 1 1 8,
     MatrizBase.asignar 4 2 0 9, MatrizBase.asignar 4 2 1 10]
    (Memoria.vacia 0)

/-- Three dynamic matrices built with non-positive dimensions: `(-1, 2)` at address 0,
`(3, 0)` at address 1 and `(3, 0)` at address 2. None owns storage. -/
def memDegenerada : Memoria Int :=
  trasPasos
    [fun m => (MatrizDinamica.crear (-1) 2 m).map Prod.snd,
     fun m => (MatrizDinamica.crear 3 0 m).map Prod.snd,
     fun m => (MatrizDinamica.crear 3 0 m).map Prod.snd]
    (Memoria.vacia 0)

/-- The memory `m` with the pending input `e` and the output `s`. -/
def Memoria.conES (m : Memoria T) (e : List T) (s : List (Item T)) : Memoria T :=
  { m with entrada := e, salida := s }

/-- The element values among the items written to `cout`, in order (texts and
integers, that is separators and prompts, are dropped). -/
def valoresDe (s : List (Item T)) : List T :=
  s.filterMap (fun x =>
    match x with
    | .valor v => some v
    | _ => none)

/-- The row-major listing `f 0 0, f 0 1, …, f (R-1) (C-1)`. -/
def filaMayor (R C : Nat) (f : Nat → Nat → T) : List T :=
  (List.range R).flatMap (fun i => (List.range C).map (fun j => f i j))

/-- The memory `mm` is `m` after writing to `cout` items whose element values are
`vals`, and nothing else. -/
def Impreso (m : Memoria T) (vals : List T) (mm : Memoria T) : Prop :=
  ∃ nuevos, mm = m.conES m.entrada (m.salida ++ nuevos) ∧ valoresDe nuevos = vals

/-- The invariant of the whole memory: every live object satisfies its representation
invariant, and two distinct dynamic matrices share no row block. -/
def Invariante (m : Memoria T) : Prop :=
  (∀ a o, m.objetos a = some o → bienFormadaEn m a = true) ∧
  (∀ a b da db, a ≠ b → m.objetos a = some (.dinamica da) →
    m.objetos b = some (.dinamica db) →
    ∀ r, r ∈ filasDir m da._datos → r ∉ filasDir m db._datos)

/-- The public operations of the two classes, applied to objects given by address. -/
inductive Operacion (T : Type) where
  | crear (f c : Int)
  | crearEstatica (M N : Nat)
  | copiar (other : Nat)
  | mover (other : Nat)
  | asignarCopia (this other : Nat)
  | asignarMov (this other : Nat)
  | destruir (this : Nat)
  | asignar (this : Nat) (i j : Int) (val : T)
  | cargarValores (this : Nat)
  | sumar (this otra : Nat)
  | imprimir (this : Nat)

/-- The effect of one public operation on the memory. -/
def Operacion.aplicar [Zero T] [Add T] (op : Operacion T) (m : Memoria T) :
    Except Falla (Memoria T) :=
  match op with
  | .crear f c => (MatrizDinamica.crear f c m).map Prod.snd
  | .crearEstatica M N => (MatrizEstatica.crear M N m).map Prod.snd
  | .copiar other => (MatrizDinamica.copiar other m).map Prod.snd
  | .mover other => (MatrizDinamica.mover other m).map Prod.snd
  | .asignarCopia this other => MatrizDinamica.asignarCopia this other m
  | .asignarMov this other => MatrizDinamica.asignarMov this other m
  | .destruir this => MatrizBase.destruir this m
  | .asignar this i j val => MatrizBase.asignar this i j val m
  | .cargarValores this => MatrizBase.cargarValores this m
  | .sumar this otra => (MatrizBase.sumar this otra m).map Prod.snd
  | .imprimir this => MatrizBase.imprimir this m

/-- A sequence of public operations, run in order; it stops at the first failure. -/
def ejecutar [Zero T] [Add T] (ops : List (Operacion T)) (m : Memoria T) :
    Except Falla (Memoria T) :=
  match ops with
  | [] => .ok m
  | op :: resto =>
    match op.aplicar m with
    | .error e => .error e
    | .ok m1 => ejecutar resto m1

/-- The memory reached by a sequence of public operations (the starting memory if one
of them fails). -/
def trasEjecutar [Zero T] [Add T] (ops : List (Operacion T)) (m : Memoria T) : Memoria T :=
  match ejecutar ops m with
  | .ok m1 => m1
  | .error _ => m

/-- A run of public operations from the empty memory with 1, …, 6 in `cin`: two dynamic
matrices are built (2×2 at address 0, 3×2 at address 4), the second is copy-assigned to
the first, the first is loaded from `cin`, the second is moved into a new object
(address 14), and a matrix is built with dimensions `(-1, 2)` (address 15). -/
def opsEjemplo : List (Operacion Int) :=
  [.crear 2 2, .crear 3 2, .asignarCopia 0 4, .cargarValores 0, .mover 4, .crear (-1) 2]

/-- Three constructions from the empty memory: a 2×2 dynamic matrix (address 0), a 2×2
static matrix (address 4) and a 3×2 dynamic matrix (address 5). -/
def opsTres : List (Operacion Int) :=
  [.crear 2 2, .crearEstatica 2 2, .crear 3 2]


/-! ## Basic facts about the memory -/

section Basicos

variable (m : Memoria T)

@[simp] theorem tablas_ponerTabla (a : Nat) (t : Option (List (Option Nat))) (x : Nat) :
    (m.ponerTabla a t).tablas x = if x = a then t else m.tablas x := rfl
@[simp] theorem bloques_ponerTabla (a : Nat) (t : Option (List (Option Nat))) :
    (m.ponerTabla a t).bloques = m.bloques := rfl
@[simp] theorem objetos_ponerTabla (a : Nat) (t : Option (List (Option Nat))) :
    (m.ponerTabla a t).objetos = m.objetos := rfl
@[simp] theorem libre_ponerTabla (a : Nat) (t : Option (List (Option Nat))) :
    (m.ponerTabla a t).libre = m.libre := rfl
@[simp] theorem basura_ponerTabla (a : Nat) (t : Option (List (Option Nat))) :
    (m.ponerTabla a t).basura = m.basura := rfl
@[simp] theorem entrada_ponerTabla (a : Nat) (t : Option (List (Option Nat))) :
    (m.ponerTabla a t).entrada = m.entrada := rfl
@[simp] theorem salida_ponerTabla (a : Nat) (t : Option (List (Option Nat))) :
    (m.ponerTabla a t).salida = m.salida := rfl

@[simp] theorem tablas_ponerBloque (a : Nat) (b : Option (List T)) :
    (m.ponerBloque a b).tablas = m.tablas := rfl
@[simp] theorem bloques_ponerBloque (a : Nat) (b : Option (List T)) (x : Nat) :
    (m.ponerBloque a b).bloques x = if x = a then b else m.bloques x := rfl
@[simp] theorem objetos_ponerBloque (a : Nat) (b : Option (List T)) :
    (m.ponerBloque a b).objetos = m.objetos := rfl
@[simp] theorem libre_ponerBloque (a : Nat) (b : Option (List T)) :
    (m.ponerBloque a b).libre = m.libre := rfl
@[simp] theorem basura_ponerBloque (a : Nat) (b : Option (List T)) :
    (m.ponerBloque a b).basura = m.basura := rfl
@[simp] theorem entrada_ponerBloque (a : Nat) (b : Option (List T)) :
    (m.ponerBloque a b).entrada = m.entrada := rfl
@[simp] theorem salida_ponerBloque (a : Nat) (b : Option (List T)) :
    (m.ponerBloque a b).salida = m.salida := rfl

@[simp] theorem tablas_ponerObjeto (a : Nat) (o : Option (Objeto T)) :
    (m.ponerObjeto a o).tablas = m.tablas := rfl
@[simp] theorem bloques_ponerObjeto (a : Nat) (o : Option (Objeto T)) :
    (m.ponerObjeto a o).bloques = m.bloques := rfl
@[simp] theorem objetos_ponerObjeto (a : Nat) (o : Option (Objeto T)) (x : Nat) :
    (m.ponerObjeto a o).objetos x = if x = a then o else m.objetos x := rfl
@[simp] theorem libre_ponerObjeto (a : Nat) (o : Option (Objeto T)) :
    (m.ponerObjeto a o).libre = m.libre := rfl
@[simp] theorem basura_ponerObjeto (a : Nat) (o : Option (Objeto T)) :
    (m.ponerObjeto a o).basura = m.basura := rfl
@[simp] theorem entrada_ponerObjeto (a : Nat) (o : Option (Objeto T)) :
    (m.ponerObjeto a o).entrada = m.entrada := rfl
@[simp] theorem salida_ponerObjeto (a : Nat) (o : Option (Objeto T)) :
    (m.ponerObjeto a o).salida = m.salida := rfl

@[simp] theorem tablas_avanzar : m.avanzar.tablas = m.tablas := rfl
@[simp] theorem bloques_avanzar : m.avanzar.bloques = m.bloques := rfl
@[simp] theorem objetos_avanzar : m.avanzar.objetos = m.objetos := rfl
@[simp] theorem libre_avanzar : m.avanzar.libre = m.libre + 1 := rfl
@[simp] theorem basura_avanzar : m.avanzar.basura = m.basura := rfl
@[simp] theorem entrada_avanzar : m.avanzar.entrada = m.entrada := rfl
@[simp] theorem salida_avanzar : m.avanzar.salida = m.salida := rfl

@[simp] theorem tablas_escribir (x : Item T) : (m.escribir x).tablas = m.tablas := rfl
@[simp] theorem bloques_escribir (x : Item T) : (m.escribir x).bloques = m.bloques := rfl
@[simp] theorem objetos_escribir (x : Item T) : (m.escribir x).objetos = m.objetos := rfl
@[simp] theorem libre_escribir (x : Item T) : (m.escribir x).libre = m.libre := rfl

end Basicos

/-! ## Loops -/

theorem bucleDesde_inv (cuerpo : Nat → Memoria T → Except Falla (Memoria T))
    (Inv : Nat → Memoria T → Prop) (k : Nat) :
    ∀ (i : Nat) (m : Memoria T), Inv i m →
      (∀ x mm, i ≤ x → x < i + k → Inv x mm → ∃ m1, cuerpo x mm = .ok m1 ∧ Inv (x + 1) m1) →
      ∃ m1, bucleDesde cuerpo i k m = .ok m1 ∧ Inv (i + k) m1 := by
  induction k with
  | zero => intro i m h _; exact ⟨m, rfl, by simpa using h⟩
  | succ k ih =>
    intro i m h paso
    obtain ⟨m1, h1, hinv⟩ := paso i m (Nat.le_refl i) (by omega) h
    obtain ⟨m2, h2, hinv2⟩ := ih (i + 1) m1 hinv (fun x mm hx hx2 hI =>
      paso x mm (by omega) (by omega) hI)
    refine ⟨m2, ?_, ?_⟩
    · simp only [bucleDesde, h1, h2]
    · have : i + (k + 1) = i + 1 + k := by omega
      rw [this]; exact hinv2

/-- Invariant rule for `for (int i = 0; i < n; ++i)`: the loop terminates normally and
establishes `Inv n` when every iteration succeeds and carries `Inv i` to `Inv (i+1)`. -/
theorem bucle_inv (n : Nat) (cuerpo : Nat → Memoria T → Except Falla (Memoria T))
    (Inv : Nat → Memoria T → Prop) (m : Memoria T) (h0 : Inv 0 m)
    (paso : ∀ x mm, x < n → Inv x mm → ∃ m1, cuerpo x mm = .ok m1 ∧ Inv (x + 1) m1) :
    ∃ m1, bucle n cuerpo m = .ok m1 ∧ Inv n m1 := by
  have := bucleDesde_inv cuerpo Inv n 0 m h0 (fun x mm _ hx hI => paso x mm (by omega) hI)
  simpa [bucle] using this

theorem bucle_cero (cuerpo : Nat → Memoria T → Except Falla (Memoria T)) (m : Memoria T) :
    bucle 0 cuerpo m = .ok m := rfl


/-! ## The representation invariant, unfolded -/

theorem bienFormada_deg {m : Memoria T} {d : MatrizDinamica}
    (h : d.bienFormada m = true) (hd : d._filas ≤ 0 ∨ d._columnas ≤ 0) : d._datos = none := by
  unfold MatrizDinamica.bienFormada at h
  rw [if_pos hd] at h
  cases hx : d._datos with
  | none => rfl
  | some p => rw [hx] at h; simp at h

theorem bienFormada_pos {m : Memoria T} {d : MatrizDinamica}
    (h : d.bienFormada m = true) (hd : ¬ (d._filas ≤ 0 ∨ d._columnas ≤ 0)) :
    ∃ p ps, d._datos = some p ∧ m.tablas p = some ps ∧ p < m.libre ∧
      ps.length = d._filas.toNat ∧
      (∀ q ∈ ps, filaValida m d._columnas.toNat q = true) ∧ ps.Nodup := by
  unfold MatrizDinamica.bienFormada at h
  rw [if_neg hd] at h
  cases hx : d._datos with
  | none => rw [hx] at h; simp at h
  | some p =>
    rw [hx] at h
    cases ht : m.tablas p with
    | none => simp [ht] at h
    | some ps =>
      simp only [ht, Bool.and_eq_true, decide_eq_true_eq, List.all_eq_true] at h
      exact ⟨p, ps, rfl, ht, h.1.1.1, h.1.1.2, h.1.2, h.2⟩

theorem bienFormada_of {m : Memoria T} {d : MatrizDinamica} {p : Nat}
    {ps : List (Option Nat)} (hd : ¬ (d._filas ≤ 0 ∨ d._columnas ≤ 0))
    (hp : d._datos = some p) (ht : m.tablas p = some ps) (hl : p < m.libre)
    (hlen : ps.length = d._filas.toNat)
    (hall : ∀ q ∈ ps, filaValida m d._columnas.toNat q = true) (hnd : ps.Nodup) :
    d.bienFormada m = true := by
  unfold MatrizDinamica.bienFormada
  rw [if_neg hd, hp]
  simp only [ht, Bool.and_eq_true, decide_eq_true_eq, List.all_eq_true]
  exact ⟨⟨⟨hl, hlen⟩, hall⟩, hnd⟩

theorem filaValida_iff {m : Memoria T} {c : Nat} {q : Option Nat} :
    filaValida m c q = true ↔
      ∃ r es, q = some r ∧ r < m.libre ∧ m.bloques r = some es ∧ es.length = c := by
  cases q with
  | none => simp [filaValida]
  | some r =>
    cases hb : m.bloques r with
    | none => simp [filaValida, hb]
    | some es => simp [filaValida, hb]

/-- In a well-formed table every index below the length leads to a live row. -/
theorem fila_de_tabla {m : Memoria T} {c : Nat} {ps : List (Option Nat)}
    (hall : ∀ q ∈ ps, filaValida m c q = true) {i : Nat} (hi : i < ps.length) :
    ∃ r es, ps[i]? = some (some r) ∧ r < m.libre ∧ m.bloques r = some es ∧
      es.length = c := by
  have hmem : ps[i] ∈ ps := List.getElem_mem hi
  obtain ⟨r, es, hq, hr, hb, hl⟩ := filaValida_iff.mp (hall _ hmem)
  refine ⟨r, es, ?_, hr, hb, hl⟩
  rw [List.getElem?_eq_getElem hi, hq]

theorem filas_distintas {ps : List (Option Nat)} (hnd : ps.Nodup) {i k : Nat} {r : Nat}
    (hi : ps[i]? = some (some r)) (hk : ps[k]? = some (some r)) : i = k := by
  obtain ⟨h1, e1⟩ := List.getElem?_eq_some.mp hi
  obtain ⟨h2, e2⟩ := List.getElem?_eq_some.mp hk
  exact (hnd.getElem_inj_iff).mp (e1.trans e2.symm)

theorem mem_filasDir {m : Memoria T} {p : Nat} {ps : List (Option Nat)}
    (ht : m.tablas p = some ps) {i r : Nat} (hi : ps[i]? = some (some r)) :
    r ∈ filasDir m (some p) := by
  simp only [filasDir, ht]
  exact List.reduceOption_mem_iff.mpr (List.getElem?_mem hi)

theorem filasDir_lt {m : Memoria T} {d : MatrizDinamica} (h : d.bienFormada m = true)
    {r : Nat} (hr : r ∈ filasDir m d._datos) : r < m.libre := by
  by_cases hd : d._filas ≤ 0 ∨ d._columnas ≤ 0
  · rw [bienFormada_deg h hd] at hr; simp [filasDir] at hr
  · obtain ⟨p, ps, hp, ht, _, _, hall, _⟩ := bienFormada_pos h hd
    rw [hp] at hr
    simp only [filasDir, ht] at hr
    obtain ⟨r1, _, hq, hlt, _⟩ := filaValida_iff.mp (hall _ (List.reduceOption_mem_iff.mp hr))
    cases hq; exact hlt

/-! ## Reading and writing cells -/

/-- Reading through `datos` only depends on its table and on the rows it points to. -/
theorem leerCelda_marco {m m1 : Memoria T} {datos : Option Nat}
    (ht : ∀ p, datos = some p → m1.tablas p = m.tablas p)
    (hb : ∀ r ∈ filasDir m datos, m1.bloques r = m.bloques r) (i j : Nat) :
    leerCelda datos i j m1 = leerCelda datos i j m := by
  cases datos with
  | none => rfl
  | some p =>
    have htp := ht p rfl
    simp only [leerCelda, htp]
    cases hps : m.tablas p with
    | none => rfl
    | some ps =>
      simp only []
      cases hq : ps[i]? with
      | none => rfl
      | some q =>
        cases q with
        | none => rfl
        | some r =>
          simp only []
          rw [hb r (mem_filasDir hps hq)]

theorem leerCelda_ok {m : Memoria T} {d : MatrizDinamica} (h : d.bienFormada m = true)
    {i j : Nat} (hi : i < d._filas.toNat) (hj : j < d._columnas.toNat) :
    ∃ v, leerCelda d._datos i j m = .ok v := by
  have hd : ¬ (d._filas ≤ 0 ∨ d._columnas ≤ 0) := by omega
  obtain ⟨p, ps, hp, ht, _, hlen, hall, _⟩ := bienFormada_pos h hd
  obtain ⟨r, es, hq, _, hb, hl⟩ := fila_de_tabla hall (i := i) (by omega)
  have hj2 : j < es.length := by omega
  refine ⟨es[j], ?_⟩
  simp [leerCelda, hp, ht, hq, hb, List.getElem?_eq_getElem hj2]

/-- The effect of `_datos[i][j] = v` on a well-formed matrix: it succeeds, changes one
element of one row block of the matrix, and afterwards the matrix reads `v` at `(i, j)`
and what it read before everywhere else. -/
theorem escribirCelda_ok {m : Memoria T} {d : MatrizDinamica} (h : d.bienFormada m = true)
    {i j : Nat} (hi : i < d._filas.toNat) (hj : j < d._columnas.toNat) (v : T) :
    ∃ r es, r ∈ filasDir m d._datos ∧ m.bloques r = some es ∧ j < es.length ∧
      escribirCelda d._datos i j v m = .ok (m.ponerBloque r (some (es.set j v))) ∧
      leerCelda d._datos i j (m.ponerBloque r (some (es.set j v))) = .ok v ∧
      ∀ i1 j1, ¬ (i1 = i ∧ j1 = j) →
        leerCelda d._datos i1 j1 (m.ponerBloque r (some (es.set j v))) =
          leerCelda d._datos i1 j1 m := by
  have hd : ¬ (d._filas ≤ 0 ∨ d._columnas ≤ 0) := by omega
  obtain ⟨p, ps, hp, ht, _, hlen, hall, hnd⟩ := bienFormada_pos h hd
  obtain ⟨r, es, hq, _, hb, hl⟩ := fila_de_tabla hall (i := i) (by omega)
  have hj2 : j < es.length := by omega
  refine ⟨r, es, ?_, hb, hj2, ?_, ?_, ?_⟩
  · rw [hp]; exact mem_filasDir ht hq
  · simp [escribirCelda, hp, ht, hq, hb, hj2]
  · simp [leerCelda, hp, ht, hq, List.getElem?_set, hj2]
  · intro i1 j1 hne
    simp only [leerCelda, hp, tablas_ponerBloque, ht, bloques_ponerBloque]
    cases hq1 : ps[i1]? with
    | none => rfl
    | some q1 =>
      cases q1 with
      | none => rfl
      | some r1 =>
        simp only []
        by_cases hr : r1 = r
        · subst hr
          have hii : i1 = i := filas_distintas hnd hq1 hq
          have hjj : j1 ≠ j := fun e => hne ⟨hii, e⟩
          simp [hb, List.getElem?_set_ne (Ne.symm hjj)]
        · simp [hr]

/-! ## Memories that differ only in block contents -/

theorem soloBloques_refl (m : Memoria T) : SoloBloques m m :=
  ⟨rfl, rfl, rfl, rfl, rfl, rfl, fun _ => rfl⟩

theorem soloBloques_trans {m m1 m2 : Memoria T} (h1 : SoloBloques m m1)
    (h2 : SoloBloques m1 m2) : SoloBloques m m2 := by
  obtain ⟨a1, a2, a3, a4, a5, a6, a7⟩ := h1
  obtain ⟨b1, b2, b3, b4, b5, b6, b7⟩ := h2
  exact ⟨b1.trans a1, b2.trans a2, b3.trans a3, b4.trans a4, b5.trans a5, b6.trans a6,
    fun r => (b7 r).trans (a7 r)⟩

theorem soloBloques_ponerBloque {m : Memoria T} {r : Nat} {es : List T}
    (hb : m.bloques r = some es) (j : Nat) (v : T) :
    SoloBloques m (m.ponerBloque r (some (es.set j v))) := by
  refine ⟨rfl, rfl, rfl, rfl, rfl, rfl, fun x => ?_⟩
  by_cases hx : x = r
  · subst hx; simp [hb]
  · simp [hx]

theorem filaValida_solo {m m1 : Memoria T} (h : SoloBloques m m1) (c : Nat)
    (q : Option Nat) : filaValida m1 c q = filaValida m c q := by
  obtain ⟨_, _, h3, _, _, _, h7⟩ := h
  cases q with
  | none => rfl
  | some r =>
    have := h7 r
    simp only [filaValida, h3]
    cases hb1 : m1.bloques r <;> cases hb : m.bloques r <;> simp [hb1, hb] at this ⊢
    rw [this]

theorem bienFormada_solo {m m1 : Memoria T} (h : SoloBloques m m1) (d : MatrizDinamica) :
    d.bienFormada m1 = d.bienFormada m := by
  have hf : filaValida m1 d._columnas.toNat = filaValida m d._columnas.toNat :=
    funext (filaValida_solo h _)
  obtain ⟨h1, _, h3, _⟩ := h
  simp only [MatrizDinamica.bienFormada, h1, h3, hf]

theorem filasDir_solo {m m1 : Memoria T} (h : SoloBloques m m1) (datos : Option Nat) :
    filasDir m1 datos = filasDir m datos := by
  simp only [filasDir, h.1]


/-! ## Filling a dynamic matrix cell by cell -/

/-- The two nested loops `for i … for j … _datos[i][j] = V i j` over a well-formed
matrix: they terminate normally, touch only the row blocks of the matrix, and leave
`V i j` in every cell. The body may be any code that, while only those blocks have
changed, behaves like the assignment. -/
theorem llenar_spec {m1 : Memoria T} {d : MatrizDinamica} (h : d.bienFormada m1 = true)
    (V : Nat → Nat → T) (cuerpo : Nat → Nat → Memoria T → Except Falla (Memoria T))
    (hc : ∀ i j mm, i < d._filas.toNat → j < d._columnas.toNat → SoloBloques m1 mm →
      (∀ r, r ∉ filasDir m1 d._datos → mm.bloques r = m1.bloques r) →
      cuerpo i j mm = escribirCelda d._datos i j (V i j) mm) :
    ∃ m2, bucle d._filas.toNat (fun i => bucle d._columnas.toNat (fun j => cuerpo i j)) m1
        = .ok m2 ∧
      SoloBloques m1 m2 ∧ (∀ r, r ∉ filasDir m1 d._datos → m2.bloques r = m1.bloques r) ∧
      ∀ i j, i < d._filas.toNat → j < d._columnas.toNat →
        leerCelda d._datos i j m2 = .ok (V i j) := by
  let Hecho : Nat → Nat → Memoria T → Prop := fun i j mm =>
    SoloBloques m1 mm ∧ (∀ r, r ∉ filasDir m1 d._datos → mm.bloques r = m1.bloques r) ∧
    ∀ i1 j1, j1 < d._columnas.toNat → (i1 < i ∨ (i1 = i ∧ j1 < j)) →
      leerCelda d._datos i1 j1 mm = .ok (V i1 j1)
  have interno : ∀ i mm, i < d._filas.toNat → Hecho i 0 mm →
      ∃ m2, bucle d._columnas.toNat (fun j => cuerpo i j) mm = .ok m2 ∧ Hecho (i + 1) 0 m2 := by
    intro i mm hi hI
    obtain ⟨m2, hm2, hs, hfr, hcel⟩ := bucle_inv d._columnas.toNat (fun j => cuerpo i j)
      (fun j mm => Hecho i j mm) mm hI (by
        intro j m3 hj ⟨hs, hfr, hcel⟩
        have hwf : d.bienFormada m3 = true := by rw [bienFormada_solo hs]; exact h
        obtain ⟨r, es, hr, hb, _, hw, hrd, hotros⟩ := escribirCelda_ok hwf hi hj (V i j)
        refine ⟨_, (hc i j m3 hi hj hs hfr).trans hw, ?_, ?_, ?_⟩
        · exact soloBloques_trans hs (soloBloques_ponerBloque hb j (V i j))
        · intro r1 hr1
          have hne : r1 ≠ r := by
            intro e; subst e; rw [filasDir_solo hs] at hr; exact hr1 hr
          simp [hne, hfr r1 hr1]
        · intro i1 j1 hj1 hcase
          by_cases hij : i1 = i ∧ j1 = j
          · obtain ⟨e1, e2⟩ := hij
            subst e1; subst e2; exact hrd
          · rw [hotros i1 j1 hij]
            apply hcel i1 j1 hj1
            rcases hcase with hlt | ⟨e1, hlt⟩
            · exact Or.inl hlt
            · refine Or.inr ⟨e1, ?_⟩
              have : j1 ≠ j := fun e => hij ⟨e1, e⟩
              omega)
    refine ⟨m2, hm2, hs, hfr, ?_⟩
    intro i1 j1 hj1 hcase
    apply hcel i1 j1 hj1
    rcases hcase with hlt | ⟨_, hlt⟩
    · by_cases e : i1 = i
      · exact Or.inr ⟨e, hj1⟩
      · exact Or.inl (by omega)
    · omega
  obtain ⟨m2, hm2, hs, hfr, hcel⟩ := bucle_inv d._filas.toNat
    (fun i => bucle d._columnas.toNat (fun j => cuerpo i j))
    (fun i mm => Hecho i 0 mm) m1
    ⟨soloBloques_refl m1, fun _ _ => rfl, by
      intro i1 j1 _ hcase
      rcases hcase with hlt | ⟨_, hlt⟩ <;> omega⟩
    (fun i mm hi hI => interno i mm hi hI)
  exact ⟨m2, hm2, hs, hfr, fun i j hi hj => hcel i j hj (Or.inl hi)⟩


/-! ## `reservar` and the constructors of `MatrizDinamica` -/

theorem objDin_eq {m : Memoria T} {a : Nat} {d : MatrizDinamica}
    (h : m.objetos a = some (.dinamica d)) : objDin m a = .ok d := by
  simp [objDin, h]

theorem objEst_eq {m : Memoria T} {a : Nat} {e : MatrizEstatica T}
    (h : m.objetos a = some (.estatica e)) : objEst m a = .ok e := by
  simp [objEst, h]

theorem tabla_explicita {ps : List (Option Nat)} {n p : Nat} (hlen : ps.length = n)
    (hval : ∀ i, i < n → ps[i]? = some (some (p + 1 + i))) :
    ps = (List.range n).map (fun i => some (p + 1 + i)) := by
  apply List.ext_getElem?
  intro i
  by_cases hi : i < n
  · rw [hval i hi, List.getElem?_map, List.getElem?_range hi]; rfl
  · rw [List.getElem?_eq_none (by omega), List.getElem?_eq_none (by simp; omega)]

/-- `reservar(f, c)` with both arguments positive: a table at the first free address
`p`, followed by `f` fresh rows of `c` elements at `p+1 … p+f`. -/
theorem reservar_pos {m0 : Memoria T} {this : Nat} {d0 : MatrizDinamica} {f c : Int}
    (hobj : m0.objetos this = some (.dinamica d0)) (hf : 0 < f) (hc : 0 < c) :
    ∃ m1, MatrizDinamica.reservar this f c m0 = .ok m1 ∧
      m1.objetos = (m0.ponerObjeto this
        (some (.dinamica { d0 with _datos := some m0.libre }))).objetos ∧
      m1.tablas m0.libre = some ((List.range f.toNat).map (fun i => some (m0.libre + 1 + i))) ∧
      (∀ a, a ≠ m0.libre → m1.tablas a = m0.tablas a) ∧
      (∀ i, i < f.toNat →
        m1.bloques (m0.libre + 1 + i) = some (List.replicate c.toNat m0.basura)) ∧
      (∀ a, a ≤ m0.libre → m1.bloques a = m0.bloques a) ∧
      m1.libre = m0.libre + 1 + f.toNat ∧ m1.basura = m0.basura ∧
      m1.entrada = m0.entrada ∧ m1.salida = m0.salida := by
  have hd : ¬ (f ≤ 0 ∨ c ≤ 0) := by omega
  simp only [MatrizDinamica.reservar, objDin_eq hobj, if_neg hd]
  obtain ⟨m1, hm1, hlib, ⟨ps, htab, hlen, hval⟩, htabs, hblo, hblo0, hobjs, hbas, hent, hsal⟩ :=
    bucle_inv f.toNat (reservarFila m0.libre c.toNat)
      (fun k mm => mm.libre = m0.libre + 1 + k ∧
        (∃ ps, mm.tablas m0.libre = some ps ∧ ps.length = f.toNat ∧
          ∀ i, i < k → ps[i]? = some (some (m0.libre + 1 + i))) ∧
        (∀ a, a ≠ m0.libre → mm.tablas a = m0.tablas a) ∧
        (∀ i, i < k →
          mm.bloques (m0.libre + 1 + i) = some (List.replicate c.toNat m0.basura)) ∧
        (∀ a, a ≤ m0.libre → mm.bloques a = m0.bloques a) ∧
        mm.objetos = (m0.ponerObjeto this
          (some (.dinamica { d0 with _datos := some m0.libre }))).objetos ∧
        mm.basura = m0.basura ∧ mm.entrada = m0.entrada ∧ mm.salida = m0.salida)
      (((m0.ponerTabla m0.libre (some (List.replicate f.toNat none))).avanzar).ponerObjeto this
        (some (.dinamica { d0 with _datos := some m0.libre })))
      (by
        beta_reduce
        refine ⟨rfl, ⟨List.replicate f.toNat none, by simp, by simp, by intro i hi; omega⟩,
          ?_, ?_, ?_, rfl, rfl, rfl, rfl⟩
        · intro a ha; simp [ha]
        · intro i hi; omega
        · intro a _; rfl)
      (by
        intro k mm hk ⟨hlib, ⟨ps, htab, hlen, hval⟩, htabs, hblo, hblo0, hobjs, hbas, hent, hsal⟩
        have hk2 : k < ps.length := by omega
        beta_reduce
        refine ⟨_, by simp [reservarFila, htab, hk2]; rfl, ?_, ⟨ps.set k (some mm.libre), ?_, ?_, ?_⟩,
          ?_, ?_, ?_, ?_, ?_, ?_, ?_⟩
        · simp [hlib]; omega
        · simp
        · simp [hlen]
        · intro i hi
          by_cases hik : i = k
          · subst hik; simp [List.getElem?_set, hk2, hlib]
          · rw [List.getElem?_set_ne (Ne.symm hik)]; exact hval i (by omega)
        · intro a ha; simp [ha, htabs a ha]
        · intro i hi
          by_cases hik : i = k
          · subst hik; simp [hlib, hbas]
          · have : m0.libre + 1 + i ≠ mm.libre := by omega
            simp [this]; exact hblo i (by omega)
        · intro a ha
          have : a ≠ mm.libre := by omega
          simp [this]; exact hblo0 a ha
        · simpa using hobjs
        · simpa using hbas
        · simpa using hent
        · simpa using hsal)
  exact ⟨m1, hm1, hobjs, by rw [htab, tabla_explicita hlen hval], htabs, hblo, hblo0, hlib,
    hbas, hent, hsal⟩

theorem reservar_deg {m0 : Memoria T} {this : Nat} {d0 : MatrizDinamica} {f c : Int}
    (hobj : m0.objetos this = some (.dinamica d0)) (hd : f ≤ 0 ∨ c ≤ 0) :
    MatrizDinamica.reservar this f c m0 =
      .ok (m0.ponerObjeto this (some (.dinamica { d0 with _datos := none }))) := by
  simp only [MatrizDinamica.reservar, objDin_eq hobj, if_pos hd]


/-- `reservar(f, c)` on an object whose fields are `(f, c, nullptr)`: it succeeds, the
object becomes well formed, its storage is fresh, and nothing else changes. -/
theorem reservar_spec (m0 : Memoria T) (this : Nat) (f c : Int)
    (hobj : m0.objetos this = some (.dinamica ⟨f, c, none⟩)) :
    ∃ m1 datos, MatrizDinamica.reservar this f c m0 = .ok m1 ∧
      m1.objetos this = some (.dinamica ⟨f, c, datos⟩) ∧
      MatrizDinamica.bienFormada m1 ⟨f, c, datos⟩ = true ∧
      (∀ a, a ≠ this → m1.objetos a = m0.objetos a) ∧
      (∀ a, a < m0.libre → m1.tablas a = m0.tablas a ∧ m1.bloques a = m0.bloques a) ∧
      (∀ r, r ∈ filasDir m1 datos → m0.libre ≤ r) ∧
      (∀ p, datos = some p → m0.libre ≤ p) ∧
      m0.libre ≤ m1.libre ∧ m1.basura = m0.basura ∧ m1.entrada = m0.entrada ∧
      m1.salida = m0.salida := by
  by_cases hd : f ≤ 0 ∨ c ≤ 0
  · refine ⟨_, none, reservar_deg hobj hd, by simp, ?_, ?_, ?_, ?_, ?_, Nat.le_refl _,
      rfl, rfl, rfl⟩
    · simp [MatrizDinamica.bienFormada, hd]
    · intro a ha; simp [ha]
    · intro a _; exact ⟨rfl, rfl⟩
    · intro r hr; simp [filasDir] at hr
    · intro p hp; cases hp
  · have hf : 0 < f := by omega
    have hc : 0 < c := by omega
    obtain ⟨m1, hm1, hobjs, htab, htabs, hblo, hblo0, hlib, hbas, hent, hsal⟩ :=
      reservar_pos hobj hf hc
    refine ⟨m1, some m0.libre, hm1, by rw [hobjs]; simp, ?_, ?_, ?_, ?_, ?_, by omega,
      hbas, hent, hsal⟩
    · refine bienFormada_of (p := m0.libre) hd rfl htab (by omega) (by simp) ?_ ?_
      · intro q hq
        obtain ⟨i, hi, rfl⟩ := List.mem_map.mp hq
        have hi2 : i < f.toNat := List.mem_range.mp hi
        exact filaValida_iff.mpr ⟨_, _, rfl, by omega, hblo i hi2, by simp⟩
      · refine List.Nodup.map ?_ (List.nodup_range _)
        intro a b hab
        simp only [Option.some.injEq] at hab
        omega
    · intro a ha; rw [hobjs]; simp [ha]
    · intro a ha; exact ⟨htabs a (by omega), hblo0 a (by omega)⟩
    · intro r hr
      simp only [filasDir, htab] at hr
      obtain ⟨i, _, hi⟩ := List.mem_map.mp (List.reduceOption_mem_iff.mp hr)
      simp only [Option.some.injEq] at hi
      omega
    · intro p hp; cases hp; exact Nat.le_refl _

/-- The common part of the constructors of `MatrizDinamica`: base-class initialisation
at the first free address, `reservar`, and the two loops that fill the cells. -/
theorem construir_spec (m : Memoria T) (f c : Int) (V : Nat → Nat → T)
    (cuerpo : Option Nat → Nat → Nat → Memoria T → Except Falla (Memoria T))
    (hc : ∀ datos i j mm, i < f.toNat → j < c.toNat → Conserva m.libre m mm →
      cuerpo datos i j mm = escribirCelda datos i j (V i j) mm) :
    ∃ m1 d m2,
      MatrizDinamica.reservar m.libre f c
        (m.ponerObjeto m.libre (some (.dinamica ⟨f, c, none⟩))).avanzar = .ok m1 ∧
      objDin m1 m.libre = .ok d ∧
      bucle d._filas.toNat (fun i => bucle d._columnas.toNat (fun j => cuerpo d._datos i j)) m1
        = .ok m2 ∧
      Construida m f c V m2 := by
  obtain ⟨m1, datos, hm1, hobj, hwf, hobjs, hmem, hrows, hp, hlib, hbas, hent, hsal⟩ :=
    reservar_spec (m.ponerObjeto m.libre (some (.dinamica ⟨f, c, none⟩))).avanzar
      m.libre f c (by simp)
  simp only [libre_avanzar, libre_ponerObjeto, tablas_avanzar, tablas_ponerObjeto,
    bloques_avanzar, bloques_ponerObjeto, objetos_avanzar, objetos_ponerObjeto,
    basura_avanzar, basura_ponerObjeto, entrada_avanzar, entrada_ponerObjeto,
    salida_avanzar, salida_ponerObjeto] at hobjs hmem hrows hp hlib hbas hent hsal
  obtain ⟨m2, hm2, hs, hfr, hcel⟩ := llenar_spec hwf V (fun i j => cuerpo datos i j) (by
    intro i j mm hi hj hsolo hmarco
    apply hc datos i j mm hi hj
    intro a ha
    have hnot : a ∉ filasDir m1 datos := fun hin => by have := hrows a hin; omega
    refine ⟨?_, ?_, ?_⟩
    · rw [hsolo.1]; exact (hmem a (by omega)).1
    · rw [hmarco a hnot]; exact (hmem a (by omega)).2
    · rw [hsolo.2.1, hobjs a (by omega)]; simp [Nat.ne_of_lt ha])
  refine ⟨m1, ⟨f, c, datos⟩, m2, hm1, objDin_eq hobj, hm2, datos, ?_, ?_, ?_, ?_, ?_, ?_, ?_,
    ?_, ?_, ?_, hcel⟩
  · rw [hs.2.1]; exact hobj
  · rw [bienFormada_solo hs]; exact hwf
  · intro a ha; rw [hs.2.1, hobjs a ha]; simp [ha]
  · intro a ha
    have hnot : a ∉ filasDir m1 datos := fun hin => by have := hrows a hin; omega
    exact ⟨by rw [hs.1]; exact (hmem a (by omega)).1,
      by rw [hfr a hnot]; exact (hmem a (by omega)).2⟩
  · intro r hr; rw [filasDir_solo hs] at hr; have := hrows r hr; omega
  · intro p hpp; have := hp p hpp; omega
  · rw [hs.2.2.1]; omega
  · rw [hs.2.2.2.1]; exact hbas
  · rw [hs.2.2.2.2.1]; exact hent
  · rw [hs.2.2.2.2.2.1]; exact hsal

/-- The constructor `MatrizDinamica(f, c)` always succeeds and builds a well-formed
object whose cells (if any) are all `T()`. -/
theorem crear_spec [Zero T] (f c : Int) (m : Memoria T) :
    ∃ m2, MatrizDinamica.crear f c m = .ok (m.libre, m2) ∧
      Construida m f c (fun _ _ => (0 : T)) m2 := by
  obtain ⟨m1, d, m2, h1, h2, h3, h4⟩ := construir_spec m f c (fun _ _ => (0 : T))
    (fun datos i j => escribirCelda datos i j (0 : T)) (fun _ _ _ _ _ _ _ => rfl)
  exact ⟨m2, by simp only [MatrizDinamica.crear, h1, h2, h3], h4⟩


/-! ## Inline storage of `MatrizEstatica` -/

theorem bienFormadaE_iff {e : MatrizEstatica T} :
    e.bienFormada = true ↔ e._filas = (e.M : Int) ∧ e._columnas = (e.N : Int) ∧
      e._datos.length = e.M ∧ ∀ fila ∈ e._datos, fila.length = e.N := by
  simp [MatrizEstatica.bienFormada, and_assoc]

theorem leerInline_ok {e : MatrizEstatica T} (h : e.bienFormada = true) {i j : Nat}
    (hi : i < e.M) (hj : j < e.N) : ∃ v, leerInline e i j = .ok v := by
  obtain ⟨_, _, hlen, hrows⟩ := bienFormadaE_iff.mp h
  have hi2 : i < e._datos.length := by omega
  have hj2 : j < (e._datos[i]).length := by rw [hrows _ (List.getElem_mem hi2)]; exact hj
  exact ⟨(e._datos[i])[j], by
    simp [leerInline, List.getElem?_eq_getElem hi2, List.getElem?_eq_getElem hj2]⟩

theorem soloObjeto_refl (this : Nat) (m : Memoria T) : SoloObjeto this m m :=
  ⟨rfl, rfl, rfl, rfl, rfl, rfl, fun _ _ => rfl⟩

theorem soloObjeto_trans {this : Nat} {m m1 m2 : Memoria T} (h1 : SoloObjeto this m m1)
    (h2 : SoloObjeto this m1 m2) : SoloObjeto this m m2 := by
  obtain ⟨a1, a2, a3, a4, a5, a6, a7⟩ := h1
  obtain ⟨b1, b2, b3, b4, b5, b6, b7⟩ := h2
  exact ⟨b1.trans a1, b2.trans a2, b3.trans a3, b4.trans a4, b5.trans a5, b6.trans a6,
    fun a ha => (b7 a ha).trans (a7 a ha)⟩

theorem soloObjeto_ponerObjeto (this : Nat) (m : Memoria T) (o : Option (Objeto T)) :
    SoloObjeto this m (m.ponerObjeto this o) :=
  ⟨rfl, rfl, rfl, rfl, rfl, rfl, fun a ha => by simp [ha]⟩

/-- The effect of `_datos[i][j] = v` on a well-formed static matrix. -/
theorem escribirInline_ok {m : Memoria T} {this : Nat} {e : MatrizEstatica T}
    (hobj : m.objetos this = some (.estatica e)) (h : e.bienFormada = true) {i j : Nat}
    (hi : i < e.M) (hj : j < e.N) (v : T) :
    ∃ e1, escribirInline this i j v m = .ok (m.ponerObjeto this (some (.estatica e1))) ∧
      MismaForma e e1 ∧ leerInline e1 i j = .ok v ∧
      ∀ i1 j1, ¬ (i1 = i ∧ j1 = j) → leerInline e1 i1 j1 = leerInline e i1 j1 := by
  obtain ⟨hf, hc, hlen, hrows⟩ := bienFormadaE_iff.mp h
  have hi2 : i < e._datos.length := by omega
  have hj2 : j < (e._datos[i]).length := by rw [hrows _ (List.getElem_mem hi2)]; exact hj
  refine ⟨{ e with _datos := e._datos.set i ((e._datos[i]).set j v) }, ?_, ?_, ?_, ?_⟩
  · simp [escribirInline, objEst_eq hobj, List.getElem?_eq_getElem hi2, hj2]
  · refine ⟨rfl, rfl, rfl, rfl, bienFormadaE_iff.mpr ⟨hf, hc, by simpa using hlen, ?_⟩⟩
    intro fila hfila
    rcases List.mem_or_eq_of_mem_set hfila with hm | he
    · exact hrows _ hm
    · rw [he, List.length_set]; exact hrows _ (List.getElem_mem hi2)
  · simp [leerInline, List.getElem?_set, hi2, hj2]
  · intro i1 j1 hne
    by_cases hii : i1 = i
    · subst hii
      have hjj : j ≠ j1 := fun e0 => hne ⟨rfl, e0.symm⟩
      simp [leerInline, List.getElem?_set, hi2, List.getElem?_eq_getElem hi2, hjj]
    · simp [leerInline, List.getElem?_set_ne (Ne.symm hii)]

/-- The two nested loops `for i < M … for j < N … _datos[i][j] = V i j` over a
well-formed static matrix: they terminate normally, change only that object, keep its
shape, and leave `V i j` in every cell. -/
theorem llenarInline_spec (m1 : Memoria T) (this : Nat) (e : MatrizEstatica T)
    (hobj : m1.objetos this = some (.estatica e)) (h : e.bienFormada = true)
    (V : Nat → Nat → T) (cuerpo : Nat → Nat → Memoria T → Except Falla (Memoria T))
    (hc : ∀ i j mm e1, i < e.M → j < e.N → SoloObjeto this m1 mm →
      mm.objetos this = some (.estatica e1) → MismaForma e e1 →
      cuerpo i j mm = escribirInline this i j (V i j) mm) :
    ∃ m2 e2, bucle e.M (fun i => bucle e.N (fun j => cuerpo i j)) m1 = .ok m2 ∧
      SoloObjeto this m1 m2 ∧ m2.objetos this = some (.estatica e2) ∧ MismaForma e e2 ∧
      ∀ i j, i < e.M → j < e.N → leerInline e2 i j = .ok (V i j) := by
  let Hecho : Nat → Nat → Memoria T → Prop := fun i j mm =>
    SoloObjeto this m1 mm ∧ ∃ e1, mm.objetos this = some (.estatica e1) ∧ MismaForma e e1 ∧
    ∀ i1 j1, j1 < e.N → (i1 < i ∨ (i1 = i ∧ j1 < j)) → leerInline e1 i1 j1 = .ok (V i1 j1)
  have interno : ∀ i mm, i < e.M → Hecho i 0 mm →
      ∃ m2, bucle e.N (fun j => cuerpo i j) mm = .ok m2 ∧ Hecho (i + 1) 0 m2 := by
    intro i mm hi hI
    obtain ⟨m2, hm2, hs, e2, ho2, hf2, hcel⟩ := bucle_inv e.N (fun j => cuerpo i j)
      (fun j mm => Hecho i j mm) mm hI (by
        intro j m3 hj ⟨hs, e1, ho1, hf1, hcel⟩
        obtain ⟨hM, hN, hfi, hco, hwf1⟩ := hf1
        obtain ⟨e2, hw, hf2, hrd, hotros⟩ := escribirInline_ok ho1 hwf1
          (i := i) (j := j) (by omega) (by omega) (V i j)
        refine ⟨_, (hc i j m3 e1 hi hj hs ho1 ⟨hM, hN, hfi, hco, hwf1⟩).trans hw, ?_, e2,
          by simp, ?_, ?_⟩
        · exact soloObjeto_trans hs (soloObjeto_ponerObjeto this m3 _)
        · obtain ⟨a1, a2, a3, a4, a5⟩ := hf2
          exact ⟨a1.trans hM, a2.trans hN, a3.trans hfi, a4.trans hco, a5⟩
        · intro i1 j1 hj1 hcase
          by_cases hij : i1 = i ∧ j1 = j
          · obtain ⟨e1, e2⟩ := hij
            subst e1; subst e2; exact hrd
          · rw [hotros i1 j1 hij]
            apply hcel i1 j1 hj1
            rcases hcase with hlt | ⟨e1, hlt⟩
            · exact Or.inl hlt
            · refine Or.inr ⟨e1, ?_⟩
              have : j1 ≠ j := fun e => hij ⟨e1, e⟩
              omega)
    refine ⟨m2, hm2, hs, e2, ho2, hf2, ?_⟩
    intro i1 j1 hj1 hcase
    apply hcel i1 j1 hj1
    rcases hcase with hlt | ⟨_, hlt⟩
    · by_cases e0 : i1 = i
      · exact Or.inr ⟨e0, hj1⟩
      · exact Or.inl (by omega)
    · omega
  obtain ⟨m2, hm2, hs, e2, ho2, hf2, hcel⟩ := bucle_inv e.M
    (fun i => bucle e.N (fun j => cuerpo i j))
    (fun i mm => Hecho i 0 mm) m1
    ⟨soloObjeto_refl this m1, e, hobj, ⟨rfl, rfl, rfl, rfl, h⟩, by
      intro i1 j1 _ hcase
      rcases hcase with hlt | ⟨_, hlt⟩ <;> omega⟩
    (fun i mm hi hI => interno i mm hi hI)
  exact ⟨m2, e2, hm2, hs, ho2, hf2, fun i j hi hj => hcel i j hj (Or.inl hi)⟩


/-- The constructor of `MatrizEstatica<T, M, N>` always succeeds: the new object sits at
the first free address, is well formed with dimensions `M × N`, holds `T()` in every
cell, and nothing else changes. -/
theorem crearE_spec [Zero T] (M N : Nat) (m : Memoria T) :
    ∃ m2 e2, MatrizEstatica.crear M N m = .ok (m.libre, m2) ∧
      m2.objetos m.libre = some (.estatica e2) ∧
      e2.M = M ∧ e2.N = N ∧ e2._filas = (M : Int) ∧ e2._columnas = (N : Int) ∧
      e2.bienFormada = true ∧
      m2.tablas = m.tablas ∧ m2.bloques = m.bloques ∧ m2.libre = m.libre + 1 ∧
      m2.basura = m.basura ∧ m2.entrada = m.entrada ∧ m2.salida = m.salida ∧
      (∀ a, a ≠ m.libre → m2.objetos a = m.objetos a) ∧
      ∀ i j, i < M → j < N → leerInline e2 i j = .ok (0 : T) := by
  obtain ⟨m2, e2, hm2, hs, ho2, hf2, hcel⟩ := llenarInline_spec
    (m.ponerObjeto m.libre (some (.estatica
      ⟨M, N, M, N, List.replicate M (List.replicate N m.basura)⟩))).avanzar
    m.libre
    ⟨M, N, M, N, List.replicate M (List.replicate N m.basura)⟩
    (by simp) (by simp [MatrizEstatica.bienFormada]) (fun _ _ => (0 : T))
    (fun i j => escribirInline m.libre i j (0 : T)) (fun _ _ _ _ _ _ _ _ _ => rfl)
  obtain ⟨a1, a2, a3, a4, a5, a6, a7⟩ := hs
  obtain ⟨b1, b2, b3, b4, b5⟩ := hf2
  refine ⟨m2, e2, by simp only [MatrizEstatica.crear, hm2], ho2, b1, b2, b3, b4, b5, a1, a2,
    a3, a4, a5, a6, ?_, hcel⟩
  intro a ha
  rw [a7 a ha]; simp [ha]

/-! ## Reading through the interface -/

theorem obtenerD_eq {m : Memoria T} {a : Nat} {d : MatrizDinamica}
    (hobj : m.objetos a = some (.dinamica d)) {i j : Nat}
    (hi : i < d._filas.toNat) (hj : j < d._columnas.toNat) :
    MatrizBase.obtener a (i : Int) (j : Int) m = leerCelda d._datos i j m := by
  have hcond : ((i : Int) ≥ 0 ∧ (i : Int) < d._filas ∧ (j : Int) ≥ 0 ∧ (j : Int) < d._columnas) := by
    omega
  simp only [MatrizBase.obtener, hobj, MatrizDinamica.obtener, objDin_eq hobj, if_pos hcond,
    Int.toNat_ofNat]

theorem obtenerE_eq {m : Memoria T} {a : Nat} {e : MatrizEstatica T}
    (hobj : m.objetos a = some (.estatica e)) {i j : Nat}
    (hi : i < e._filas.toNat) (hj : j < e._columnas.toNat) :
    MatrizBase.obtener a (i : Int) (j : Int) m = leerInline e i j := by
  have hcond : ((i : Int) ≥ 0 ∧ (i : Int) < e._filas ∧ (j : Int) ≥ 0 ∧ (j : Int) < e._columnas) := by
    omega
  simp only [MatrizBase.obtener, hobj, MatrizEstatica.obtener, objEst_eq hobj, if_pos hcond,
    Int.toNat_ofNat]

theorem asignarD_eq {m : Memoria T} {a : Nat} {d : MatrizDinamica}
    (hobj : m.objetos a = some (.dinamica d)) {i j : Nat}
    (hi : i < d._filas.toNat) (hj : j < d._columnas.toNat) (v : T) :
    MatrizBase.asignar a (i : Int) (j : Int) v m = escribirCelda d._datos i j v m := by
  have hcond : ((i : Int) ≥ 0 ∧ (i : Int) < d._filas ∧ (j : Int) ≥ 0 ∧ (j : Int) < d._columnas) := by
    omega
  simp only [MatrizBase.asignar, hobj, MatrizDinamica.asignar, objDin_eq hobj, if_pos hcond,
    Int.toNat_ofNat]

theorem asignarE_eq {m : Memoria T} {a : Nat} {e : MatrizEstatica T}
    (hobj : m.objetos a = some (.estatica e)) {i j : Nat}
    (hi : i < e._filas.toNat) (hj : j < e._columnas.toNat) (v : T) :
    MatrizBase.asignar a (i : Int) (j : Int) v m = escribirInline a i j v m := by
  have hcond : ((i : Int) ≥ 0 ∧ (i : Int) < e._filas ∧ (j : Int) ≥ 0 ∧ (j : Int) < e._columnas) := by
    omega
  simp only [MatrizBase.asignar, hobj, MatrizEstatica.asignar, objEst_eq hobj, if_pos hcond,
    Int.toNat_ofNat]

theorem bienFormadaEn_lt {m : Memoria T} {a : Nat} (h : bienFormadaEn m a = true) :
    a < m.libre := by
  unfold bienFormadaEn at h
  cases ho : m.objetos a with
  | none => simp [ho] at h
  | some o =>
    cases o with
    | dinamica d => simp [ho] at h; exact h.1
    | estatica e => simp [ho] at h; exact h.1

theorem bienFormadaEn_din {m : Memoria T} {a : Nat} {d : MatrizDinamica}
    (h : bienFormadaEn m a = true) (ho : m.objetos a = some (.dinamica d)) :
    d.bienFormada m = true := by
  simp [bienFormadaEn, ho] at h; exact h.2

theorem bienFormadaEn_est {m : Memoria T} {a : Nat} {e : MatrizEstatica T}
    (h : bienFormadaEn m a = true) (ho : m.objetos a = some (.estatica e)) :
    e.bienFormada = true := by
  simp only [bienFormadaEn, ho, Bool.and_eq_true] at h; exact h.2

/-- Whatever a well-formed object yields through `obtener` only depends on what was
allocated when the object was well formed. -/
theorem obtener_conserva {m m1 : Memoria T} {a : Nat} (h : bienFormadaEn m a = true)
    (hcons : Conserva m.libre m m1) (i j : Int) :
    MatrizBase.obtener a i j m1 = MatrizBase.obtener a i j m := by
  have hlt := bienFormadaEn_lt h
  have hobj := (hcons a hlt).2.2
  cases ho : m.objetos a with
  | none => simp [bienFormadaEn, ho] at h
  | some o =>
    cases o with
    | estatica e =>
      simp only [MatrizBase.obtener, hobj, ho, MatrizEstatica.obtener, objEst, hobj]
    | dinamica d =>
      have hwf := bienFormadaEn_din h ho
      have hleer : leerCelda d._datos i.toNat j.toNat m1 = leerCelda d._datos i.toNat j.toNat m := by
        apply leerCelda_marco
        · intro p hp
          by_cases hd : d._filas ≤ 0 ∨ d._columnas ≤ 0
          · rw [bienFormada_deg hwf hd] at hp; cases hp
          · obtain ⟨p1, _, hp1, _, hlt1, _⟩ := bienFormada_pos hwf hd
            rw [hp1] at hp; cases hp
            exact (hcons p hlt1).1
        · intro r hr
          exact (hcons r (filasDir_lt hwf hr)).2.1
      simp only [MatrizBase.obtener, hobj, ho, MatrizDinamica.obtener, objDin, hleer]

theorem filas_conserva {m m1 : Memoria T} {a : Nat} (h : bienFormadaEn m a = true)
    (hcons : Conserva m.libre m m1) :
    MatrizBase.filas a m1 = MatrizBase.filas a m ∧
      MatrizBase.columnas a m1 = MatrizBase.columnas a m := by
  have hobj := (hcons a (bienFormadaEn_lt h)).2.2
  simp only [MatrizBase.filas, MatrizBase.columnas, hobj, and_self]

/-- Reading a well-formed object at an index within its dimensions yields an element. -/
theorem obtener_ok {m : Memoria T} {a : Nat} (h : bienFormadaEn m a = true) {f c : Int}
    (hf : MatrizBase.filas a m = .ok f) (hc : MatrizBase.columnas a m = .ok c) {i j : Nat}
    (hi : i < f.toNat) (hj : j < c.toNat) :
    ∃ v, MatrizBase.obtener a (i : Int) (j : Int) m = .ok v := by
  cases ho : m.objetos a with
  | none => simp [bienFormadaEn, ho] at h
  | some o =>
    cases o with
    | estatica e =>
      simp only [MatrizBase.filas, MatrizBase.columnas, ho, Except.ok.injEq] at hf hc
      subst hf; subst hc
      have hwf := bienFormadaEn_est h ho
      obtain ⟨h1, h2, _, _⟩ := bienFormadaE_iff.mp hwf
      rw [obtenerE_eq ho hi hj]
      exact leerInline_ok hwf (by omega) (by omega)
    | dinamica d =>
      simp only [MatrizBase.filas, MatrizBase.columnas, ho, Except.ok.injEq] at hf hc
      subst hf; subst hc
      rw [obtenerD_eq ho hi hj]
      exact leerCelda_ok (bienFormadaEn_din h ho) hi hj


/-! ## `sumar` -/

theorem valorDe_ok {x : Except Falla T} {v : T} (h : x = .ok v) (b : T) : valorDe x b = v := by
  subst h; rfl

/-- One step of the loops of `sumar`, while the operands are as they were in `m`:
it is the assignment of the sum of the two operand cells to the result cell. -/
theorem sumarCelda_eq [Add T] {m mm : Memoria T} {a b R : Nat}
    (ha : bienFormadaEn m a = true) (hb : bienFormadaEn m b = true)
    (hcons : Conserva m.libre m mm) {f c : Int}
    (hfa : MatrizBase.filas a m = .ok f) (hca : MatrizBase.columnas a m = .ok c)
    (hfb : MatrizBase.filas b m = .ok f) (hcb : MatrizBase.columnas b m = .ok c)
    {i j : Nat} (hi : i < f.toNat) (hj : j < c.toNat) :
    sumarCelda R a b i j mm =
      MatrizBase.asignar R (i : Int) (j : Int)
        (valorDe (MatrizBase.obtener a (i : Int) (j : Int) m) m.basura +
          valorDe (MatrizBase.obtener b (i : Int) (j : Int) m) m.basura) mm := by
  obtain ⟨x, hx⟩ := obtener_ok ha hfa hca hi hj
  obtain ⟨y, hy⟩ := obtener_ok hb hfb hcb hi hj
  simp only [sumarCelda, obtener_conserva ha hcons, obtener_conserva hb hcons, hx, hy,
    valorDe]

theorem sumarD_exito [Zero T] [Add T] {m : Memoria T} {a b : Nat} {d : MatrizDinamica}
    (ho : m.objetos a = some (.dinamica d))
    (ha : bienFormadaEn m a = true) (hb : bienFormadaEn m b = true)
    (hf : MatrizBase.filas a m = MatrizBase.filas b m)
    (hc : MatrizBase.columnas a m = MatrizBase.columnas b m) :
    ∃ m2, MatrizDinamica.sumar a b m = .ok (some m.libre, m2) ∧ Sumada m a b m2 := by
  have hfa : MatrizBase.filas a m = .ok d._filas := by simp [MatrizBase.filas, ho]
  have hca : MatrizBase.columnas a m = .ok d._columnas := by simp [MatrizBase.columnas, ho]
  have hfb := hf.symm.trans hfa
  have hcb := hc.symm.trans hca
  obtain ⟨m1, hcrear, datos, hoR, hwfR, hobjs, hmem, hrows, hp, hlib, hbas, hent, hsal, _⟩ :=
    crear_spec (T := T) d._filas d._columnas m
  have hcons1 : ∀ mm, SoloBloques m1 mm →
      (∀ r, r ∉ filasDir m1 datos → mm.bloques r = m1.bloques r) → Conserva m.libre m mm := by
    intro mm hs hfr x hx
    have hnot : x ∉ filasDir m1 datos := fun hin => by have := hrows x hin; omega
    exact ⟨by rw [hs.1]; exact (hmem x hx).1, by rw [hfr x hnot]; exact (hmem x hx).2,
      by rw [hs.2.1]; exact hobjs x (by omega)⟩
  obtain ⟨m2, hm2, hs, hfr, hcel⟩ := llenar_spec (d := ⟨d._filas, d._columnas, datos⟩) hwfR
    (fun i j => valorDe (MatrizBase.obtener a (i : Int) (j : Int) m) m.basura +
      valorDe (MatrizBase.obtener b (i : Int) (j : Int) m) m.basura)
    (fun i j => sumarCelda m.libre a b i j) (by
      intro i j mm hi hj hsolo hmarco
      beta_reduce
      rw [sumarCelda_eq ha hb (hcons1 mm hsolo hmarco) hfa hca hfb hcb hi hj]
      exact asignarD_eq (by rw [hsolo.2.1]; exact hoR) hi hj _)
  have hm2' : bucle d._filas.toNat (fun i =>
      bucle d._columnas.toNat (fun j => sumarCelda m.libre a b i j)) m1 = .ok m2 := hm2
  have hoR2 : m2.objetos m.libre = some (.dinamica ⟨d._filas, d._columnas, datos⟩) := by
    rw [hs.2.1]; exact hoR
  have hno : ¬ (d._filas ≠ d._filas ∨ d._columnas ≠ d._columnas) := by simp
  refine ⟨m2, ?_, hcons1 m2 hs hfr, ?_, ?_, ?_, ?_, ?_, ?_⟩
  · simp only [MatrizDinamica.sumar, objDin_eq ho, hfb, hcb, if_neg hno, hcrear, hm2']
  · simp [mismaClase, hoR2, ho]
  · simp [MatrizBase.filas, hoR2, ho]
  · simp [MatrizBase.columnas, hoR2, ho]
  · simp only [bienFormadaEn, hoR2, Bool.and_eq_true, decide_eq_true_eq]
    exact ⟨by rw [hs.2.2.1]; exact hlib, by rw [bienFormada_solo hs]; exact hwfR⟩
  · rw [hs.2.2.2.2.2.1]; exact hsal
  · intro f c i j hf1 hc1 hi hj
    rw [hfa] at hf1; rw [hca] at hc1
    cases hf1; cases hc1
    obtain ⟨x, hx⟩ := obtener_ok ha hfa hca hi hj
    obtain ⟨y, hy⟩ := obtener_ok hb hfb hcb hi hj
    refine ⟨x, y, hx, hy, ?_⟩
    rw [obtenerD_eq hoR2 hi hj, hcel i j hi hj, valorDe_ok hx, valorDe_ok hy]

theorem sumarE_exito [Zero T] [Add T] {m : Memoria T} {a b : Nat} {s : MatrizEstatica T}
    (ho : m.objetos a = some (.estatica s))
    (ha : bienFormadaEn m a = true) (hb : bienFormadaEn m b = true)
    (hf : MatrizBase.filas a m = MatrizBase.filas b m)
    (hc : MatrizBase.columnas a m = MatrizBase.columnas b m) :
    ∃ m2, MatrizEstatica.sumar a b m = .ok (some m.libre, m2) ∧ Sumada m a b m2 := by
  have hfa : MatrizBase.filas a m = .ok s._filas := by simp [MatrizBase.filas, ho]
  have hca : MatrizBase.columnas a m = .ok s._columnas := by simp [MatrizBase.columnas, ho]
  have hfb := hf.symm.trans hfa
  have hcb := hc.symm.trans hca
  obtain ⟨hsf, hsc, _, _⟩ := bienFormadaE_iff.mp (bienFormadaEn_est ha ho)
  obtain ⟨m1, e1, hcrear, hoR, hM, hN, hfil, hcol, hwfR, htab, hblo, hlib, hbas, hent, hsal,
    hobjs, _⟩ := crearE_spec (T := T) s.M s.N m
  have hcons1 : ∀ mm, SoloObjeto m.libre m1 mm → Conserva m.libre m mm := by
    intro mm hs x hx
    exact ⟨by rw [hs.1, htab], by rw [hs.2.1, hblo],
      by rw [hs.2.2.2.2.2.2 x (by omega)]; exact hobjs x (by omega)⟩
  have hfn : s._filas.toNat = e1.M := by rw [hsf, hM]; simp
  have hcn : s._columnas.toNat = e1.N := by rw [hsc, hN]; simp
  obtain ⟨m2, e2, hm2, hs, hoR2, hforma, hcel⟩ := llenarInline_spec m1 m.libre e1 hoR hwfR
    (fun i j => valorDe (MatrizBase.obtener a (i : Int) (j : Int) m) m.basura +
      valorDe (MatrizBase.obtener b (i : Int) (j : Int) m) m.basura)
    (fun i j => sumarCelda m.libre a b i j) (by
      intro i j mm e3 hi hj hsolo hobj3 hf3
      beta_reduce
      rw [sumarCelda_eq ha hb (hcons1 mm hsolo) hfa hca hfb hcb (by omega) (by omega)]
      obtain ⟨b1, b2, b3, b4, _⟩ := hf3
      exact asignarE_eq hobj3 (by rw [b3, hfil, ← hM]; simpa using hi)
        (by rw [b4, hcol, ← hN]; simpa using hj) _)
  obtain ⟨c1, c2, c3, c4, c5⟩ := hforma
  have hno : ¬ (s._filas ≠ s._filas ∨ s._columnas ≠ s._columnas) := by simp
  refine ⟨m2, ?_, hcons1 m2 hs, ?_, ?_, ?_, ?_, ?_, ?_⟩
  · simp only [MatrizEstatica.sumar, objEst_eq ho, hfb, hcb, if_neg hno, hcrear, hfn, hcn, hm2]
  · simp [mismaClase, hoR2, ho, c1, c2, hM, hN]
  · simp [MatrizBase.filas, hoR2, ho, c3, hfil, hsf]
  · simp [MatrizBase.columnas, hoR2, ho, c4, hcol, hsc]
  · simp only [bienFormadaEn, hoR2, Bool.and_eq_true, decide_eq_true_eq]
    exact ⟨by rw [hs.2.2.1, hlib]; omega, c5⟩
  · rw [hs.2.2.2.2.2.1]; exact hsal
  · intro f c i j hf1 hc1 hi hj
    rw [hfa] at hf1; rw [hca] at hc1
    cases hf1; cases hc1
    obtain ⟨x, hx⟩ := obtener_ok ha hfa hca hi hj
    obtain ⟨y, hy⟩ := obtener_ok hb hfb hcb hi hj
    refine ⟨x, y, hx, hy, ?_⟩
    rw [obtenerE_eq hoR2 (by rw [c3, hfil, ← hsf]; exact hi) (by rw [c4, hcol, ← hsc]; exact hj),
      hcel i j (by omega) (by omega), valorDe_ok hx, valorDe_ok hy]

/-- A successful `sumar`: for well-formed operands of equal dimensions, in any of the
four combinations of classes. -/
theorem sumar_exito [Zero T] [Add T] {m : Memoria T} {a b : Nat}
    (ha : bienFormadaEn m a = true) (hb : bienFormadaEn m b = true)
    (hf : MatrizBase.filas a m = MatrizBase.filas b m)
    (hc : MatrizBase.columnas a m = MatrizBase.columnas b m) :
    ∃ m2, MatrizBase.sumar a b m = .ok (some m.libre, m2) ∧ Sumada m a b m2 := by
  cases ho : m.objetos a with
  | none => simp [bienFormadaEn, ho] at ha
  | some o =>
    cases o with
    | dinamica d =>
      obtain ⟨m2, h1, h2⟩ := sumarD_exito ho ha hb hf hc
      exact ⟨m2, by simp only [MatrizBase.sumar, ho, h1], h2⟩
    | estatica s =>
      obtain ⟨m2, h1, h2⟩ := sumarE_exito ho ha hb hf hc
      exact ⟨m2, by simp only [MatrizBase.sumar, ho, h1], h2⟩


theorem filas_ok_of_bienFormadaEn {m : Memoria T} {a : Nat} (h : bienFormadaEn m a = true) :
    ∃ f c, MatrizBase.filas a m = .ok f ∧ MatrizBase.columnas a m = .ok c := by
  cases ho : m.objetos a with
  | none => simp [bienFormadaEn, ho] at h
  | some o =>
    cases o with
    | dinamica d =>
      exact ⟨d._filas, d._columnas, by simp [MatrizBase.filas, ho],
        by simp [MatrizBase.columnas, ho]⟩
    | estatica e =>
      exact ⟨e._filas, e._columnas, by simp [MatrizBase.filas, ho],
        by simp [MatrizBase.columnas, ho]⟩

/-- A failed `sumar`: when the dimensions differ the call prints a message and returns
`nullptr`, changing nothing else. -/
theorem sumar_fallo [Zero T] [Add T] {m : Memoria T} {a b : Nat}
    (ha : bienFormadaEn m a = true) (hb : bienFormadaEn m b = true)
    (hdif : MatrizBase.filas a m ≠ MatrizBase.filas b m ∨
      MatrizBase.columnas a m ≠ MatrizBase.columnas b m) :
    ∃ s, MatrizBase.sumar a b m = .ok (none, m.escribir (.texto s)) := by
  obtain ⟨fb, cb, hfb, hcb⟩ := filas_ok_of_bienFormadaEn hb
  rw [hfb, hcb] at hdif
  cases ho : m.objetos a with
  | none => simp [bienFormadaEn, ho] at ha
  | some o =>
    cases o with
    | dinamica d =>
      have hcond : d._filas ≠ fb ∨ d._columnas ≠ cb := by
        simpa [MatrizBase.filas, MatrizBase.columnas, ho] using hdif
      exact ⟨"Error: dimensiones incompatibles para la suma.\n", by
        simp only [MatrizBase.sumar, ho, MatrizDinamica.sumar, objDin_eq ho, hfb, hcb,
          if_pos hcond]⟩
    | estatica s =>
      have hcond : s._filas ≠ fb ∨ s._columnas ≠ cb := by
        simpa [MatrizBase.filas, MatrizBase.columnas, ho] using hdif
      exact ⟨"Error: dimensiones incompatibles para la suma (estatica).\n", by
        simp only [MatrizBase.sumar, ho, MatrizEstatica.sumar, objEst_eq ho, hfb, hcb,
          if_pos hcond]⟩

theorem conserva_escribir (m : Memoria T) (x : Item T) : Conserva m.libre m (m.escribir x) :=
  fun _ _ => ⟨rfl, rfl, rfl⟩

/-! ## The claims about `sumar` -/

/-- C1. For well-formed grids `a`, `b` of either class with equal `filas()` and
`columnas()`, `a.sumar(b)` returns a non-null grid `r` with the dimensions of `a` and
`r.obtener(i,j) = a.obtener(i,j) + b.obtener(i,j)` at every in-range index. -/
theorem C1_sumar_elemento_a_elemento [Zero T] [Add T] (m : Memoria T) (a b : Nat)
    (ha : bienFormadaEn m a = true) (hb : bienFormadaEn m b = true)
    (hf : MatrizBase.filas a m = MatrizBase.filas b m)
    (hc : MatrizBase.columnas a m = MatrizBase.columnas b m) :
    ∃ r m2 f c, MatrizBase.sumar a b m = .ok (some r, m2) ∧
      MatrizBase.filas a m = .ok f ∧ MatrizBase.columnas a m = .ok c ∧
      MatrizBase.filas r m2 = .ok f ∧ MatrizBase.columnas r m2 = .ok c ∧
      ∀ i j : Int, 0 ≤ i → i < f → 0 ≤ j → j < c →
        ∃ x y, MatrizBase.obtener a i j m = .ok x ∧ MatrizBase.obtener b i j m = .ok y ∧
          MatrizBase.obtener r i j m2 = .ok (x + y) := by
  obtain ⟨m2, hsum, _, _, hfr, hcr, _, _, hcel⟩ := sumar_exito ha hb hf hc
  obtain ⟨f, c, hfa, hca⟩ := filas_ok_of_bienFormadaEn ha
  refine ⟨m.libre, m2, f, c, hsum, hfa, hca, hfr.trans hfa, hcr.trans hca, ?_⟩
  intro i j hi0 hi hj0 hj
  have := hcel f c i.toNat j.toNat hfa hca (by omega) (by omega)
  rwa [Int.toNat_of_nonneg hi0, Int.toNat_of_nonneg hj0] at this

/-- C1 on the `int` demonstration of `main`: `Ai + Bi` with `Ai = [[1,2],[3,4]]` dynamic
and `Bi = [[5,6],[7,8]]` static is `[[6,8],[10,12]]`. -/
theorem C1_sumar_elemento_a_elemento_witness :
    (∃ r m2 f c, MatrizBase.sumar 0 4 memDemoInt = .ok (some r, m2) ∧
      MatrizBase.filas 0 memDemoInt = .ok f ∧ MatrizBase.columnas 0 memDemoInt = .ok c ∧
      MatrizBase.filas r m2 = .ok f ∧ MatrizBase.columnas r m2 = .ok c ∧
      ∀ i j : Int, 0 ≤ i → i < f → 0 ≤ j → j < c →
        ∃ x y, MatrizBase.obtener 0 i j memDemoInt = .ok x ∧
          MatrizBase.obtener 4 i j memDemoInt = .ok y ∧
          MatrizBase.obtener r i j m2 = .ok (x + y)) ∧
    (match MatrizBase.sumar 0 4 memDemoInt with
      | .ok (some r, m2) =>
        [MatrizBase.obtener r 0 0 m2, MatrizBase.obtener r 0 1 m2,
         MatrizBase.obtener r 1 0 m2, MatrizBase.obtener r 1 1 m2]
      | _ => []) = [.ok 6, .ok 8, .ok 10, .ok 12] :=
  ⟨C1_sumar_elemento_a_elemento memDemoInt 0 4 (by decide) (by decide) rfl rfl, rfl⟩

/-- C2. For every successful `a.sumar(b)` on well-formed grids, the result has the
class of the receiver `a` whatever the class of `b`: a `MatrizDinamica` with the
dimensions of `a` when `a` is a `MatrizDinamica`, a `MatrizEstatica<T,M,N>` with
dimensions `M × N` when `a` is a `MatrizEstatica<T,M,N>`. -/
theorem C2_sumar_clase_del_receptor [Zero T] [Add T] (m : Memoria T) (a b : Nat)
    (ha : bienFormadaEn m a = true) (hb : bienFormadaEn m b = true)
    (r : Nat) (m2 : Memoria T) (hsum : MatrizBase.sumar a b m = .ok (some r, m2)) :
    (∀ d, m.objetos a = some (.dinamica d) →
      ∃ d2, m2.objetos r = some (.dinamica d2) ∧ d2._filas = d._filas ∧
        d2._columnas = d._columnas) ∧
    (∀ e, m.objetos a = some (.estatica e) →
      ∃ e2, m2.objetos r = some (.estatica e2) ∧ e2.M = e.M ∧ e2.N = e.N ∧
        e2._filas = (e.M : Int) ∧ e2._columnas = (e.N : Int)) := by
  have hdims : MatrizBase.filas a m = MatrizBase.filas b m ∧
      MatrizBase.columnas a m = MatrizBase.columnas b m := by
    by_contra hne
    obtain ⟨s, hs⟩ := sumar_fallo ha hb (by tauto)
    rw [hs] at hsum
    simp at hsum
  obtain ⟨m3, hsum3, _, hclase, hfr, hcr, hwf, _⟩ := sumar_exito ha hb hdims.1 hdims.2
  rw [hsum3] at hsum
  simp only [Except.ok.injEq, Prod.mk.injEq, Option.some.injEq] at hsum
  obtain ⟨hr, hm⟩ := hsum
  subst hr; subst hm
  constructor
  · intro d hd
    rw [hd] at hclase
    cases ho : m3.objetos m.libre with
    | none => simp [mismaClase, ho] at hclase
    | some o =>
      cases o with
      | estatica e => simp [mismaClase, ho] at hclase
      | dinamica d2 =>
        refine ⟨d2, rfl, ?_, ?_⟩
        · simpa [MatrizBase.filas, ho, hd] using hfr
        · simpa [MatrizBase.columnas, ho, hd] using hcr
  · intro e he
    rw [he] at hclase
    cases ho : m3.objetos m.libre with
    | none => simp [mismaClase, ho] at hclase
    | some o =>
      cases o with
      | dinamica d2 => simp [mismaClase, ho] at hclase
      | estatica e2 =>
        simp only [mismaClase, ho, Bool.and_eq_true, decide_eq_true_eq] at hclase
        obtain ⟨h1, h2, _, _⟩ := bienFormadaE_iff.mp (bienFormadaEn_est hwf ho)
        exact ⟨e2, rfl, hclase.1, hclase.2, by rw [h1, hclase.1], by rw [h2, hclase.2]⟩

/-- C2 on the `float` demonstration of `main` (values doubled): dynamic `A` (3×2) plus
static `B` (3×2) yields a dynamic 3×2 result. -/
theorem C2_sumar_clase_del_receptor_witness :
    bienFormadaEn memDemoMixta 0 = true ∧ bienFormadaEn memDemoMixta 5 = true ∧
    memDemoMixta.objetos 0 = some (.dinamica ⟨3, 2, some 1⟩) ∧
    ∃ d2, (memoriaTras (MatrizBase.sumar 0 5 memDemoMixta) memDemoMixta).objetos 6
        = some (.dinamica d2) ∧ d2._filas = 3 ∧ d2._columnas = 2 :=
  ⟨by decide, by decide, rfl,
    (C2_sumar_clase_del_receptor memDemoMixta 0 5 (by decide) (by decide) 6
      (memoriaTras (MatrizBase.sumar 0 5 memDemoMixta) memDemoMixta) rfl).1 ⟨3, 2, some 1⟩ rfl⟩

/-- C3. For well-formed grids `a`, `b` of either class, `a.sumar(b)` returns `nullptr`
if and only if `a.filas() != b.filas()` or `a.columnas() != b.columnas()`, and the call
never ends in an assertion failure or any other error. -/
theorem C3_sumar_nulo_sii_dimensiones_distintas [Zero T] [Add T] (m : Memoria T) (a b : Nat)
    (ha : bienFormadaEn m a = true) (hb : bienFormadaEn m b = true) :
    ((∃ m2, MatrizBase.sumar a b m = .ok (none, m2)) ↔
      (MatrizBase.filas a m ≠ MatrizBase.filas b m ∨
        MatrizBase.columnas a m ≠ MatrizBase.columnas b m)) ∧
    ∀ e, MatrizBase.sumar a b m ≠ .error e := by
  by_cases hdif : MatrizBase.filas a m ≠ MatrizBase.filas b m ∨
      MatrizBase.columnas a m ≠ MatrizBase.columnas b m
  · obtain ⟨s, hs⟩ := sumar_fallo ha hb hdif
    exact ⟨⟨fun _ => hdif, fun _ => ⟨_, hs⟩⟩, fun e he => by rw [hs] at he; cases he⟩
  · have hdims : MatrizBase.filas a m = MatrizBase.filas b m ∧
        MatrizBase.columnas a m = MatrizBase.columnas b m := by tauto
    obtain ⟨m3, hsum3, _⟩ := sumar_exito ha hb hdims.1 hdims.2
    refine ⟨⟨fun ⟨m2, h2⟩ => ?_, fun h => absurd h hdif⟩, fun e he => by rw [hsum3] at he; cases he⟩
    rw [hsum3] at h2
    simp at h2

/-- C3 on a dynamic 2×2 grid added to a dynamic 3×2 grid: no result. -/
theorem C3_sumar_nulo_sii_dimensiones_distintas_witness :
    bienFormadaEn memDispar 0 = true ∧ bienFormadaEn memDispar 4 = true ∧
    MatrizBase.filas 0 memDispar = .ok 2 ∧ MatrizBase.filas 4 memDispar = .ok 3 ∧
    ∃ m2, MatrizBase.sumar 0 4 memDispar = .ok (none, m2) :=
  ⟨by decide, by decide, rfl, rfl,
    (C3_sumar_nulo_sii_dimensiones_distintas memDispar 0 4 (by decide) (by decide)).1.mpr
      (Or.inl (by intro h; cases h))⟩

/-- C4. For well-formed grids `a`, `b` of either class and any shapes, `a.sumar(b)`
returns (a grid or `nullptr`) and afterwards `a` and `b` have the dimensions and the
elements they had before the call. -/
theorem C4_sumar_no_modifica_operandos [Zero T] [Add T] (m : Memoria T) (a b : Nat)
    (ha : bienFormadaEn m a = true) (hb : bienFormadaEn m b = true) :
    ∃ res m2, MatrizBase.sumar a b m = .ok (res, m2) ∧
      MatrizBase.filas a m2 = MatrizBase.filas a m ∧
      MatrizBase.columnas a m2 = MatrizBase.columnas a m ∧
      MatrizBase.filas b m2 = MatrizBase.filas b m ∧
      MatrizBase.columnas b m2 = MatrizBase.columnas b m ∧
      ∀ i j : Int, MatrizBase.obtener a i j m2 = MatrizBase.obtener a i j m ∧
        MatrizBase.obtener b i j m2 = MatrizBase.obtener b i j m := by
  have cierre : ∀ res m2, MatrizBase.sumar a b m = .ok (res, m2) → Conserva m.libre m m2 →
      ∃ res m2, MatrizBase.sumar a b m = .ok (res, m2) ∧
      MatrizBase.filas a m2 = MatrizBase.filas a m ∧
      MatrizBase.columnas a m2 = MatrizBase.columnas a m ∧
      MatrizBase.filas b m2 = MatrizBase.filas b m ∧
      MatrizBase.columnas b m2 = MatrizBase.columnas b m ∧
      ∀ i j : Int, MatrizBase.obtener a i j m2 = MatrizBase.obtener a i j m ∧
        MatrizBase.obtener b i j m2 = MatrizBase.obtener b i j m := by
    intro res m2 hsum hcons
    exact ⟨res, m2, hsum, (filas_conserva ha hcons).1, (filas_conserva ha hcons).2,
      (filas_conserva hb hcons).1, (filas_conserva hb hcons).2,
      fun i j => ⟨obtener_conserva ha hcons i j, obtener_conserva hb hcons i j⟩⟩
  by_cases hdif : MatrizBase.filas a m ≠ MatrizBase.filas b m ∨
      MatrizBase.columnas a m ≠ MatrizBase.columnas b m
  · obtain ⟨s, hs⟩ := sumar_fallo ha hb hdif
    exact cierre _ _ hs (conserva_escribir m _)
  · have hdims : MatrizBase.filas a m = MatrizBase.filas b m ∧
        MatrizBase.columnas a m = MatrizBase.columnas b m := by tauto
    obtain ⟨m3, hsum3, hcons, _⟩ := sumar_exito ha hb hdims.1 hdims.2
    exact cierre _ _ hsum3 hcons

/-- C4 on the `int` demonstration of `main`: after `Ai + Bi`, `Ai` and `Bi` read as before. -/
theorem C4_sumar_no_modifica_operandos_witness :
    bienFormadaEn memDemoInt 0 = true ∧ bienFormadaEn memDemoInt 4 = true ∧
    ∃ res m2, MatrizBase.sumar 0 4 memDemoInt = .ok (res, m2) ∧
      MatrizBase.filas 0 m2 = MatrizBase.filas 0 memDemoInt ∧
      MatrizBase.columnas 0 m2 = MatrizBase.columnas 0 memDemoInt ∧
      MatrizBase.filas 4 m2 = MatrizBase.filas 4 memDemoInt ∧
      MatrizBase.columnas 4 m2 = MatrizBase.columnas 4 memDemoInt ∧
      ∀ i j : Int, MatrizBase.obtener 0 i j m2 = MatrizBase.obtener 0 i j memDemoInt ∧
        MatrizBase.obtener 4 i j m2 = MatrizBase.obtener 4 i j memDemoInt :=
  ⟨by decide, by decide, C4_sumar_no_modifica_operandos memDemoInt 0 4 (by decide) (by decide)⟩


/-! ## Construction -/

/-- C5 (the code at the failing inputs). `MatrizDinamica<int>(-1, 2)` and
`MatrizDinamica<int>(3, 0)` are built without storage (`_datos` is null), but they
report `filas() = -1`, `columnas() = 2` and `filas() = 3`, `columnas() = 0`: the
constructor keeps its arguments as the dimensions instead of zero. -/
theorem C5_crear_no_positivo_conserva_argumentos :
    (∃ m2, MatrizDinamica.crear (-1) 2 (Memoria.vacia (0 : Int)) = .ok (0, m2) ∧
      m2.objetos 0 = some (.dinamica ⟨-1, 2, none⟩) ∧
      MatrizBase.filas 0 m2 = .ok (-1) ∧ MatrizBase.columnas 0 m2 = .ok 2) ∧
    (∃ m2, MatrizDinamica.crear 3 0 (Memoria.vacia (0 : Int)) = .ok (0, m2) ∧
      m2.objetos 0 = some (.dinamica ⟨3, 0, none⟩) ∧
      MatrizBase.filas 0 m2 = .ok 3 ∧ MatrizBase.columnas 0 m2 = .ok 0) :=
  ⟨⟨_, rfl, rfl, rfl, rfl⟩, ⟨_, rfl, rfl, rfl, rfl⟩⟩

/-- C6. For `rows ≥ 1` and `cols ≥ 1`, a freshly constructed `MatrizDinamica<T>(rows, cols)`
has `filas() = rows`, `columnas() = cols` and `obtener(i,j) = T()` at every in-range
index; and a freshly constructed `MatrizEstatica<T,M,N>` (`M, N ≥ 1`) has dimensions
`M × N` and `T()` in every cell. Whatever the storage held before does not matter. -/
theorem C6_recien_construida_en_ceros [Zero T] (m : Memoria T) (rows cols : Int)
    (M N : Nat) (hr : 1 ≤ rows) (hc : 1 ≤ cols) (hM : 1 ≤ M) (hN : 1 ≤ N) :
    (∃ g m2, MatrizDinamica.crear rows cols m = .ok (g, m2) ∧
      MatrizBase.filas g m2 = .ok rows ∧ MatrizBase.columnas g m2 = .ok cols ∧
      ∀ i j : Int, 0 ≤ i → i < rows → 0 ≤ j → j < cols →
        MatrizBase.obtener g i j m2 = .ok (0 : T)) ∧
    (∃ g m2, MatrizEstatica.crear M N m = .ok (g, m2) ∧
      MatrizBase.filas g m2 = .ok (M : Int) ∧ MatrizBase.columnas g m2 = .ok (N : Int) ∧
      ∀ i j : Int, 0 ≤ i → i < (M : Int) → 0 ≤ j → j < (N : Int) →
        MatrizBase.obtener g i j m2 = .ok (0 : T)) := by
  constructor
  · obtain ⟨m2, hcrear, datos, hobj, _, _, _, _, _, _, _, _, _, hcel⟩ :=
      crear_spec (T := T) rows cols m
    refine ⟨m.libre, m2, hcrear, by simp [MatrizBase.filas, hobj],
      by simp [MatrizBase.columnas, hobj], ?_⟩
    intro i j hi0 hi hj0 hj
    have h1 : i.toNat < rows.toNat := by omega
    have h2 : j.toNat < cols.toNat := by omega
    have := obtenerD_eq hobj (i := i.toNat) (j := j.toNat) h1 h2
    rw [Int.toNat_of_nonneg hi0, Int.toNat_of_nonneg hj0] at this
    rw [this]
    exact hcel _ _ h1 h2
  · obtain ⟨m2, e2, hcrear, hobj, _, _, hfil, hcol, _, _, _, _, _, _, _, _, hcel⟩ :=
      crearE_spec (T := T) M N m
    refine ⟨m.libre, m2, hcrear, by simp [MatrizBase.filas, hobj, hfil],
      by simp [MatrizBase.columnas, hobj, hcol], ?_⟩
    intro i j hi0 hi hj0 hj
    have h1 : i.toNat < e2._filas.toNat := by rw [hfil]; omega
    have h2 : j.toNat < e2._columnas.toNat := by rw [hcol]; omega
    have := obtenerE_eq hobj (i := i.toNat) (j := j.toNat) h1 h2
    rw [Int.toNat_of_nonneg hi0, Int.toNat_of_nonneg hj0] at this
    rw [this]
    exact hcel _ _ (by omega) (by omega)

/-- C6 on a 3×2 dynamic and a 2×2 static matrix built in a memory whose uninitialised
storage holds 7. -/
theorem C6_recien_construida_en_ceros_witness :
    (∃ g m2, MatrizDinamica.crear 3 2 (Memoria.vacia (7 : Int)) = .ok (g, m2) ∧
      MatrizBase.filas g m2 = .ok 3 ∧ MatrizBase.columnas g m2 = .ok 2 ∧
      ∀ i j : Int, 0 ≤ i → i < 3 → 0 ≤ j → j < 2 →
        MatrizBase.obtener g i j m2 = .ok (0 : Int)) ∧
    (∃ g m2, MatrizEstatica.crear 2 2 (Memoria.vacia (7 : Int)) = .ok (g, m2) ∧
      MatrizBase.filas g m2 = .ok ((2 : Nat) : Int) ∧
      MatrizBase.columnas g m2 = .ok ((2 : Nat) : Int) ∧
      ∀ i j : Int, 0 ≤ i → i < ((2 : Nat) : Int) → 0 ≤ j → j < ((2 : Nat) : Int) →
        MatrizBase.obtener g i j m2 = .ok (0 : Int)) :=
  C6_recien_construida_en_ceros (Memoria.vacia (7 : Int)) 3 2 2 2 (by decide) (by decide)
    (by decide) (by decide)


/-! ## Footprints: what a dynamic matrix depends on, and what `asignar` touches -/

theorem leerCelda_conserva {m m1 : Memoria T} {d : MatrizDinamica}
    (hwf : d.bienFormada m = true) (hcons : Conserva m.libre m m1) (i j : Nat) :
    leerCelda d._datos i j m1 = leerCelda d._datos i j m := by
  apply leerCelda_marco
  · intro p hp
    by_cases hd : d._filas ≤ 0 ∨ d._columnas ≤ 0
    · rw [bienFormada_deg hwf hd] at hp; cases hp
    · obtain ⟨p1, _, hp1, _, hlt1, _⟩ := bienFormada_pos hwf hd
      rw [hp1] at hp; cases hp
      exact (hcons p hlt1).1
  · intro r hr
    exact (hcons r (filasDir_lt hwf hr)).2.1

/-- `obtener` on a dynamic matrix depends only on its object, its table and its rows. -/
theorem obtenerD_marco {m m1 : Memoria T} {a : Nat} {d : MatrizDinamica}
    (ho : m.objetos a = some (.dinamica d)) (ho1 : m1.objetos a = some (.dinamica d))
    (ht : ∀ p, d._datos = some p → m1.tablas p = m.tablas p)
    (hb : ∀ r ∈ filasDir m d._datos, m1.bloques r = m.bloques r) (i j : Int) :
    MatrizBase.obtener a i j m1 = MatrizBase.obtener a i j m := by
  simp only [MatrizBase.obtener, ho, ho1, MatrizDinamica.obtener, objDin,
    leerCelda_marco ht hb]

/-- A successful `asignar` on a dynamic matrix changes the content of one of its row
blocks and nothing else. -/
theorem asignarD_efecto {m m1 : Memoria T} {a : Nat} {d : MatrizDinamica}
    (ho : m.objetos a = some (.dinamica d)) {i j : Int} {v : T}
    (h : MatrizBase.asignar a i j v m = .ok m1) :
    SoloBloques m m1 ∧ ∃ r, r ∈ filasDir m d._datos ∧ ∀ x, x ≠ r → m1.bloques x = m.bloques x := by
  simp only [MatrizBase.asignar, ho, MatrizDinamica.asignar, objDin_eq ho] at h
  split at h
  · unfold escribirCelda at h
    cases hp : d._datos with
    | none => simp [hp] at h
    | some p =>
      cases ht : m.tablas p with
      | none => simp [hp, ht] at h
      | some ps =>
        cases hq : ps[i.toNat]? with
        | none => simp [hp, ht, hq] at h
        | some q =>
          cases q with
          | none => simp [hp, ht, hq] at h
          | some r =>
            cases hb : m.bloques r with
            | none => simp [hp, ht, hq, hb] at h
            | some es =>
              simp only [hp, ht, hq, hb] at h
              split at h
              · simp only [Except.ok.injEq] at h
                subst h
                refine ⟨soloBloques_ponerBloque hb _ _, r, mem_filasDir ht hq, ?_⟩
                intro x hx; simp [hx]
              · cases h
  · cases h

theorem asignarVarios_solo {ops : List (Nat × Int × Int × T)} :
    ∀ {m m1 : Memoria T}, (∀ op ∈ ops, ∃ d, m.objetos op.1 = some (.dinamica d)) →
      asignarVarios ops m = .ok m1 → SoloBloques m m1 := by
  induction ops with
  | nil => intro m m1 _ h; simp only [asignarVarios, Except.ok.injEq] at h; subst h
           exact soloBloques_refl m
  | cons op resto ih =>
    intro m m1 hdin h
    obtain ⟨a, i, j, v⟩ := op
    obtain ⟨d, hd⟩ := hdin (a, i, j, v) (List.mem_cons_self _ _)
    simp only [asignarVarios] at h
    cases hstep : MatrizBase.asignar a i j v m with
    | error e => simp [hstep] at h
    | ok m0 =>
      simp only [hstep] at h
      have hs := (asignarD_efecto hd hstep).1
      refine soloBloques_trans hs (ih ?_ h)
      intro op hop
      obtain ⟨d1, hd1⟩ := hdin op (List.mem_cons_of_mem _ hop)
      exact ⟨d1, by rw [hs.2.1]; exact hd1⟩

/-- An in-range `asignar` on a well-formed dynamic matrix `x` succeeds, and a dynamic
matrix `y` that shares no row block with `x` reads the same before and after. -/
theorem asignar_ajena {m : Memoria T} {x y : Nat} {dx dy : MatrizDinamica}
    (hx : m.objetos x = some (.dinamica dx)) (hy : m.objetos y = some (.dinamica dy))
    (hwf : dx.bienFormada m = true)
    (hsep : ∀ r, r ∈ filasDir m dx._datos → r ∉ filasDir m dy._datos)
    {i j : Int} (hi0 : 0 ≤ i) (hi : i < dx._filas) (hj0 : 0 ≤ j) (hj : j < dx._columnas)
    (v : T) :
    ∃ m1, MatrizBase.asignar x i j v m = .ok m1 ∧ SoloBloques m m1 ∧
      ∀ i1 j1 : Int, MatrizBase.obtener y i1 j1 m1 = MatrizBase.obtener y i1 j1 m := by
  have h1 : i.toNat < dx._filas.toNat := by omega
  have h2 : j.toNat < dx._columnas.toNat := by omega
  obtain ⟨r, es, _, _, _, hw, _, _⟩ := escribirCelda_ok hwf h1 h2 v
  have heq := asignarD_eq hx h1 h2 v
  rw [Int.toNat_of_nonneg hi0, Int.toNat_of_nonneg hj0, hw] at heq
  obtain ⟨hs, r1, hr1, hotros⟩ := asignarD_efecto hx heq
  refine ⟨_, heq, hs, fun i1 j1 => ?_⟩
  apply obtenerD_marco hy (by rw [hs.2.1]; exact hy)
  · intro p _; rw [hs.1]
  · intro r2 hr2
    apply hotros
    intro e; subst e
    exact hsep _ hr1 hr2


/-! ## The copy constructor -/

theorem bienFormada_conserva {m m1 : Memoria T} {d : MatrizDinamica}
    (hwf : d.bienFormada m = true) (hcons : Conserva m.libre m m1)
    (hlib : m.libre ≤ m1.libre) : d.bienFormada m1 = true := by
  by_cases hd : d._filas ≤ 0 ∨ d._columnas ≤ 0
  · have := bienFormada_deg hwf hd
    simp [MatrizDinamica.bienFormada, hd, this]
  · obtain ⟨p, ps, hp, ht, hlt, hlen, hall, hnd⟩ := bienFormada_pos hwf hd
    refine bienFormada_of hd hp (by rw [(hcons p hlt).1]; exact ht) (by omega) hlen ?_ hnd
    intro q hq
    obtain ⟨r, es, hqr, hr, hb, hl⟩ := filaValida_iff.mp (hall q hq)
    exact filaValida_iff.mpr ⟨r, es, hqr, by omega, by rw [(hcons r hr).2.1]; exact hb, hl⟩

theorem filasDir_conserva {m m1 : Memoria T} {d : MatrizDinamica}
    (hwf : d.bienFormada m = true) (hcons : Conserva m.libre m m1) :
    filasDir m1 d._datos = filasDir m d._datos := by
  by_cases hd : d._filas ≤ 0 ∨ d._columnas ≤ 0
  · rw [bienFormada_deg hwf hd]; rfl
  · obtain ⟨p, ps, hp, ht, hlt, _⟩ := bienFormada_pos hwf hd
    simp only [hp, filasDir, (hcons p hlt).1]

/-- The copy constructor on a well-formed matrix: it succeeds and builds, in fresh
storage, a well-formed matrix of the same dimensions holding the same elements. -/
theorem copiar_spec {m : Memoria T} {g : Nat} {d : MatrizDinamica}
    (hg : m.objetos g = some (.dinamica d)) (hwf : d.bienFormada m = true) :
    ∃ m2, MatrizDinamica.copiar g m = .ok (m.libre, m2) ∧
      Construida m d._filas d._columnas
        (fun i j => valorDe (leerCelda d._datos i j m) m.basura) m2 := by
  obtain ⟨m1, d1, m2, h1, h2, h3, h4⟩ := construir_spec m d._filas d._columnas
    (fun i j => valorDe (leerCelda d._datos i j m) m.basura)
    (fun datos i j mm =>
      match leerCelda d._datos i j mm with
      | .error e => .error e
      | .ok v => escribirCelda datos i j v mm)
    (by
      intro datos i j mm hi hj hcons
      obtain ⟨v, hv⟩ := leerCelda_ok hwf hi hj
      simp only [leerCelda_conserva hwf hcons, hv, valorDe])
  exact ⟨m2, by simp only [MatrizDinamica.copiar, objDin_eq hg, h1, h2, h3], h4⟩

/-- C7. For a well-formed `MatrizDinamica` `g`, the copy-constructed `h` has the
dimensions of `g` and the same element at every in-range index (and `g` still reads the
same); and after any later sequence of `asignar` calls on `g` and `h`, an in-range
`asignar` on `h` succeeds and changes no element of `g`, and an in-range `asignar` on
`g` succeeds and changes no element of `h`. -/
theorem C7_copia_profunda_independiente (m : Memoria T) (g : Nat) (d : MatrizDinamica)
    (hg : m.objetos g = some (.dinamica d)) (hwf : bienFormadaEn m g = true) :
    ∃ h m2, MatrizDinamica.copiar g m = .ok (h, m2) ∧
      MatrizBase.filas h m2 = .ok d._filas ∧ MatrizBase.columnas h m2 = .ok d._columnas ∧
      MatrizBase.filas g m2 = .ok d._filas ∧ MatrizBase.columnas g m2 = .ok d._columnas ∧
      (∀ i j : Int, 0 ≤ i → i < d._filas → 0 ≤ j → j < d._columnas →
        ∃ v, MatrizBase.obtener g i j m = .ok v ∧ MatrizBase.obtener h i j m2 = .ok v ∧
          MatrizBase.obtener g i j m2 = .ok v) ∧
      ∀ (ops : List (Nat × Int × Int × T)) (m3 : Memoria T),
        (∀ op ∈ ops, op.1 = g ∨ op.1 = h) → asignarVarios ops m2 = .ok m3 →
        ∀ (i j : Int) (v : T), 0 ≤ i → i < d._filas → 0 ≤ j → j < d._columnas →
          (∃ m4, MatrizBase.asignar h i j v m3 = .ok m4 ∧
            ∀ i1 j1 : Int, MatrizBase.obtener g i1 j1 m4 = MatrizBase.obtener g i1 j1 m3) ∧
          (∃ m4, MatrizBase.asignar g i j v m3 = .ok m4 ∧
            ∀ i1 j1 : Int, MatrizBase.obtener h i1 j1 m4 = MatrizBase.obtener h i1 j1 m3) := by
  have hwfd := bienFormadaEn_din hwf hg
  have hglt := bienFormadaEn_lt hwf
  obtain ⟨m2, hcop, datos, hoH, hwfH, hobjs, hmem, hrows, _, hlib, _, _, _, hcel⟩ :=
    copiar_spec hg hwfd
  have hcons : Conserva m.libre m m2 := fun a ha =>
    ⟨(hmem a ha).1, (hmem a ha).2, hobjs a (by omega)⟩
  have hoG : m2.objetos g = some (.dinamica d) := by rw [hobjs g (by omega)]; exact hg
  have hwfG : d.bienFormada m2 = true := bienFormada_conserva hwfd hcons (by omega)
  have hsepGH : ∀ r, r ∈ filasDir m2 d._datos → r ∉ filasDir m2 datos := by
    intro r hr hr2
    rw [filasDir_conserva hwfd hcons] at hr
    have := filasDir_lt hwfd hr
    have := hrows r hr2
    omega
  refine ⟨m.libre, m2, hcop, by simp [MatrizBase.filas, hoH], by simp [MatrizBase.columnas, hoH],
    by simp [MatrizBase.filas, hoG], by simp [MatrizBase.columnas, hoG], ?_, ?_⟩
  · intro i j hi0 hi hj0 hj
    have h1 : i.toNat < d._filas.toNat := by omega
    have h2 : j.toNat < d._columnas.toNat := by omega
    obtain ⟨v, hv⟩ := leerCelda_ok hwfd h1 h2
    have e1 := obtenerD_eq hg h1 h2
    have e2 := obtenerD_eq hoH (i := i.toNat) (j := j.toNat) h1 h2
    have e3 := obtener_conserva hwf hcons i j
    rw [Int.toNat_of_nonneg hi0, Int.toNat_of_nonneg hj0] at e1 e2
    refine ⟨v, by rw [e1, hv], ?_, by rw [e3, e1, hv]⟩
    rw [e2, hcel _ _ h1 h2]
    exact congrArg Except.ok (valorDe_ok hv _)
  · intro ops m3 hops hrun i j v hi0 hi hj0 hj
    have hs : SoloBloques m2 m3 := by
      apply asignarVarios_solo _ hrun
      intro op hop
      rcases hops op hop with e | e
      · exact ⟨d, by rw [e]; exact hoG⟩
      · exact ⟨_, by rw [e]; exact hoH⟩
    have hoG3 : m3.objetos g = some (.dinamica d) := by rw [hs.2.1]; exact hoG
    have hoH3 : m3.objetos m.libre = some (.dinamica ⟨d._filas, d._columnas, datos⟩) := by
      rw [hs.2.1]; exact hoH
    constructor
    · obtain ⟨m4, h4, _, hfr⟩ := asignar_ajena hoH3 hoG3
        (by rw [bienFormada_solo hs]; exact hwfH)
        (by
          intro r hr hr2
          rw [filasDir_solo hs] at hr hr2
          exact hsepGH r hr2 hr)
        hi0 hi hj0 hj v
      exact ⟨m4, h4, hfr⟩
    · obtain ⟨m4, h4, _, hfr⟩ := asignar_ajena hoG3 hoH3
        (by rw [bienFormada_solo hs]; exact hwfG)
        (by
          intro r hr hr2
          rw [filasDir_solo hs] at hr hr2
          exact hsepGH r hr hr2)
        hi0 hi hj0 hj v
      exact ⟨m4, h4, hfr⟩

/-- C7 on the dynamic matrix `Ai = [[1,2],[3,4]]` of the `int` demonstration of `main`. -/
theorem C7_copia_profunda_independiente_witness :
    memDemoInt.objetos 0 = some (.dinamica ⟨2, 2, some 1⟩) ∧
    bienFormadaEn memDemoInt 0 = true ∧
    ∃ h m2, MatrizDinamica.copiar 0 memDemoInt = .ok (h, m2) ∧
      MatrizBase.filas h m2 = .ok 2 ∧ MatrizBase.columnas h m2 = .ok 2 ∧
      MatrizBase.filas 0 m2 = .ok 2 ∧ MatrizBase.columnas 0 m2 = .ok 2 ∧
      (∀ i j : Int, 0 ≤ i → i < 2 → 0 ≤ j → j < 2 →
        ∃ v, MatrizBase.obtener 0 i j memDemoInt = .ok v ∧ MatrizBase.obtener h i j m2 = .ok v ∧
          MatrizBase.obtener 0 i j m2 = .ok v) ∧
      ∀ (ops : List (Nat × Int × Int × Int)) (m3 : Memoria Int),
        (∀ op ∈ ops, op.1 = 0 ∨ op.1 = h) → asignarVarios ops m2 = .ok m3 →
        ∀ (i j : Int) (v : Int), 0 ≤ i → i < 2 → 0 ≤ j → j < 2 →
          (∃ m4, MatrizBase.asignar h i j v m3 = .ok m4 ∧
            ∀ i1 j1 : Int, MatrizBase.obtener 0 i1 j1 m4 = MatrizBase.obtener 0 i1 j1 m3) ∧
          (∃ m4, MatrizBase.asignar 0 i j v m3 = .ok m4 ∧
            ∀ i1 j1 : Int, MatrizBase.obtener h i1 j1 m4 = MatrizBase.obtener h i1 j1 m3) :=
  ⟨rfl, by decide,
    C7_copia_profunda_independiente memDemoInt 0 ⟨2, 2, some 1⟩ rfl (by decide)⟩


/-! ## The move constructor -/

/-- C8. For a well-formed `MatrizDinamica` `g`, move-constructing `h` from `g` gives `h`
the dimensions `g` had and, at every index, the element `g` had (the storage itself is
untouched); `g` is left with `filas() = 0`, `columnas() = 0` and a null `_datos`, on
which `liberar` does nothing and the destructor only ends the object. -/
theorem C8_mover_transfiere_y_vacia (m : Memoria T) (g : Nat) (d : MatrizDinamica)
    (hg : m.objetos g = some (.dinamica d)) (hwf : bienFormadaEn m g = true) :
    ∃ h m2, MatrizDinamica.mover g m = .ok (h, m2) ∧
      MatrizBase.filas h m2 = .ok d._filas ∧ MatrizBase.columnas h m2 = .ok d._columnas ∧
      (∀ i j : Int, MatrizBase.obtener h i j m2 = MatrizBase.obtener g i j m) ∧
      (∀ i j : Int, 0 ≤ i → i < d._filas → 0 ≤ j → j < d._columnas →
        ∃ v, MatrizBase.obtener g i j m = .ok v ∧ MatrizBase.obtener h i j m2 = .ok v) ∧
      m2.tablas = m.tablas ∧ m2.bloques = m.bloques ∧
      m2.objetos g = some (.dinamica ⟨0, 0, none⟩) ∧
      MatrizBase.filas g m2 = .ok 0 ∧ MatrizBase.columnas g m2 = .ok 0 ∧
      MatrizDinamica.liberar g m2 = .ok m2 ∧
      MatrizDinamica.destruir g m2 = .ok (m2.ponerObjeto g none) := by
  have hglt := bienFormadaEn_lt hwf
  have hne : m.libre ≠ g := by omega
  have hoH : (((m.ponerObjeto m.libre (some (.dinamica ⟨d._filas, d._columnas, d._datos⟩))).avanzar).ponerObjeto
      g (some (.dinamica ⟨0, 0, none⟩))).objetos m.libre
      = some (.dinamica ⟨d._filas, d._columnas, d._datos⟩) := by
    simp [hne]
  have hoG : (((m.ponerObjeto m.libre (some (.dinamica ⟨d._filas, d._columnas, d._datos⟩))).avanzar).ponerObjeto
      g (some (.dinamica ⟨0, 0, none⟩))).objetos g = some (.dinamica ⟨0, 0, none⟩) := by
    simp
  have hlee : ∀ i j : Int, MatrizBase.obtener m.libre i j
      (((m.ponerObjeto m.libre (some (.dinamica ⟨d._filas, d._columnas, d._datos⟩))).avanzar).ponerObjeto
        g (some (.dinamica ⟨0, 0, none⟩))) = MatrizBase.obtener g i j m := by
    intro i j
    simp only [MatrizBase.obtener, hoH, hg, MatrizDinamica.obtener, objDin]
    rfl
  refine ⟨m.libre, _, by simp only [MatrizDinamica.mover, objDin_eq hg], ?_, ?_, hlee, ?_, rfl, rfl,
    hoG, ?_, ?_, ?_, ?_⟩
  · simp only [MatrizBase.filas, hoH]
  · simp only [MatrizBase.columnas, hoH]
  · intro i j hi0 hi hj0 hj
    obtain ⟨v, hv⟩ := obtener_ok hwf (f := d._filas) (c := d._columnas)
      (by simp [MatrizBase.filas, hg]) (by simp [MatrizBase.columnas, hg])
      (i := i.toNat) (j := j.toNat) (by omega) (by omega)
    rw [Int.toNat_of_nonneg hi0, Int.toNat_of_nonneg hj0] at hv
    exact ⟨v, hv, by rw [hlee, hv]⟩
  · simp only [MatrizBase.filas, hoG]
  · simp only [MatrizBase.columnas, hoG]
  · simp only [MatrizDinamica.liberar, objDin_eq hoG]
  · simp only [MatrizDinamica.destruir, MatrizDinamica.liberar, objDin_eq hoG]

/-- C8 on the dynamic matrix `Ai = [[1,2],[3,4]]` of the `int` demonstration of `main`. -/
theorem C8_mover_transfiere_y_vacia_witness :
    memDemoInt.objetos 0 = some (.dinamica ⟨2, 2, some 1⟩) ∧
    bienFormadaEn memDemoInt 0 = true ∧
    ∃ h m2, MatrizDinamica.mover 0 memDemoInt = .ok (h, m2) ∧
      MatrizBase.filas h m2 = .ok 2 ∧ MatrizBase.columnas h m2 = .ok 2 ∧
      (∀ i j : Int, MatrizBase.obtener h i j m2 = MatrizBase.obtener 0 i j memDemoInt) ∧
      (∀ i j : Int, 0 ≤ i → i < 2 → 0 ≤ j → j < 2 →
        ∃ v, MatrizBase.obtener 0 i j memDemoInt = .ok v ∧ MatrizBase.obtener h i j m2 = .ok v) ∧
      m2.tablas = memDemoInt.tablas ∧ m2.bloques = memDemoInt.bloques ∧
      m2.objetos 0 = some (.dinamica ⟨0, 0, none⟩) ∧
      MatrizBase.filas 0 m2 = .ok 0 ∧ MatrizBase.columnas 0 m2 = .ok 0 ∧
      MatrizDinamica.liberar 0 m2 = .ok m2 ∧
      MatrizDinamica.destruir 0 m2 = .ok (m2.ponerObjeto 0 none) :=
  ⟨rfl, by decide, C8_mover_transfiere_y_vacia memDemoInt 0 ⟨2, 2, some 1⟩ rfl (by decide)⟩

/-! ## `liberar` -/

/-- `liberar` on a well-formed matrix: it succeeds, releases the table and exactly the
row blocks of the matrix, nulls `_datos`, and changes nothing else. -/
theorem liberar_spec {m : Memoria T} {this : Nat} {d : MatrizDinamica}
    (ho : m.objetos this = some (.dinamica d)) (hwf : d.bienFormada m = true) :
    ∃ m1, MatrizDinamica.liberar this m = .ok m1 ∧
      m1.objetos this = some (.dinamica { d with _datos := none }) ∧
      (∀ a, a ≠ this → m1.objetos a = m.objetos a) ∧
      (∀ p, d._datos = some p → m1.tablas p = none) ∧
      (∀ a, d._datos ≠ some a → m1.tablas a = m.tablas a) ∧
      (∀ r, r ∈ filasDir m d._datos → m1.bloques r = none) ∧
      (∀ r, r ∉ filasDir m d._datos → m1.bloques r = m.bloques r) ∧
      m1.libre = m.libre ∧ m1.basura = m.basura ∧ m1.entrada = m.entrada ∧
      m1.salida = m.salida := by
  by_cases hd : d._filas ≤ 0 ∨ d._columnas ≤ 0
  · have hnone := bienFormada_deg hwf hd
    refine ⟨m, by simp only [MatrizDinamica.liberar, objDin_eq ho, hnone], ?_, fun _ _ => rfl, ?_,
      fun _ _ => rfl, ?_, fun _ _ => rfl, rfl, rfl, rfl, rfl⟩
    · rw [ho]; cases d; simp only at hnone; subst hnone; rfl
    · intro p hp; rw [hnone] at hp; cases hp
    · intro r hr; rw [hnone] at hr; simp [filasDir] at hr
  · obtain ⟨p, ps, hp, ht, _, hlen, hall, hnd⟩ := bienFormada_pos hwf hd
    obtain ⟨m1, hm1, htab, hobj, hlib, hbas, hent, hsal, hfuera, hdentro⟩ :=
      bucle_inv d._filas.toNat (liberarFila p)
        (fun k mm => mm.tablas = m.tablas ∧ mm.objetos = m.objetos ∧ mm.libre = m.libre ∧
          mm.basura = m.basura ∧ mm.entrada = m.entrada ∧ mm.salida = m.salida ∧
          (∀ r, (¬ ∃ i, i < k ∧ ps[i]? = some (some r)) → mm.bloques r = m.bloques r) ∧
          (∀ r, (∃ i, i < k ∧ ps[i]? = some (some r)) → mm.bloques r = none))
        m
        ⟨rfl, rfl, rfl, rfl, rfl, rfl, fun _ _ => rfl, fun r ⟨i, hi, _⟩ => by omega⟩
        (by
          intro k mm hk ⟨htab, hobj, hlib, hbas, hent, hsal, hfuera, hdentro⟩
          obtain ⟨r, es, hq, _, hb, _⟩ := fila_de_tabla hall (i := k) (by omega)
          have hbk : mm.bloques r = some es := by
            rw [hfuera r]
            · exact hb
            · rintro ⟨i, hi, hqi⟩
              have := filas_distintas hnd hqi hq
              omega
          refine ⟨mm.ponerBloque r none, by simp [liberarFila, htab, ht, hq, hbk], htab, hobj,
            hlib, hbas, hent, hsal, ?_, ?_⟩
          · intro r1 hr1
            have hne : r1 ≠ r := by
              intro e; subst e; exact hr1 ⟨k, by omega, hq⟩
            simp only [bloques_ponerBloque, if_neg hne]
            apply hfuera
            rintro ⟨i, hi, hqi⟩
            exact hr1 ⟨i, by omega, hqi⟩
          · rintro r1 ⟨i, hi, hqi⟩
            by_cases hik : i = k
            · subst hik
              rw [hq] at hqi
              simp only [Option.some.injEq] at hqi
              subst hqi
              simp
            · by_cases hne : r1 = r
              · subst hne; simp
              · simp only [bloques_ponerBloque, if_neg hne]
                exact hdentro r1 ⟨i, by omega, hqi⟩)
    have hmemdir : ∀ r, r ∈ filasDir m d._datos ↔
        ∃ i, i < d._filas.toNat ∧ ps[i]? = some (some r) := by
      intro r
      rw [hp]
      simp only [filasDir, ht]
      rw [List.reduceOption_mem_iff, List.mem_iff_getElem?]
      constructor
      · rintro ⟨i, hi⟩
        exact ⟨i, by rw [← hlen]; exact (List.getElem?_eq_some.mp hi).1, hi⟩
      · rintro ⟨i, _, hi⟩
        exact ⟨i, hi⟩
    have htp : m1.tablas p = some ps := by rw [htab]; exact ht
    refine ⟨(m1.ponerTabla p none).ponerObjeto this (some (.dinamica { d with _datos := none })),
      by simp only [MatrizDinamica.liberar, objDin_eq ho, hp, hm1, htp], by simp, ?_, ?_, ?_, ?_, ?_,
      hlib, hbas, hent, hsal⟩
    · intro a ha; simp [ha, hobj]
    · intro p1 hp1; rw [hp] at hp1; cases hp1; simp
    · intro a ha
      have : a ≠ p := fun e => ha (by rw [hp, e])
      simp [this, htab]
    · intro r hr
      exact hdentro r ((hmemdir r).mp hr)
    · intro r hr
      exact hfuera r (fun h => hr ((hmemdir r).mpr h))


/-! ## Separation of two dynamic matrices -/

theorem bienFormada_marco {m m1 : Memoria T} {d : MatrizDinamica}
    (hwf : d.bienFormada m = true)
    (ht : ∀ p, d._datos = some p → m1.tablas p = m.tablas p)
    (hb : ∀ r ∈ filasDir m d._datos, m1.bloques r = m.bloques r)
    (hlib : m.libre ≤ m1.libre) : d.bienFormada m1 = true := by
  by_cases hd : d._filas ≤ 0 ∨ d._columnas ≤ 0
  · have := bienFormada_deg hwf hd
    simp [MatrizDinamica.bienFormada, hd, this]
  · obtain ⟨p, ps, hp, htp, hlt, hlen, hall, hnd⟩ := bienFormada_pos hwf hd
    refine bienFormada_of hd hp (by rw [ht p hp]; exact htp) (by omega) hlen ?_ hnd
    intro q hq
    obtain ⟨r, es, hqr, hr, hbr, hl⟩ := filaValida_iff.mp (hall q hq)
    have hmem : r ∈ filasDir m d._datos := by
      rw [hp]; simp only [filasDir, htp]
      exact List.reduceOption_mem_iff.mpr (hqr ▸ hq)
    exact filaValida_iff.mpr ⟨r, es, hqr, by omega, by rw [hb r hmem]; exact hbr, hl⟩

theorem filasDir_marco {m m1 : Memoria T} {datos : Option Nat}
    (ht : ∀ p, datos = some p → m1.tablas p = m.tablas p) :
    filasDir m1 datos = filasDir m datos := by
  cases datos with
  | none => rfl
  | some p => simp only [filasDir, ht p rfl]

/-- Two objects with the same fields read the same when the table and the rows they
point to are the same. -/
theorem obtenerD_campos {m m1 : Memoria T} {a a1 : Nat} {d : MatrizDinamica}
    (ho : m.objetos a = some (.dinamica d)) (ho1 : m1.objetos a1 = some (.dinamica d))
    (ht : ∀ p, d._datos = some p → m1.tablas p = m.tablas p)
    (hb : ∀ r ∈ filasDir m d._datos, m1.bloques r = m.bloques r) (i j : Int) :
    MatrizBase.obtener a1 i j m1 = MatrizBase.obtener a i j m := by
  simp only [MatrizBase.obtener, ho, ho1, MatrizDinamica.obtener, objDin,
    leerCelda_marco ht hb]

theorem separadas_iff {m : Memoria T} {x y : Nat} {dx dy : MatrizDinamica}
    (hx : m.objetos x = some (.dinamica dx)) (hy : m.objetos y = some (.dinamica dy)) :
    separadas m x y = true ↔ ∀ r, r ∈ filasDir m dx._datos → r ∉ filasDir m dy._datos := by
  simp [separadas, hx, hy]

theorem reduceOption_length_todos {ps : List (Option Nat)}
    (hsome : ∀ q ∈ ps, ∃ r, q = some r) : ps.reduceOption.length = ps.length := by
  induction ps with
  | nil => rfl
  | cons q qs ih =>
    obtain ⟨r, hr⟩ := hsome q (List.mem_cons_self _ _)
    subst hr
    rw [List.reduceOption_cons_of_some, List.length_cons, List.length_cons,
      ih (fun q hq => hsome q (List.mem_cons_of_mem _ hq))]

/-- A well-formed matrix with storage has `_filas` row blocks, at least one. -/
theorem filasDir_length {m : Memoria T} {d : MatrizDinamica} (hwf : d.bienFormada m = true)
    {p : Nat} (hp : d._datos = some p) :
    (filasDir m d._datos).length = d._filas.toNat ∧ 0 < d._filas.toNat := by
  have hd : ¬ (d._filas ≤ 0 ∨ d._columnas ≤ 0) := by
    intro hd; rw [bienFormada_deg hwf hd] at hp; cases hp
  obtain ⟨p1, ps, hp1, ht, _, hlen, hall, _⟩ := bienFormada_pos hwf hd
  refine ⟨?_, by omega⟩
  rw [hp1]
  simp only [filasDir, ht]
  rw [← hlen]
  exact reduceOption_length_todos (fun q hq => by
    obtain ⟨r, _, hqr, _⟩ := filaValida_iff.mp (hall q hq)
    exact ⟨r, hqr⟩)

/-- Separated well-formed matrices do not share their table either. -/
theorem tablas_distintas {m : Memoria T} {dx dy : MatrizDinamica}
    (hwx : dx.bienFormada m = true)
    (hsep : ∀ r, r ∈ filasDir m dx._datos → r ∉ filasDir m dy._datos)
    {p : Nat} (hpx : dx._datos = some p) : dy._datos ≠ some p := by
  intro hpy
  obtain ⟨hlen, hpos⟩ := filasDir_length hwx hpx
  have hne : filasDir m dx._datos ≠ [] := by
    intro e; rw [e] at hlen; simp at hlen; omega
  obtain ⟨r, hr⟩ := List.exists_mem_of_ne_nil _ hne
  exact hsep r hr (by rw [hpy, ← hpx]; exact hr)

/-- Independence of two separated well-formed matrices `x` and `y`: after any sequence
of `asignar` calls on them, an in-range `asignar` on `x` succeeds and leaves every
element of `y` as it was. -/
theorem independencia {m2 : Memoria T} {x y : Nat} {dx dy : MatrizDinamica}
    (hx : m2.objetos x = some (.dinamica dx)) (hy : m2.objetos y = some (.dinamica dy))
    (hwx : dx.bienFormada m2 = true)
    (hsep : ∀ r, r ∈ filasDir m2 dx._datos → r ∉ filasDir m2 dy._datos)
    (ops : List (Nat × Int × Int × T)) (m3 : Memoria T)
    (hops : ∀ op ∈ ops, op.1 = x ∨ op.1 = y) (hrun : asignarVarios ops m2 = .ok m3)
    (i j : Int) (v : T) (hi0 : 0 ≤ i) (hi : i < dx._filas) (hj0 : 0 ≤ j)
    (hj : j < dx._columnas) :
    ∃ m4, MatrizBase.asignar x i j v m3 = .ok m4 ∧
      ∀ i1 j1 : Int, MatrizBase.obtener y i1 j1 m4 = MatrizBase.obtener y i1 j1 m3 := by
  have hs : SoloBloques m2 m3 := by
    apply asignarVarios_solo _ hrun
    intro op hop
    rcases hops op hop with e | e
    · exact ⟨dx, by rw [e]; exact hx⟩
    · exact ⟨dy, by rw [e]; exact hy⟩
  obtain ⟨m4, h4, _, hfr⟩ := asignar_ajena (m := m3) (x := x) (y := y)
    (by rw [hs.2.1]; exact hx) (by rw [hs.2.1]; exact hy)
    (by rw [bienFormada_solo hs]; exact hwx)
    (by
      intro r hr hr2
      rw [filasDir_solo hs] at hr hr2
      exact hsep r hr hr2)
    hi0 hi hj0 hj v
  exact ⟨m4, h4, hfr⟩


/-! ## Move assignment -/

/-- C10. For two distinct well-formed, separated `MatrizDinamica` objects `t` and `s`,
after `t = std::move(s)`: `t` has the fields (hence the dimensions and the elements)
`s` had; the table `t` owned before and each of its `_filas` row blocks have been
released, and nothing else has; `s` is left with `filas() = 0`, `columnas() = 0` and a
null `_datos`. Self move-assignment leaves the memory unchanged. -/
theorem C10_asignacion_por_movimiento (m : Memoria T) (t s : Nat) (dt ds : MatrizDinamica)
    (ht : m.objetos t = some (.dinamica dt)) (hs : m.objetos s = some (.dinamica ds))
    (hwt : bienFormadaEn m t = true) (hws : bienFormadaEn m s = true)
    (hsep : t ≠ s → separadas m t s = true) :
    (t = s → MatrizDinamica.asignarMov t s m = .ok m) ∧
    (t ≠ s → ∃ m2, MatrizDinamica.asignarMov t s m = .ok m2 ∧
      m2.objetos t = some (.dinamica ⟨ds._filas, ds._columnas, ds._datos⟩) ∧
      MatrizBase.filas t m2 = .ok ds._filas ∧ MatrizBase.columnas t m2 = .ok ds._columnas ∧
      (∀ i j : Int, MatrizBase.obtener t i j m2 = MatrizBase.obtener s i j m) ∧
      (∀ i j : Int, 0 ≤ i → i < ds._filas → 0 ≤ j → j < ds._columnas →
        ∃ v, MatrizBase.obtener s i j m = .ok v ∧ MatrizBase.obtener t i j m2 = .ok v) ∧
      (∀ p, dt._datos = some p → m.tablas p ≠ none ∧ m2.tablas p = none ∧
        (filasDir m dt._datos).length = dt._filas.toNat) ∧
      (∀ r, r ∈ filasDir m dt._datos → m.bloques r ≠ none ∧ m2.bloques r = none) ∧
      (∀ r, r ∉ filasDir m dt._datos → m2.bloques r = m.bloques r) ∧
      (∀ a, dt._datos ≠ some a → m2.tablas a = m.tablas a) ∧
      m2.objetos s = some (.dinamica ⟨0, 0, none⟩) ∧
      MatrizBase.filas s m2 = .ok 0 ∧ MatrizBase.columnas s m2 = .ok 0) := by
  constructor
  · intro e
    simp only [MatrizDinamica.asignarMov, if_pos e]
  · intro hne
    have hwtd := bienFormadaEn_din hwt ht
    have hwsd := bienFormadaEn_din hws hs
    have hsep1 := (separadas_iff ht hs).mp (hsep hne)
    have hsep2 : ∀ r, r ∈ filasDir m ds._datos → r ∉ filasDir m dt._datos :=
      fun r hr hr2 => hsep1 r hr2 hr
    obtain ⟨m1, hm1, hoT1, hotros, htabNone, htabSame, hbloNone, hbloSame, _⟩ :=
      liberar_spec ht hwtd
    have hoS1 : m1.objetos s = some (.dinamica ds) := by
      rw [hotros s (Ne.symm hne)]; exact hs
    have hoT2 : ((m1.ponerObjeto t (some (.dinamica ⟨ds._filas, ds._columnas, ds._datos⟩))).ponerObjeto
        s (some (.dinamica ⟨0, 0, none⟩))).objetos t
        = some (.dinamica ⟨ds._filas, ds._columnas, ds._datos⟩) := by
      simp [hne]
    have hoS2 : ((m1.ponerObjeto t (some (.dinamica ⟨ds._filas, ds._columnas, ds._datos⟩))).ponerObjeto
        s (some (.dinamica ⟨0, 0, none⟩))).objetos s = some (.dinamica ⟨0, 0, none⟩) := by
      simp
    have hlee : ∀ i j : Int, MatrizBase.obtener t i j
        ((m1.ponerObjeto t (some (.dinamica ⟨ds._filas, ds._columnas, ds._datos⟩))).ponerObjeto
          s (some (.dinamica ⟨0, 0, none⟩))) = MatrizBase.obtener s i j m := by
      intro i j
      apply obtenerD_campos hs hoT2
      · intro p hp
        exact htabSame p (tablas_distintas hwsd hsep2 hp)
      · intro r hr
        exact hbloSame r (hsep2 r hr)
    refine ⟨_, by simp only [MatrizDinamica.asignarMov, if_neg hne, hm1, objDin_eq hoT1,
      objDin_eq hoS1], hoT2, by simp only [MatrizBase.filas, hoT2],
      by simp only [MatrizBase.columnas, hoT2], hlee, ?_, ?_, ?_, ?_, ?_, hoS2,
      by simp only [MatrizBase.filas, hoS2], by simp only [MatrizBase.columnas, hoS2]⟩
    · intro i j hi0 hi hj0 hj
      obtain ⟨v, hv⟩ := obtener_ok hws (f := ds._filas) (c := ds._columnas)
        (by simp [MatrizBase.filas, hs]) (by simp [MatrizBase.columnas, hs])
        (i := i.toNat) (j := j.toNat) (by omega) (by omega)
      rw [Int.toNat_of_nonneg hi0, Int.toNat_of_nonneg hj0] at hv
      exact ⟨v, hv, by rw [hlee, hv]⟩
    · intro p hp
      have hd : ¬ (dt._filas ≤ 0 ∨ dt._columnas ≤ 0) := by
        intro hd; rw [bienFormada_deg hwtd hd] at hp; cases hp
      obtain ⟨p1, ps, hp1, htp, _⟩ := bienFormada_pos hwtd hd
      rw [hp] at hp1; cases hp1
      exact ⟨by rw [htp]; simp, htabNone p hp, (filasDir_length hwtd hp).1⟩
    · intro r hr
      refine ⟨?_, hbloNone r hr⟩
      cases hp : dt._datos with
      | none => rw [hp] at hr; simp [filasDir] at hr
      | some p =>
        have hd : ¬ (dt._filas ≤ 0 ∨ dt._columnas ≤ 0) := by
          intro hd; rw [bienFormada_deg hwtd hd] at hp; cases hp
        obtain ⟨p1, ps, hp1, htp, _, _, hall, _⟩ := bienFormada_pos hwtd hd
        rw [hp] at hp1; cases hp1
        rw [hp] at hr
        simp only [filasDir, htp] at hr
        obtain ⟨r1, es, hq, _, hb, _⟩ := filaValida_iff.mp
          (hall _ (List.reduceOption_mem_iff.mp hr))
        cases hq
        rw [hb]; simp
    · intro r hr; exact hbloSame r hr
    · intro a ha; exact htabSame a ha

/-- C10 on a 2×2 dynamic matrix `t` (address 0) and a 3×2 dynamic matrix `s` (address 4). -/
theorem C10_asignacion_por_movimiento_witness :
    memDispar.objetos 0 = some (.dinamica ⟨2, 2, some 1⟩) ∧
    memDispar.objetos 4 = some (.dinamica ⟨3, 2, some 5⟩) ∧
    bienFormadaEn memDispar 0 = true ∧ bienFormadaEn memDispar 4 = true ∧
    separadas memDispar 0 4 = true ∧
    ∃ m2, MatrizDinamica.asignarMov 0 4 memDispar = .ok m2 ∧
      MatrizBase.filas 0 m2 = .ok 3 ∧ MatrizBase.columnas 0 m2 = .ok 2 ∧
      m2.tablas 1 = none ∧ m2.bloques 2 = none ∧ m2.bloques 3 = none ∧
      MatrizBase.filas 4 m2 = .ok 0 ∧ MatrizBase.columnas 4 m2 = .ok 0 := by
  refine ⟨rfl, by decide, by decide, by decide, by decide, ?_⟩
  obtain ⟨m2, h1, _, h3, h4, _, _, h7, h8, _, _, _, h12, h13⟩ :=
    (C10_asignacion_por_movimiento memDispar 0 4 ⟨2, 2, some 1⟩ ⟨3, 2, some 5⟩ rfl (by decide)
      (by decide) (by decide) (fun _ => by decide)).2 (by decide)
  exact ⟨m2, h1, h3, h4, (h7 1 rfl).2.1, (h8 2 (by decide)).2, (h8 3 (by decide)).2, h12, h13⟩


/-! ## Copy assignment -/

/-- Copy assignment between two distinct, separated, well-formed matrices: the target
ends up as a well-formed deep copy of the source in fresh storage, the source is
untouched and still well formed, and the storage the target owned before is released. -/
theorem asignarCopia_spec {m : Memoria T} {t s : Nat} {dt ds : MatrizDinamica}
    (ht : m.objetos t = some (.dinamica dt)) (hs : m.objetos s = some (.dinamica ds))
    (hwt : bienFormadaEn m t = true) (hws : bienFormadaEn m s = true)
    (hne : t ≠ s) (hsep : separadas m t s = true) :
    ∃ m4 datos, MatrizDinamica.asignarCopia t s m = .ok m4 ∧
      m4.objetos t = some (.dinamica ⟨ds._filas, ds._columnas, datos⟩) ∧
      m4.objetos s = some (.dinamica ds) ∧
      MatrizDinamica.bienFormada m4 ⟨ds._filas, ds._columnas, datos⟩ = true ∧
      ds.bienFormada m4 = true ∧
      (∀ r, r ∈ filasDir m4 datos → r ∉ filasDir m4 ds._datos) ∧
      (∀ i j : Int, MatrizBase.obtener s i j m4 = MatrizBase.obtener s i j m) ∧
      (∀ i j : Nat, i < ds._filas.toNat → j < ds._columnas.toNat →
        MatrizBase.obtener t (i : Int) (j : Int) m4 = MatrizBase.obtener s (i : Int) (j : Int) m) ∧
      (∀ p, dt._datos = some p → m4.tablas p = none) ∧
      (∀ r, r ∈ filasDir m dt._datos → m4.bloques r = none) := by
  have hwtd := bienFormadaEn_din hwt ht
  have hwsd := bienFormadaEn_din hws hs
  have htlt := bienFormadaEn_lt hwt
  have hslt := bienFormadaEn_lt hws
  have hsep1 := (separadas_iff ht hs).mp hsep
  have hsep2 : ∀ r, r ∈ filasDir m ds._datos → r ∉ filasDir m dt._datos :=
    fun r hr hr2 => hsep1 r hr2 hr
  -- the temporary copy
  obtain ⟨m1, hcop, datos, hoTemp, hwfTemp, hobjs1, hmem1, hrows, hpdatos, hlib1, _, _, _, hcel⟩ :=
    copiar_spec hs hwsd
  have hoT1 : m1.objetos t = some (.dinamica dt) := by rw [hobjs1 t (by omega)]; exact ht
  -- the three swaps
  obtain ⟨m2, hm2⟩ : ∃ m2, m2 = (m1.ponerObjeto t
      (some (.dinamica ⟨ds._filas, ds._columnas, datos⟩))).ponerObjeto m.libre
      (some (.dinamica dt)) := ⟨_, rfl⟩
  have htab2 : m2.tablas = m1.tablas := by rw [hm2]; rfl
  have hblo2 : m2.bloques = m1.bloques := by rw [hm2]; rfl
  have hlib2 : m2.libre = m1.libre := by rw [hm2]; rfl
  have hoTemp2 : m2.objetos m.libre = some (.dinamica dt) := by rw [hm2]; simp
  have hoT2 : m2.objetos t = some (.dinamica ⟨ds._filas, ds._columnas, datos⟩) := by
    rw [hm2]; simp [Nat.ne_of_lt htlt]
  have hoS2 : m2.objetos s = some (.dinamica ds) := by
    rw [hm2]; simp [Nat.ne_of_lt hslt, Ne.symm hne, hobjs1 s (by omega), hs]
  have hviejo : ∀ x, x < m.libre → m2.tablas x = m.tablas x ∧ m2.bloques x = m.bloques x := by
    intro x hx; rw [htab2, hblo2]; exact hmem1 x hx
  have hptlt : ∀ p, dt._datos = some p → p < m.libre := by
    intro p hp
    have hd : ¬ (dt._filas ≤ 0 ∨ dt._columnas ≤ 0) := by
      intro hd; rw [bienFormada_deg hwtd hd] at hp; cases hp
    obtain ⟨p1, _, hp1, _, hlt, _⟩ := bienFormada_pos hwtd hd
    rw [hp] at hp1; cases hp1; exact hlt
  have hpslt : ∀ p, ds._datos = some p → p < m.libre := by
    intro p hp
    have hd : ¬ (ds._filas ≤ 0 ∨ ds._columnas ≤ 0) := by
      intro hd; rw [bienFormada_deg hwsd hd] at hp; cases hp
    obtain ⟨p1, _, hp1, _, hlt, _⟩ := bienFormada_pos hwsd hd
    rw [hp] at hp1; cases hp1; exact hlt
  have hwt2 : dt.bienFormada m2 = true :=
    bienFormada_marco hwtd (fun p hp => (hviejo p (hptlt p hp)).1)
      (fun r hr => (hviejo r (filasDir_lt hwtd hr)).2) (by rw [hlib2]; omega)
  have hdir2 : filasDir m2 dt._datos = filasDir m dt._datos :=
    filasDir_marco (fun p hp => (hviejo p (hptlt p hp)).1)
  -- the temporary is destroyed
  obtain ⟨m3, hm3, _, hotros3, htabNone, htabSame, hbloNone, hbloSame, hlib3, _⟩ :=
    liberar_spec hoTemp2 hwt2
  rw [hdir2] at hbloNone hbloSame
  -- what the new storage of `t` and the storage of `s` look like at the end
  have hnuevoT : ∀ p, datos = some p → (m3.ponerObjeto m.libre none).tablas p = m1.tablas p := by
    intro p hp
    have h1 := hpdatos p hp
    have : dt._datos ≠ some p := fun e => by have := hptlt p e; omega
    simp only [tablas_ponerObjeto, htabSame p this, htab2]
  have hnuevoB : ∀ r, r ∈ filasDir m1 datos →
      (m3.ponerObjeto m.libre none).bloques r = m1.bloques r := by
    intro r hr
    have h1 := hrows r hr
    have : r ∉ filasDir m dt._datos := fun hin => by have := filasDir_lt hwtd hin; omega
    simp only [bloques_ponerObjeto, hbloSame r this, hblo2]
  have hviejoT : ∀ p, ds._datos = some p → (m3.ponerObjeto m.libre none).tablas p = m.tablas p := by
    intro p hp
    have : dt._datos ≠ some p := tablas_distintas hwsd hsep2 hp
    simp only [tablas_ponerObjeto, htabSame p this]
    exact (hviejo p (hpslt p hp)).1
  have hviejoB : ∀ r, r ∈ filasDir m ds._datos →
      (m3.ponerObjeto m.libre none).bloques r = m.bloques r := by
    intro r hr
    simp only [bloques_ponerObjeto, hbloSame r (hsep2 r hr)]
    exact (hviejo r (filasDir_lt hwsd hr)).2
  have hoT4 : (m3.ponerObjeto m.libre none).objetos t
      = some (.dinamica ⟨ds._filas, ds._columnas, datos⟩) := by
    simp [Nat.ne_of_lt htlt, hotros3 t (Nat.ne_of_lt htlt), hoT2]
  have hoS4 : (m3.ponerObjeto m.libre none).objetos s = some (.dinamica ds) := by
    simp [Nat.ne_of_lt hslt, hotros3 s (Nat.ne_of_lt hslt), hoS2]
  have hlib4 : (m3.ponerObjeto m.libre none).libre = m1.libre := by
    simp only [libre_ponerObjeto, hlib3, hlib2]
  refine ⟨m3.ponerObjeto m.libre none, datos, ?_, hoT4, hoS4, ?_, ?_, ?_, ?_, ?_, ?_, ?_⟩
  · simp only [MatrizDinamica.asignarCopia, if_neg hne, hcop, objDin_eq hoT1, objDin_eq hoTemp,
      MatrizDinamica.destruir, ← hm2, hm3]
  · exact bienFormada_marco hwfTemp hnuevoT hnuevoB (by rw [hlib4])
  · exact bienFormada_marco hwsd hviejoT hviejoB (by rw [hlib4]; omega)
  · intro r hr hr2
    rw [filasDir_marco hnuevoT] at hr
    rw [filasDir_marco hviejoT] at hr2
    have := hrows r hr
    have := filasDir_lt hwsd hr2
    omega
  · intro i j
    exact obtenerD_campos hs hoS4 hviejoT hviejoB i j
  · intro i j hi hj
    rw [obtenerD_campos hoTemp hoT4 hnuevoT hnuevoB (i : Int) (j : Int),
      obtenerD_eq hoTemp hi hj, obtenerD_eq hs hi hj, hcel i j hi hj]
    obtain ⟨v, hv⟩ := leerCelda_ok hwsd hi hj
    rw [hv]
    exact congrArg Except.ok (valorDe_ok hv _)
  · intro p hp
    simp only [tablas_ponerObjeto]; exact htabNone p hp
  · intro r hr
    simp only [bloques_ponerObjeto]; exact hbloNone r hr


/-- C9. For well-formed `MatrizDinamica` objects `t` and `s` (separated when distinct,
of any dimensions), after `t = s`: `t` has the dimensions of `s` and the element of `s`
at every in-range index; `s` has the dimensions and elements it had; and after any
later sequence of `asignar` calls on `t` and `s`, an in-range `asignar` on one succeeds
and changes no element of the other. When `t` and `s` are the same object the memory
is left exactly as it was. -/
theorem C9_asignacion_por_copia (m : Memoria T) (t s : Nat) (dt ds : MatrizDinamica)
    (ht : m.objetos t = some (.dinamica dt)) (hs : m.objetos s = some (.dinamica ds))
    (hwt : bienFormadaEn m t = true) (hws : bienFormadaEn m s = true)
    (hsep : t ≠ s → separadas m t s = true) :
    (t = s → MatrizDinamica.asignarCopia t s m = .ok m) ∧
    (t ≠ s → ∃ m2, MatrizDinamica.asignarCopia t s m = .ok m2 ∧
      MatrizBase.filas t m2 = .ok ds._filas ∧ MatrizBase.columnas t m2 = .ok ds._columnas ∧
      MatrizBase.filas s m2 = .ok ds._filas ∧ MatrizBase.columnas s m2 = .ok ds._columnas ∧
      (∀ i j : Int, MatrizBase.obtener s i j m2 = MatrizBase.obtener s i j m) ∧
      (∀ i j : Int, 0 ≤ i → i < ds._filas → 0 ≤ j → j < ds._columnas →
        ∃ v, MatrizBase.obtener s i j m = .ok v ∧ MatrizBase.obtener t i j m2 = .ok v) ∧
      ∀ (ops : List (Nat × Int × Int × T)) (m3 : Memoria T),
        (∀ op ∈ ops, op.1 = t ∨ op.1 = s) → asignarVarios ops m2 = .ok m3 →
        ∀ (i j : Int) (v : T), 0 ≤ i → i < ds._filas → 0 ≤ j → j < ds._columnas →
          (∃ m4, MatrizBase.asignar t i j v m3 = .ok m4 ∧
            ∀ i1 j1 : Int, MatrizBase.obtener s i1 j1 m4 = MatrizBase.obtener s i1 j1 m3) ∧
          (∃ m4, MatrizBase.asignar s i j v m3 = .ok m4 ∧
            ∀ i1 j1 : Int, MatrizBase.obtener t i1 j1 m4 = MatrizBase.obtener t i1 j1 m3)) := by
  constructor
  · intro e
    simp only [MatrizDinamica.asignarCopia, if_pos e]
  · intro hne
    obtain ⟨m4, datos, hrun, hoT, hoS, hwT, hwS, hsepTS, hsame, hcopia, _, _⟩ :=
      asignarCopia_spec ht hs hwt hws hne (hsep hne)
    refine ⟨m4, hrun, by simp only [MatrizBase.filas, hoT], by simp only [MatrizBase.columnas, hoT],
      by simp only [MatrizBase.filas, hoS], by simp only [MatrizBase.columnas, hoS], hsame, ?_, ?_⟩
    · intro i j hi0 hi hj0 hj
      obtain ⟨v, hv⟩ := obtener_ok hws (f := ds._filas) (c := ds._columnas)
        (by simp [MatrizBase.filas, hs]) (by simp [MatrizBase.columnas, hs])
        (i := i.toNat) (j := j.toNat) (by omega) (by omega)
      have hc := hcopia i.toNat j.toNat (by omega) (by omega)
      rw [Int.toNat_of_nonneg hi0, Int.toNat_of_nonneg hj0] at hv hc
      exact ⟨v, hv, by rw [hc, hv]⟩
    · intro ops m3 hops hrun3 i j v hi0 hi hj0 hj
      constructor
      · exact independencia hoT hoS hwT hsepTS ops m3 hops hrun3 i j v hi0 hi hj0 hj
      · exact independencia hoS hoT hwS (fun r hr hr2 => hsepTS r hr2 hr) ops m3
          (fun op hop => (hops op hop).symm) hrun3 i j v hi0 hi hj0 hj

/-- C9 on `t = [[1,2],[3,4]]` (2×2, address 0) and `s = [[5,6],[7,8],[9,10]]` (3×2,
address 4): after `t = s`, `t` is 3×2 and reads as `s`. -/
theorem C9_asignacion_por_copia_witness :
    memDosDinamicas.objetos 0 = some (.dinamica ⟨2, 2, some 1⟩) ∧
    memDosDinamicas.objetos 4 = some (.dinamica ⟨3, 2, some 5⟩) ∧
    bienFormadaEn memDosDinamicas 0 = true ∧ bienFormadaEn memDosDinamicas 4 = true ∧
    separadas memDosDinamicas 0 4 = true ∧
    (∃ m2, MatrizDinamica.asignarCopia 0 4 memDosDinamicas = .ok m2 ∧
      MatrizBase.filas 0 m2 = .ok 3 ∧ MatrizBase.columnas 0 m2 = .ok 2 ∧
      MatrizBase.filas 4 m2 = .ok 3 ∧ MatrizBase.columnas 4 m2 = .ok 2) ∧
    (match MatrizDinamica.asignarCopia 0 4 memDosDinamicas with
      | .ok m2 =>
        [MatrizBase.obtener 0 0 0 m2, MatrizBase.obtener 0 0 1 m2, MatrizBase.obtener 0 1 0 m2,
         MatrizBase.obtener 0 1 1 m2, MatrizBase.obtener 0 2 0 m2, MatrizBase.obtener 0 2 1 m2]
      | .error _ => []) = [.ok 5, .ok 6, .ok 7, .ok 8, .ok 9, .ok 10] := by
  refine ⟨rfl, rfl, by decide, by decide, by decide, ?_, rfl⟩
  obtain ⟨m2, h1, h2, h3, h4, h5, _⟩ :=
    (C9_asignacion_por_copia memDosDinamicas 0 4 ⟨2, 2, some 1⟩ ⟨3, 2, some 5⟩ rfl rfl
      (by decide) (by decide) (fun _ => by decide)).2 (by decide)
  exact ⟨m2, h1, h2, h3, h4, h5⟩


/-! ## The invariant is established by the constructors and kept by later allocations -/

theorem crear_bienFormadaEn [Zero T] (f c : Int) (m : Memoria T) :
    ∃ m2, MatrizDinamica.crear f c m = .ok (m.libre, m2) ∧
      bienFormadaEn m2 m.libre = true ∧ Conserva m.libre m m2 ∧ m.libre < m2.libre := by
  obtain ⟨m2, hcrear, datos, hobj, hwf, hobjs, hmem, _, _, hlib, _⟩ := crear_spec (T := T) f c m
  refine ⟨m2, hcrear, ?_, fun a ha => ⟨(hmem a ha).1, (hmem a ha).2, hobjs a (by omega)⟩, hlib⟩
  simp only [bienFormadaEn, hobj, Bool.and_eq_true, decide_eq_true_eq]
  exact ⟨hlib, hwf⟩

theorem crearE_bienFormadaEn [Zero T] (M N : Nat) (m : Memoria T) :
    ∃ m2, MatrizEstatica.crear M N m = .ok (m.libre, m2) ∧
      bienFormadaEn m2 m.libre = true ∧ Conserva m.libre m m2 ∧ m.libre < m2.libre := by
  obtain ⟨m2, e2, hcrear, hobj, _, _, _, _, hwf, htab, hblo, hlib, _, _, _, hobjs, _⟩ :=
    crearE_spec (T := T) M N m
  refine ⟨m2, hcrear, ?_,
    fun a ha => ⟨by rw [htab], by rw [hblo], hobjs a (by omega)⟩, by omega⟩
  simp only [bienFormadaEn, hobj, Bool.and_eq_true, decide_eq_true_eq]
  exact ⟨by omega, hwf⟩

theorem bienFormadaEn_conserva {m m1 : Memoria T} {a : Nat} (h : bienFormadaEn m a = true)
    (hcons : Conserva m.libre m m1) (hlib : m.libre ≤ m1.libre) :
    bienFormadaEn m1 a = true := by
  have hlt := bienFormadaEn_lt h
  have hobj := (hcons a hlt).2.2
  cases ho : m.objetos a with
  | none => simp [bienFormadaEn, ho] at h
  | some o =>
    cases o with
    | dinamica d =>
      have := bienFormada_conserva (bienFormadaEn_din h ho) hcons hlib
      simp only [bienFormadaEn, hobj, ho, Bool.and_eq_true, decide_eq_true_eq]
      exact ⟨by omega, this⟩
    | estatica e =>
      have := bienFormadaEn_est h ho
      simp only [bienFormadaEn, hobj, ho, Bool.and_eq_true, decide_eq_true_eq]
      exact ⟨by omega, this⟩


/-! ## `obtener` and `asignar` through the interface -/

theorem obtenerD_def {m : Memoria T} {a : Nat} {d : MatrizDinamica}
    (ho : m.objetos a = some (.dinamica d)) (i j : Int) :
    MatrizBase.obtener a i j m =
      if i ≥ 0 ∧ i < d._filas ∧ j ≥ 0 ∧ j < d._columnas then
        leerCelda d._datos i.toNat j.toNat m
      else .error .asercion := by
  simp only [MatrizBase.obtener, ho, MatrizDinamica.obtener, objDin_eq ho]

theorem obtenerE_def {m : Memoria T} {a : Nat} {e : MatrizEstatica T}
    (ho : m.objetos a = some (.estatica e)) (i j : Int) :
    MatrizBase.obtener a i j m =
      if i ≥ 0 ∧ i < e._filas ∧ j ≥ 0 ∧ j < e._columnas then
        leerInline e i.toNat j.toNat
      else .error .asercion := by
  simp only [MatrizBase.obtener, ho, MatrizEstatica.obtener, objEst_eq ho]

theorem asignarD_def {m : Memoria T} {a : Nat} {d : MatrizDinamica}
    (ho : m.objetos a = some (.dinamica d)) (i j : Int) (v : T) :
    MatrizBase.asignar a i j v m =
      if i ≥ 0 ∧ i < d._filas ∧ j ≥ 0 ∧ j < d._columnas then
        escribirCelda d._datos i.toNat j.toNat v m
      else .error .asercion := by
  simp only [MatrizBase.asignar, ho, MatrizDinamica.asignar, objDin_eq ho]

theorem asignarE_def {m : Memoria T} {a : Nat} {e : MatrizEstatica T}
    (ho : m.objetos a = some (.estatica e)) (i j : Int) (v : T) :
    MatrizBase.asignar a i j v m =
      if i ≥ 0 ∧ i < e._filas ∧ j ≥ 0 ∧ j < e._columnas then
        escribirInline a i.toNat j.toNat v m
      else .error .asercion := by
  simp only [MatrizBase.asignar, ho, MatrizEstatica.asignar, objEst_eq ho]

/-- An in-range `asignar` on a well-formed grid of either class: it succeeds, the grid
then reads `v` at `(i, j)` and what it read before at every other index, and its
dimensions are the same. -/
theorem asignar_spec {m : Memoria T} {g : Nat} (hwf : bienFormadaEn m g = true) {f c : Int}
    (hf : MatrizBase.filas g m = .ok f) (hc : MatrizBase.columnas g m = .ok c)
    {i j : Int} (hi0 : 0 ≤ i) (hi : i < f) (hj0 : 0 ≤ j) (hj : j < c) (v : T) :
    ∃ m1, MatrizBase.asignar g i j v m = .ok m1 ∧
      MatrizBase.obtener g i j m1 = .ok v ∧
      (∀ i1 j1 : Int, ¬ (i1 = i ∧ j1 = j) →
        MatrizBase.obtener g i1 j1 m1 = MatrizBase.obtener g i1 j1 m) ∧
      MatrizBase.filas g m1 = .ok f ∧ MatrizBase.columnas g m1 = .ok c ∧
      bienFormadaEn m1 g = true := by
  cases ho : m.objetos g with
  | none => simp [bienFormadaEn, ho] at hwf
  | some o =>
    cases o with
    | dinamica d =>
      simp only [MatrizBase.filas, MatrizBase.columnas, ho, Except.ok.injEq] at hf hc
      subst hf; subst hc
      have hwd := bienFormadaEn_din hwf ho
      have h1 : i.toNat < d._filas.toNat := by omega
      have h2 : j.toNat < d._columnas.toNat := by omega
      have hcond : i ≥ 0 ∧ i < d._filas ∧ j ≥ 0 ∧ j < d._columnas := ⟨hi0, hi, hj0, hj⟩
      obtain ⟨r, es, _, hb, _, hw, hrd, hotros⟩ := escribirCelda_ok hwd h1 h2 v
      have hs := soloBloques_ponerBloque hb j.toNat v
      have ho1 : (m.ponerBloque r (some (es.set j.toNat v))).objetos g
          = some (.dinamica d) := ho
      refine ⟨_, by rw [asignarD_def ho, if_pos hcond, hw], ?_, ?_, ?_, ?_, ?_⟩
      · rw [obtenerD_def ho1, if_pos hcond, hrd]
      · intro i1 j1 hne
        rw [obtenerD_def ho1, obtenerD_def ho]
        split
        · next hin =>
          apply hotros
          intro ⟨e1, e2⟩
          apply hne
          constructor <;> omega
        · rfl
      · simp only [MatrizBase.filas, ho1]
      · simp only [MatrizBase.columnas, ho1]
      · simp only [bienFormadaEn, ho1, Bool.and_eq_true, decide_eq_true_eq]
        exact ⟨(bienFormadaEn_lt hwf : g < m.libre), by rw [bienFormada_solo hs]; exact hwd⟩
    | estatica e =>
      simp only [MatrizBase.filas, MatrizBase.columnas, ho, Except.ok.injEq] at hf hc
      subst hf; subst hc
      have hwe := bienFormadaEn_est hwf ho
      obtain ⟨hfe, hce, _, _⟩ := bienFormadaE_iff.mp hwe
      have hcond : i ≥ 0 ∧ i < e._filas ∧ j ≥ 0 ∧ j < e._columnas := ⟨hi0, hi, hj0, hj⟩
      obtain ⟨e1, hw, ⟨hM, hN, hf1, hc1, hw1⟩, hrd, hotros⟩ :=
        escribirInline_ok ho hwe (i := i.toNat) (j := j.toNat) (by omega) (by omega) v
      have ho1 : (m.ponerObjeto g (some (.estatica e1))).objetos g = some (.estatica e1) := by
        simp
      have hcond1 : i ≥ 0 ∧ i < e1._filas ∧ j ≥ 0 ∧ j < e1._columnas := by
        rw [hf1, hc1]; exact hcond
      refine ⟨_, by rw [asignarE_def ho, if_pos hcond, hw], ?_, ?_, ?_, ?_, ?_⟩
      · rw [obtenerE_def ho1, if_pos hcond1, hrd]
      · intro i1 j1 hne
        rw [obtenerE_def ho1, obtenerE_def ho, hf1, hc1]
        split
        · next hin =>
          apply hotros
          intro ⟨e1, e2⟩
          apply hne
          constructor <;> omega
        · rfl
      · simp only [MatrizBase.filas, ho1, hf1]
      · simp only [MatrizBase.columnas, ho1, hc1]
      · simp only [bienFormadaEn, ho1, Bool.and_eq_true, decide_eq_true_eq]
        exact ⟨(bienFormadaEn_lt hwf : g < m.libre), hw1⟩

/-- Out of range, `obtener` and `asignar` end in the assertion failure. -/
theorem fuera_de_rango {m : Memoria T} {g : Nat} (hwf : bienFormadaEn m g = true) {f c : Int}
    (hf : MatrizBase.filas g m = .ok f) (hc : MatrizBase.columnas g m = .ok c)
    {i j : Int} (hno : ¬ (0 ≤ i ∧ i < f ∧ 0 ≤ j ∧ j < c)) (v : T) :
    MatrizBase.obtener g i j m = .error .asercion ∧
      MatrizBase.asignar g i j v m = .error .asercion := by
  cases ho : m.objetos g with
  | none => simp [bienFormadaEn, ho] at hwf
  | some o =>
    cases o with
    | dinamica d =>
      simp only [MatrizBase.filas, MatrizBase.columnas, ho, Except.ok.injEq] at hf hc
      subst hf; subst hc
      have hcond : ¬ (i ≥ 0 ∧ i < d._filas ∧ j ≥ 0 ∧ j < d._columnas) := hno
      exact ⟨by rw [obtenerD_def ho, if_neg hcond], by rw [asignarD_def ho, if_neg hcond]⟩
    | estatica e =>
      simp only [MatrizBase.filas, MatrizBase.columnas, ho, Except.ok.injEq] at hf hc
      subst hf; subst hc
      have hcond : ¬ (i ≥ 0 ∧ i < e._filas ∧ j ≥ 0 ∧ j < e._columnas) := hno
      exact ⟨by rw [obtenerE_def ho, if_neg hcond], by rw [asignarE_def ho, if_neg hcond]⟩

theorem obtener_ok_int {m : Memoria T} {g : Nat} (hwf : bienFormadaEn m g = true) {f c : Int}
    (hf : MatrizBase.filas g m = .ok f) (hc : MatrizBase.columnas g m = .ok c)
    {i j : Int} (hi0 : 0 ≤ i) (hi : i < f) (hj0 : 0 ≤ j) (hj : j < c) :
    ∃ x, MatrizBase.obtener g i j m = .ok x := by
  obtain ⟨x, hx⟩ := obtener_ok hwf hf hc (i := i.toNat) (j := j.toNat) (by omega) (by omega)
  rw [Int.toNat_of_nonneg hi0, Int.toNat_of_nonneg hj0] at hx
  exact ⟨x, hx⟩

/-- C11. For a well-formed grid `g` of either class, an in-range `(i, j)` and a value
`v`: `g.asignar(i,j,v)` succeeds, afterwards `g.obtener(i,j) = v`, `g.obtener(i',j')` is
what it was for every other index, and `filas()` / `columnas()` are unchanged. -/
theorem C11_asignar_luego_obtener (m : Memoria T) (g : Nat) (f c : Int) (i j : Int) (v : T)
    (hwf : bienFormadaEn m g = true)
    (hf : MatrizBase.filas g m = .ok f) (hc : MatrizBase.columnas g m = .ok c)
    (hi0 : 0 ≤ i) (hi : i < f) (hj0 : 0 ≤ j) (hj : j < c) :
    ∃ m1, MatrizBase.asignar g i j v m = .ok m1 ∧
      MatrizBase.obtener g i j m1 = .ok v ∧
      (∀ i1 j1 : Int, ¬ (i1 = i ∧ j1 = j) →
        MatrizBase.obtener g i1 j1 m1 = MatrizBase.obtener g i1 j1 m) ∧
      MatrizBase.filas g m1 = .ok f ∧ MatrizBase.columnas g m1 = .ok c := by
  obtain ⟨m1, h1, h2, h3, h4, h5, _⟩ := asignar_spec hwf hf hc hi0 hi hj0 hj v
  exact ⟨m1, h1, h2, h3, h4, h5⟩

/-- C11 on both grids of the `int` demonstration of `main`: `Ai.asignar(1,0,9)` on the
dynamic grid and `Bi.asignar(0,1,9)` on the static grid. -/
theorem C11_asignar_luego_obtener_witness :
    (bienFormadaEn memDemoInt 0 = true ∧
      ∃ m1, MatrizBase.asignar 0 1 0 9 memDemoInt = .ok m1 ∧
        MatrizBase.obtener 0 1 0 m1 = .ok 9 ∧
        (∀ i1 j1 : Int, ¬ (i1 = 1 ∧ j1 = 0) →
          MatrizBase.obtener 0 i1 j1 m1 = MatrizBase.obtener 0 i1 j1 memDemoInt) ∧
        MatrizBase.filas 0 m1 = .ok 2 ∧ MatrizBase.columnas 0 m1 = .ok 2) ∧
    (bienFormadaEn memDemoInt 4 = true ∧
      ∃ m1, MatrizBase.asignar 4 0 1 9 memDemoInt = .ok m1 ∧
        MatrizBase.obtener 4 0 1 m1 = .ok 9 ∧
        (∀ i1 j1 : Int, ¬ (i1 = 0 ∧ j1 = 1) →
          MatrizBase.obtener 4 i1 j1 m1 = MatrizBase.obtener 4 i1 j1 memDemoInt) ∧
        MatrizBase.filas 4 m1 = .ok 2 ∧ MatrizBase.columnas 4 m1 = .ok 2) :=
  ⟨⟨by decide, C11_asignar_luego_obtener memDemoInt 0 2 2 1 0 9 (by decide) rfl rfl
      (by decide) (by decide) (by decide) (by decide)⟩,
   ⟨by decide, C11_asignar_luego_obtener memDemoInt 4 2 2 0 1 9 (by decide) rfl rfl
      (by decide) (by decide) (by decide) (by decide)⟩⟩

/-- C12. For a well-formed grid `g` of either class and any integers `i`, `j`:
`obtener(i,j)` and `asignar(i,j,v)` succeed exactly when `0 ≤ i < filas()` and
`0 ≤ j < columnas()`; otherwise both end in the assertion failure, so no cell is read
or written in place of the requested one. -/
theorem C12_acceso_con_asercion (m : Memoria T) (g : Nat) (f c : Int) (i j : Int) (v : T)
    (hwf : bienFormadaEn m g = true)
    (hf : MatrizBase.filas g m = .ok f) (hc : MatrizBase.columnas g m = .ok c) :
    ((∃ x, MatrizBase.obtener g i j m = .ok x) ↔ (0 ≤ i ∧ i < f ∧ 0 ≤ j ∧ j < c)) ∧
    ((∃ m1, MatrizBase.asignar g i j v m = .ok m1) ↔ (0 ≤ i ∧ i < f ∧ 0 ≤ j ∧ j < c)) ∧
    (¬ (0 ≤ i ∧ i < f ∧ 0 ≤ j ∧ j < c) →
      MatrizBase.obtener g i j m = .error .asercion ∧
        MatrizBase.asignar g i j v m = .error .asercion) := by
  refine ⟨⟨?_, ?_⟩, ⟨?_, ?_⟩, fun hno => fuera_de_rango hwf hf hc hno v⟩
  · rintro ⟨x, hx⟩
    by_contra hno
    rw [(fuera_de_rango hwf hf hc hno v).1] at hx
    cases hx
  · rintro ⟨h1, h2, h3, h4⟩
    exact obtener_ok_int hwf hf hc h1 h2 h3 h4
  · rintro ⟨m1, hx⟩
    by_contra hno
    rw [(fuera_de_rango hwf hf hc hno v).2] at hx
    cases hx
  · rintro ⟨h1, h2, h3, h4⟩
    obtain ⟨m1, h, _⟩ := asignar_spec hwf hf hc h1 h2 h3 h4 v
    exact ⟨m1, h⟩

/-- C12 on the 2×2 dynamic grid of the `int` demonstration of `main`: index `(2, 0)` is
out of range and both calls end in the assertion failure. -/
theorem C12_acceso_con_asercion_witness :
    bienFormadaEn memDemoInt 0 = true ∧
    MatrizBase.obtener 0 2 0 memDemoInt = .error .asercion ∧
    MatrizBase.asignar 0 2 0 9 memDemoInt = .error .asercion :=
  ⟨by decide,
    (C12_acceso_con_asercion memDemoInt 0 2 2 2 0 9 (by decide) rfl rfl).2.2 (by decide)⟩


/-! ## More about `sumar`, and the operator -/

/-- C14 (the code at a failing input). The grid built by `MatrizDinamica<int>(-1, 2)`
reports `filas() = -1`, which is negative; and it still does after a public operation:
adding it to itself succeeds and returns another grid with `filas() = -1`. -/
theorem C14_dimension_negativa_alcanzable :
    (∃ m2, MatrizDinamica.crear (-1) 2 (Memoria.vacia (0 : Int)) = .ok (0, m2) ∧
      MatrizBase.filas 0 m2 = .ok (-1)) ∧
    MatrizBase.filas 0 memDegenerada = .ok (-1) ∧ ¬ (0 ≤ (-1 : Int)) ∧
    ∃ r m3, MatrizBase.sumar 0 0 memDegenerada = .ok (some r, m3) ∧
      MatrizBase.filas r m3 = .ok (-1) ∧ MatrizBase.filas 0 m3 = .ok (-1) :=
  ⟨⟨_, rfl, rfl⟩, rfl, by decide, _, _, rfl, rfl, rfl⟩

/-- C16. For all grids `a`, `b` the free `operator+` returns exactly what `a.sumar(b)`
returns (the same pointer or `nullptr`, the same memory and output, the same failure). -/
theorem C16_operador_mas_es_sumar [Zero T] [Add T] (a b : Nat) (m : Memoria T) :
    operadorMas a b m = MatrizBase.sumar a b m := rfl

/-- C19. For well-formed grids `a`, `b` of either class, degenerate ones included,
`a.sumar(b)` never ends in the assertion failure (nor in any other error): it returns
`nullptr`, or a result whose every in-range cell has been written with the sum. -/
theorem C19_sumar_no_dispara_asercion [Zero T] [Add T] (m : Memoria T) (a b : Nat)
    (ha : bienFormadaEn m a = true) (hb : bienFormadaEn m b = true) :
    MatrizBase.sumar a b m ≠ .error .asercion ∧
    (∀ e, MatrizBase.sumar a b m ≠ .error e) ∧
    ((∃ m2, MatrizBase.sumar a b m = .ok (none, m2)) ∨
      ∃ r m2 f c, MatrizBase.sumar a b m = .ok (some r, m2) ∧
        MatrizBase.filas r m2 = .ok f ∧ MatrizBase.columnas r m2 = .ok c ∧
        ∀ i j : Int, 0 ≤ i → i < f → 0 ≤ j → j < c →
          ∃ x y, MatrizBase.obtener a i j m = .ok x ∧ MatrizBase.obtener b i j m = .ok y ∧
            MatrizBase.obtener r i j m2 = .ok (x + y)) := by
  by_cases hdif : MatrizBase.filas a m ≠ MatrizBase.filas b m ∨
      MatrizBase.columnas a m ≠ MatrizBase.columnas b m
  · obtain ⟨s, hs⟩ := sumar_fallo ha hb hdif
    exact ⟨(by rw [hs]; intro h; cases h), (fun e => by rw [hs]; intro h; cases h),
      Or.inl ⟨_, hs⟩⟩
  · have hdims : MatrizBase.filas a m = MatrizBase.filas b m ∧
        MatrizBase.columnas a m = MatrizBase.columnas b m := by tauto
    obtain ⟨m2, hsum, _, _, hfr, hcr, _, _, hcel⟩ := sumar_exito ha hb hdims.1 hdims.2
    obtain ⟨f, c, hfa, hca⟩ := filas_ok_of_bienFormadaEn ha
    refine ⟨(by rw [hsum]; intro h; cases h), (fun e => by rw [hsum]; intro h; cases h),
      Or.inr ⟨m.libre, m2, f, c, hsum, hfr.trans hfa, hcr.trans hca, ?_⟩⟩
    intro i j hi0 hi hj0 hj
    have := hcel f c i.toNat j.toNat hfa hca (by omega) (by omega)
    rwa [Int.toNat_of_nonneg hi0, Int.toNat_of_nonneg hj0] at this

/-- C19 on degenerate grids: two `MatrizDinamica(3, 0)` (no storage, three rows of no
columns) are added without any failure, and so is `MatrizDinamica(-1, 2)` with itself. -/
theorem C19_sumar_no_dispara_asercion_witness :
    bienFormadaEn memDegenerada 0 = true ∧ bienFormadaEn memDegenerada 1 = true ∧
    bienFormadaEn memDegenerada 2 = true ∧
    MatrizBase.sumar 1 2 memDegenerada ≠ .error .asercion ∧
    MatrizBase.sumar 0 0 memDegenerada ≠ .error .asercion ∧
    (∃ m2, MatrizBase.sumar 1 2 memDegenerada = .ok (some 3, m2)) :=
  ⟨by decide, by decide, by decide,
    (C19_sumar_no_dispara_asercion memDegenerada 1 2 (by decide) (by decide)).1,
    (C19_sumar_no_dispara_asercion memDegenerada 0 0 (by decide) (by decide)).1,
    ⟨_, rfl⟩⟩

/-- C20. When the addition of the element type is commutative, for well-formed grids
`a`, `b` of either class: `a.sumar(b)` fails exactly when `b.sumar(a)` fails, and when
both succeed the two results have equal dimensions and read the same at every index. -/
theorem C20_sumar_conmutativa [Zero T] [Add T] (hcomm : ∀ x y : T, x + y = y + x)
    (m : Memoria T) (a b : Nat)
    (ha : bienFormadaEn m a = true) (hb : bienFormadaEn m b = true) :
    ((∃ m2, MatrizBase.sumar a b m = .ok (none, m2)) ↔
      (∃ m2, MatrizBase.sumar b a m = .ok (none, m2))) ∧
    ∀ r1 m1 r2 m2, MatrizBase.sumar a b m = .ok (some r1, m1) →
      MatrizBase.sumar b a m = .ok (some r2, m2) →
      MatrizBase.filas r1 m1 = MatrizBase.filas r2 m2 ∧
      MatrizBase.columnas r1 m1 = MatrizBase.columnas r2 m2 ∧
      ∀ i j : Int, MatrizBase.obtener r1 i j m1 = MatrizBase.obtener r2 i j m2 := by
  by_cases hdif : MatrizBase.filas a m ≠ MatrizBase.filas b m ∨
      MatrizBase.columnas a m ≠ MatrizBase.columnas b m
  · obtain ⟨s, hs⟩ := sumar_fallo ha hb hdif
    obtain ⟨s2, hs2⟩ := sumar_fallo hb ha
      (hdif.elim (fun h => Or.inl (Ne.symm h)) (fun h => Or.inr (Ne.symm h)))
    refine ⟨⟨fun _ => ⟨_, hs2⟩, fun _ => ⟨_, hs⟩⟩, ?_⟩
    intro r1 m1 r2 m2 h1 _
    rw [hs] at h1
    simp at h1
  · have hdims : MatrizBase.filas a m = MatrizBase.filas b m ∧
        MatrizBase.columnas a m = MatrizBase.columnas b m := by tauto
    obtain ⟨n1, hsum1, _, _, hfr1, hcr1, hwf1, _, hcel1⟩ := sumar_exito ha hb hdims.1 hdims.2
    obtain ⟨n2, hsum2, _, _, hfr2, hcr2, hwf2, _, hcel2⟩ :=
      sumar_exito hb ha hdims.1.symm hdims.2.symm
    obtain ⟨f, c, hfa, hca⟩ := filas_ok_of_bienFormadaEn ha
    have hfb := hdims.1.symm.trans hfa
    have hcb := hdims.2.symm.trans hca
    constructor
    · constructor
      · rintro ⟨m2, h⟩; rw [hsum1] at h; simp at h
      · rintro ⟨m2, h⟩; rw [hsum2] at h; simp at h
    · intro r1 m1 r2 m2 h1 h2
      rw [hsum1] at h1; rw [hsum2] at h2
      simp only [Except.ok.injEq, Prod.mk.injEq, Option.some.injEq] at h1 h2
      obtain ⟨e1, e2⟩ := h1
      obtain ⟨e3, e4⟩ := h2
      subst e1; subst e2; subst e3; subst e4
      refine ⟨hfr1.trans (hdims.1.trans hfr2.symm), hcr1.trans (hdims.2.trans hcr2.symm), ?_⟩
      intro i j
      by_cases hin : 0 ≤ i ∧ i < f ∧ 0 ≤ j ∧ j < c
      · obtain ⟨hi0, hi, hj0, hj⟩ := hin
        obtain ⟨x, y, hx, hy, hr⟩ := hcel1 f c i.toNat j.toNat hfa hca (by omega) (by omega)
        obtain ⟨y2, x2, hy2, hx2, hr2⟩ :=
          hcel2 f c i.toNat j.toNat hfb hcb (by omega) (by omega)
        rw [hx] at hx2; rw [hy] at hy2
        cases hx2; cases hy2
        rw [Int.toNat_of_nonneg hi0, Int.toNat_of_nonneg hj0] at hr hr2
        rw [hr, hr2, hcomm]
      · rw [(fuera_de_rango hwf1 (hfr1.trans hfa) (hcr1.trans hca) hin (0 : T)).1,
          (fuera_de_rango hwf2 (hfr2.trans hfb) (hcr2.trans hcb) hin (0 : T)).1]

/-- C20 on the `int` demonstration of `main`: `Ai + Bi` (a dynamic result) and `Bi + Ai`
(a static result) have equal dimensions and elements. -/
theorem C20_sumar_conmutativa_witness :
    bienFormadaEn memDemoInt 0 = true ∧ bienFormadaEn memDemoInt 4 = true ∧
    (∃ d, (memoriaTras (MatrizBase.sumar 0 4 memDemoInt) memDemoInt).objetos 5
      = some (.dinamica d)) ∧
    (∃ e, (memoriaTras (MatrizBase.sumar 4 0 memDemoInt) memDemoInt).objetos 5
      = some (.estatica e)) ∧
    MatrizBase.filas 5 (memoriaTras (MatrizBase.sumar 0 4 memDemoInt) memDemoInt) =
      MatrizBase.filas 5 (memoriaTras (MatrizBase.sumar 4 0 memDemoInt) memDemoInt) ∧
    MatrizBase.columnas 5 (memoriaTras (MatrizBase.sumar 0 4 memDemoInt) memDemoInt) =
      MatrizBase.columnas 5 (memoriaTras (MatrizBase.sumar 4 0 memDemoInt) memDemoInt) ∧
    ∀ i j : Int,
      MatrizBase.obtener 5 i j (memoriaTras (MatrizBase.sumar 0 4 memDemoInt) memDemoInt) =
        MatrizBase.obtener 5 i j (memoriaTras (MatrizBase.sumar 4 0 memDemoInt) memDemoInt) :=
  ⟨by decide, by decide, ⟨_, rfl⟩, ⟨_, rfl⟩,
    (C20_sumar_conmutativa Int.add_comm memDemoInt 0 4 (by decide) (by decide)).2 5
      (memoriaTras (MatrizBase.sumar 0 4 memDemoInt) memDemoInt) 5
      (memoriaTras (MatrizBase.sumar 4 0 memDemoInt) memDemoInt) rfl rfl⟩


/-! ## Loops that also read the input or write the output -/

section EntradaSalida

variable (m : Memoria T)

@[simp] theorem tablas_conES (e : List T) (s : List (Item T)) :
    (m.conES e s).tablas = m.tablas := rfl
@[simp] theorem bloques_conES (e : List T) (s : List (Item T)) :
    (m.conES e s).bloques = m.bloques := rfl
@[simp] theorem objetos_conES (e : List T) (s : List (Item T)) :
    (m.conES e s).objetos = m.objetos := rfl
@[simp] theorem libre_conES (e : List T) (s : List (Item T)) :
    (m.conES e s).libre = m.libre := rfl
@[simp] theorem basura_conES (e : List T) (s : List (Item T)) :
    (m.conES e s).basura = m.basura := rfl
@[simp] theorem entrada_conES (e : List T) (s : List (Item T)) :
    (m.conES e s).entrada = e := rfl
@[simp] theorem salida_conES (e : List T) (s : List (Item T)) :
    (m.conES e s).salida = s := rfl

theorem conES_conES (e e1 : List T) (s s1 : List (Item T)) :
    (m.conES e s).conES e1 s1 = m.conES e1 s1 := rfl

theorem conES_propia : m.conES m.entrada m.salida = m := rfl

theorem escribir_conES (e : List T) (s : List (Item T)) (x : Item T) :
    (m.conES e s).escribir x = m.conES e (s ++ [x]) := rfl

theorem pedirCelda_conES (e : List T) (s : List (Item T)) (i j : Nat) :
    pedirCelda i j (m.conES e s) = m.conES e (s ++ [.texto " [", .entero i, .texto ",",
      .entero j, .texto "] = "]) := by
  simp [pedirCelda, escribir_conES]

theorem leerEntrada_conES (v : T) (e : List T) (s : List (Item T)) :
    leerEntrada (m.conES (v :: e) s) = (v, m.conES e s) := rfl

theorem ponerBloque_conES (e : List T) (s : List (Item T)) (r : Nat) (b : Option (List T)) :
    (m.conES e s).ponerBloque r b = (m.ponerBloque r b).conES e s := rfl

theorem ponerObjeto_conES (e : List T) (s : List (Item T)) (a : Nat) (o : Option (Objeto T)) :
    (m.conES e s).ponerObjeto a o = (m.ponerObjeto a o).conES e s := rfl

end EntradaSalida

theorem leerCelda_conES (datos : Option Nat) (i j : Nat) (m : Memoria T) (e : List T)
    (s : List (Item T)) : leerCelda datos i j (m.conES e s) = leerCelda datos i j m := rfl

theorem escribirCelda_conES {datos : Option Nat} {i j : Nat} {v : T} {a a1 : Memoria T}
    (h : escribirCelda datos i j v a = .ok a1) (e : List T) (s : List (Item T)) :
    escribirCelda datos i j v (a.conES e s) = .ok (a1.conES e s) := by
  unfold escribirCelda at h ⊢
  cases datos with
  | none => simp at h
  | some p =>
    simp only [tablas_conES, bloques_conES] at h ⊢
    cases ht : a.tablas p with
    | none => simp [ht] at h
    | some ps =>
      cases hq : ps[i]? with
      | none => simp [ht, hq] at h
      | some q =>
        cases q with
        | none => simp [ht, hq] at h
        | some r =>
          cases hb : a.bloques r with
          | none => simp [ht, hq, hb] at h
          | some es =>
            simp only [ht, hq, hb] at h ⊢
            split at h
            · next hlt =>
              simp only [Except.ok.injEq] at h
              subst h
              simp only [if_pos hlt, ponerBloque_conES]
            · cases h

theorem escribirInline_conES {this : Nat} {i j : Nat} {v : T} {a a1 : Memoria T}
    (h : escribirInline this i j v a = .ok a1) (e : List T) (s : List (Item T)) :
    escribirInline this i j v (a.conES e s) = .ok (a1.conES e s) := by
  unfold escribirInline at h ⊢
  have hobj : objEst (a.conES e s) this = objEst a this := rfl
  rw [hobj]
  cases ho : objEst a this with
  | error x => simp [ho] at h
  | ok o =>
    simp only [ho] at h ⊢
    cases hf : o._datos[i]? with
    | none => simp [hf] at h
    | some fila =>
      simp only [hf] at h ⊢
      split at h
      · next hlt =>
        simp only [Except.ok.injEq] at h
        subst h
        simp only [if_pos hlt, ponerObjeto_conES]
      · cases h

/-- Simulation of one counted loop by another: when every step of the first, taken from
related memories, is matched by a step of the second, a successful run of the first is
matched by a successful run of the second. -/
theorem bucleDesde_sim (c1 c2 : Nat → Memoria T → Except Falla (Memoria T))
    (Rel : Nat → Memoria T → Memoria T → Prop) (k : Nat) :
    ∀ (i : Nat) (a b a1 : Memoria T), Rel i a b →
      (∀ x a b a1, i ≤ x → x < i + k → Rel x a b → c1 x a = .ok a1 →
        ∃ b1, c2 x b = .ok b1 ∧ Rel (x + 1) a1 b1) →
      bucleDesde c1 i k a = .ok a1 →
      ∃ b1, bucleDesde c2 i k b = .ok b1 ∧ Rel (i + k) a1 b1 := by
  induction k with
  | zero =>
    intro i a b a1 hrel _ hrun
    simp only [bucleDesde, Except.ok.injEq] at hrun
    subst hrun
    exact ⟨b, rfl, by simpa using hrel⟩
  | succ k ih =>
    intro i a b a1 hrel paso hrun
    simp only [bucleDesde] at hrun
    cases hc : c1 i a with
    | error x => simp [hc] at hrun
    | ok a2 =>
      simp only [hc] at hrun
      obtain ⟨b2, hb2, hrel2⟩ := paso i a b a2 (Nat.le_refl i) (by omega) hrel hc
      obtain ⟨b1, hb1, hrel1⟩ := ih (i + 1) a2 b2 a1 hrel2
        (fun x a b a1 hx hx2 => paso x a b a1 (by omega) (by omega)) hrun
      refine ⟨b1, by simp only [bucleDesde, hb2, hb1], ?_⟩
      have : i + (k + 1) = i + 1 + k := by omega
      rw [this]; exact hrel1

theorem bucle_sim (n : Nat) (c1 c2 : Nat → Memoria T → Except Falla (Memoria T))
    (Rel : Nat → Memoria T → Memoria T → Prop) (a b a1 : Memoria T) (h0 : Rel 0 a b)
    (paso : ∀ x a b a1, x < n → Rel x a b → c1 x a = .ok a1 →
      ∃ b1, c2 x b = .ok b1 ∧ Rel (x + 1) a1 b1)
    (hrun : bucle n c1 a = .ok a1) :
    ∃ b1, bucle n c2 b = .ok b1 ∧ Rel n a1 b1 := by
  have := bucleDesde_sim c1 c2 Rel n 0 a b a1 h0
    (fun x a b a1 _ hx => paso x a b a1 (by omega)) hrun
  simpa [bucle] using this

theorem leerEntrada_general (m : Memoria T) (e : List T) (s : List (Item T)) :
    leerEntrada (m.conES e s) = (e.headD m.basura, m.conES e.tail s) := by
  cases e <;> rfl

/-- The loops of `cargarValores` seen against the loops that store known values: if
storing value number `i*C + j` of the input `E` in cell `(i, j)` for every cell succeeds
from `a` and ends in `a1`, then reading the values from the input `E` and storing them
succeeds from `a` with that input, and ends in `a1` with the input `E.drop (R*C)`. Here
`guardar` is the store of one cell, which ignores input and output; a value read from
an exhausted input is the uninitialised value `b0`. -/
theorem cargar_sim (R C : Nat) (E : List T) (b0 : T)
    (guardar : Nat → Nat → T → Memoria T → Except Falla (Memoria T))
    (hg : ∀ i j v a a1, guardar i j v a = .ok a1 →
      ∀ e s, guardar i j v (a.conES e s) = .ok (a1.conES e s))
    (hgb : ∀ i j v a a1, guardar i j v a = .ok a1 → a1.basura = a.basura)
    (a a1 : Memoria T) (s0 : List (Item T)) (hb : a.basura = b0)
    (hrun : bucle R (fun i => bucle C (fun j => guardar i j (E.getD (i * C + j) b0))) a
      = .ok a1) :
    ∃ s1, bucle R (fun i => bucle C (fun j mm =>
        guardar i j (leerEntrada (pedirCelda i j mm)).1 (leerEntrada (pedirCelda i j mm)).2))
        (a.conES E s0) = .ok (a1.conES (E.drop (R * C)) s1) := by
  obtain ⟨b1, hb1, _, s1, hs1⟩ := bucle_sim R
    (fun i => bucle C (fun j => guardar i j (E.getD (i * C + j) b0)))
    (fun i => bucle C (fun j mm =>
      guardar i j (leerEntrada (pedirCelda i j mm)).1 (leerEntrada (pedirCelda i j mm)).2))
    (fun i x y => x.basura = b0 ∧ ∃ s, y = x.conES (E.drop (i * C)) s) a (a.conES E s0) a1
    ⟨hb, s0, by simp⟩
    (by
      intro i x y x1 hi ⟨hbx, s, hy⟩ hx1
      obtain ⟨y1, hy1, hbx1, s2, hs2⟩ := bucle_sim C
        (fun j => guardar i j (E.getD (i * C + j) b0))
        (fun j mm =>
          guardar i j (leerEntrada (pedirCelda i j mm)).1 (leerEntrada (pedirCelda i j mm)).2)
        (fun j x y => x.basura = b0 ∧ ∃ s, y = x.conES (E.drop (i * C + j)) s) x y x1
        ⟨hbx, s, by simpa using hy⟩
        (by
          intro j x y x1 hj ⟨hbx, s, hy⟩ hx1
          have hhead : (E.drop (i * C + j)).headD x.basura = E.getD (i * C + j) b0 := by
            rw [List.headD_eq_head?_getD, List.head?_drop, List.getD_eq_getElem?_getD, hbx]
          beta_reduce at hx1 ⊢
          subst hy
          rw [pedirCelda_conES, leerEntrada_general, hhead, List.tail_drop]
          exact ⟨_, hg i j _ x x1 hx1 _ _, (hgb i j _ x x1 hx1).trans hbx, _, rfl⟩)
        hx1
      refine ⟨y1, hy1, hbx1, s2, ?_⟩
      rw [hs2, Nat.succ_mul])
    hrun
  exact ⟨s1, by rw [hb1, hs1]⟩

theorem escribirCelda_basura {datos : Option Nat} {i j : Nat} {v : T} {a a1 : Memoria T}
    (h : escribirCelda datos i j v a = .ok a1) : a1.basura = a.basura := by
  have := escribirCelda_conES h a.entrada a.salida
  unfold escribirCelda at h
  cases datos with
  | none => simp at h
  | some p =>
    cases ht : a.tablas p with
    | none => simp [ht] at h
    | some ps =>
      cases hq : ps[i]? with
      | none => simp [ht, hq] at h
      | some q =>
        cases q with
        | none => simp [ht, hq] at h
        | some r =>
          cases hb : a.bloques r with
          | none => simp [ht, hq, hb] at h
          | some es =>
            simp only [ht, hq, hb] at h
            split at h
            · simp only [Except.ok.injEq] at h
              subst h; rfl
            · cases h

theorem escribirInline_basura {this : Nat} {i j : Nat} {v : T} {a a1 : Memoria T}
    (h : escribirInline this i j v a = .ok a1) : a1.basura = a.basura := by
  unfold escribirInline at h
  cases ho : objEst a this with
  | error x => simp [ho] at h
  | ok o =>
    simp only [ho] at h
    cases hf : o._datos[i]? with
    | none => simp [hf] at h
    | some fila =>
      simp only [hf] at h
      split at h
      · simp only [Except.ok.injEq] at h
        subst h; rfl
      · cases h


/-! ## `cargarValores` -/

/-- `cargarValores` on a well-formed grid of either class (`R`, `C` its numbers of rows
and columns): it succeeds, consumes the first `R*C` values of the input, leaves value
number `i*C + j` in cell `(i, j)` (the uninitialised value once the input is exhausted),
and keeps the dimensions, the invariant and every other object. -/
theorem cargarValores_spec {m : Memoria T} {g : Nat} (hwf : bienFormadaEn m g = true)
    {f c : Int} (hf : MatrizBase.filas g m = .ok f) (hc : MatrizBase.columnas g m = .ok c) :
    ∃ m1, MatrizBase.cargarValores g m = .ok m1 ∧
      m1.entrada = m.entrada.drop (f.toNat * c.toNat) ∧
      (∀ i j : Nat, i < f.toNat → j < c.toNat →
        MatrizBase.obtener g (i : Int) (j : Int) m1
          = .ok (m.entrada.getD (i * c.toNat + j) m.basura)) ∧
      MatrizBase.filas g m1 = .ok f ∧ MatrizBase.columnas g m1 = .ok c ∧
      bienFormadaEn m1 g = true ∧ m1.tablas = m.tablas ∧ m1.libre = m.libre ∧
      (∀ a, a ≠ g → m1.objetos a = m.objetos a) ∧
      (∀ d, m.objetos g = some (.dinamica d) → m1.objetos g = some (.dinamica d) ∧
        (∀ r, (m1.bloques r).map List.length = (m.bloques r).map List.length) ∧
        ∀ r, r ∉ filasDir m d._datos → m1.bloques r = m.bloques r) ∧
      (∀ e, m.objetos g = some (.estatica e) → m1.bloques = m.bloques ∧
        ∃ e2, m1.objetos g = some (.estatica e2) ∧ e2.bienFormada = true) := by
  cases ho : m.objetos g with
  | none => simp [bienFormadaEn, ho] at hwf
  | some o =>
    cases o with
    | dinamica d =>
      simp only [MatrizBase.filas, MatrizBase.columnas, ho, Except.ok.injEq] at hf hc
      subst hf; subst hc
      have hwd := bienFormadaEn_din hwf ho
      obtain ⟨a1, hrun, hs, hfr, hcel⟩ := llenar_spec hwd
        (fun i j => m.entrada.getD (i * d._columnas.toNat + j) m.basura)
        (fun i j => escribirCelda d._datos i j
          (m.entrada.getD (i * d._columnas.toNat + j) m.basura))
        (fun _ _ _ _ _ _ _ => rfl)
      obtain ⟨s1, hsim⟩ := cargar_sim d._filas.toNat d._columnas.toNat m.entrada m.basura
        (fun i j v => escribirCelda d._datos i j v)
        (fun i j v a a1 h e s => escribirCelda_conES h e s)
        (fun i j v a a1 h => escribirCelda_basura h) m a1
        (m.salida ++ [.texto "Ingrese valores (", .entero d._filas, .texto "x",
          .entero d._columnas, .texto "):\n"]) rfl hrun
      have hm0 : ((((m.escribir (.texto "Ingrese valores (")).escribir
          (.entero d._filas)).escribir (.texto "x")).escribir
          (.entero d._columnas)).escribir (.texto "):\n")
          = m.conES m.entrada (m.salida ++ [.texto "Ingrese valores (", .entero d._filas,
            .texto "x", .entero d._columnas, .texto "):\n"]) := by
        simp [Memoria.escribir, Memoria.conES]
      have ho1 : (a1.conES (m.entrada.drop (d._filas.toNat * d._columnas.toNat)) s1).objetos g
          = some (.dinamica d) := by
        rw [objetos_conES, hs.2.1]; exact ho
      refine ⟨a1.conES (m.entrada.drop (d._filas.toNat * d._columnas.toNat)) s1, ?_, rfl, ?_,
        by simp only [MatrizBase.filas, ho1], by simp only [MatrizBase.columnas, ho1], ?_,
        by rw [tablas_conES, hs.1], by rw [libre_conES, hs.2.2.1], ?_, ?_, ?_⟩
      · simp only [MatrizBase.cargarValores, ho, MatrizDinamica.cargarValores, objDin_eq ho, hm0]
        exact hsim
      · intro i j hi hj
        rw [obtenerD_eq ho1 hi hj, leerCelda_conES]
        exact hcel i j hi hj
      · simp only [bienFormadaEn, ho1, Bool.and_eq_true, decide_eq_true_eq, libre_conES]
        refine ⟨by rw [hs.2.2.1]; exact bienFormadaEn_lt hwf, ?_⟩
        have : d.bienFormada (a1.conES (m.entrada.drop (d._filas.toNat * d._columnas.toNat)) s1)
            = d.bienFormada a1 := rfl
        rw [this, bienFormada_solo hs]; exact hwd
      · intro a _; rw [objetos_conES, hs.2.1]
      · intro d1 hd1
        cases hd1
        exact ⟨ho1, fun r => hs.2.2.2.2.2.2 r, fun r hr => hfr r hr⟩
      · intro e he; cases he
    | estatica e =>
      simp only [MatrizBase.filas, MatrizBase.columnas, ho, Except.ok.injEq] at hf hc
      subst hf; subst hc
      have hwe := bienFormadaEn_est hwf ho
      obtain ⟨hfe, hce, _, _⟩ := bienFormadaE_iff.mp hwe
      have hfn : e._filas.toNat = e.M := by rw [hfe]; simp
      have hcn : e._columnas.toNat = e.N := by rw [hce]; simp
      obtain ⟨a1, e2, hrun, hs, ho2, ⟨hM, hN, hf2, hc2, hw2⟩, hcel⟩ := llenarInline_spec m g e ho hwe
        (fun i j => m.entrada.getD (i * e.N + j) m.basura)
        (fun i j => escribirInline g i j (m.entrada.getD (i * e.N + j) m.basura))
        (fun _ _ _ _ _ _ _ _ _ => rfl)
      obtain ⟨s1, hsim⟩ := cargar_sim e.M e.N m.entrada m.basura
        (fun i j v => escribirInline g i j v)
        (fun i j v a a1 h e s => escribirInline_conES h e s)
        (fun i j v a a1 h => escribirInline_basura h) m a1
        (m.salida ++ [.texto "Ingrese valores estaticos (", .entero e._filas, .texto "x",
          .entero e._columnas, .texto "):\n"]) rfl hrun
      have hm0 : ((((m.escribir (.texto "Ingrese valores estaticos (")).escribir
          (.entero e._filas)).escribir (.texto "x")).escribir
          (.entero e._columnas)).escribir (.texto "):\n")
          = m.conES m.entrada (m.salida ++ [.texto "Ingrese valores estaticos (",
            .entero e._filas, .texto "x", .entero e._columnas, .texto "):\n"]) := by
        simp [Memoria.escribir, Memoria.conES]
      have ho1 : (a1.conES (m.entrada.drop (e.M * e.N)) s1).objetos g
          = some (.estatica e2) := ho2
      rw [hfn, hcn]
      refine ⟨a1.conES (m.entrada.drop (e.M * e.N)) s1, ?_, rfl, ?_,
        by simp only [MatrizBase.filas, ho1, hf2], by simp only [MatrizBase.columnas, ho1, hc2],
        ?_, by rw [tablas_conES, hs.1], by rw [libre_conES, hs.2.2.1], ?_, ?_, ?_⟩
      · simp only [MatrizBase.cargarValores, ho, MatrizEstatica.cargarValores, objEst_eq ho, hm0,
          hfn, hcn]
        exact hsim
      · intro i j hi hj
        rw [obtenerE_eq ho1 (by rw [hf2, hfn]; exact hi) (by rw [hc2, hcn]; exact hj)]
        exact hcel i j hi hj
      · simp only [bienFormadaEn, ho1, Bool.and_eq_true, decide_eq_true_eq, libre_conES]
        exact ⟨by rw [hs.2.2.1]; exact bienFormadaEn_lt hwf, hw2⟩
      · intro a ha; rw [objetos_conES]; exact hs.2.2.2.2.2.2 a ha
      · intro d hd; cases hd
      · intro e1 _; exact ⟨by rw [bloques_conES, hs.2.1], e2, ho1, hw2⟩

theorem impreso_inicio (m : Memoria T) : Impreso m [] m :=
  ⟨[], by rw [List.append_nil]; rfl, rfl⟩

theorem impreso_texto {m mm : Memoria T} {vals : List T} (h : Impreso m vals mm) (s : String) :
    Impreso m vals (mm.escribir (.texto s)) := by
  obtain ⟨nuevos, hmm, hv⟩ := h
  refine ⟨nuevos ++ [.texto s], ?_, ?_⟩
  · rw [hmm, escribir_conES, List.append_assoc]
  · simp [valoresDe, List.filterMap_append] at hv ⊢; exact hv

theorem impreso_valor {m mm : Memoria T} {vals : List T} (h : Impreso m vals mm) (v : T) :
    Impreso m (vals ++ [v]) (mm.escribir (.valor v)) := by
  obtain ⟨nuevos, hmm, hv⟩ := h
  refine ⟨nuevos ++ [.valor v], ?_, ?_⟩
  · rw [hmm, escribir_conES, List.append_assoc]
  · simp [valoresDe, List.filterMap_append] at hv ⊢; exact hv

theorem filaMayor_succ (R C : Nat) (f : Nat → Nat → T) :
    filaMayor (R + 1) C f = filaMayor R C f ++ (List.range C).map (fun j => f R j) := by
  simp [filaMayor, List.range_succ, List.flatMap_append]

theorem filaMayor_length (R C : Nat) (f : Nat → Nat → T) :
    (filaMayor R C f).length = R * C := by
  induction R with
  | zero => simp [filaMayor]
  | succ R ih => rw [filaMayor_succ, List.length_append, ih, Nat.succ_mul]; simp

/-- The two nested loops shared by both `imprimir`: `leer i j` is the element read in
cell `(i, j)`, `antes i` what is printed before row `i` and `tras` after each row. -/
theorem imprimir_bucles {m : Memoria T} (R C : Nat) (V : Nat → Nat → T)
    (leer : Nat → Nat → Memoria T → Except Falla T)
    (hleer : ∀ i j mm vals, i < R → j < C → Impreso m vals mm → leer i j mm = .ok (V i j))
    (antes : Nat → Memoria T → Memoria T) (tras : String)
    (hantes : ∀ i mm vals, Impreso m vals mm → Impreso m vals (antes i mm))
    (m0 : Memoria T) (h0 : Impreso m [] m0) :
    ∃ m1, bucle R (fun i mi =>
        match bucle C (fun j mj =>
            match leer i j mj with
            | .error e => .error e
            | .ok v => .ok ((mj.escribir (.valor v)).escribir (.texto " ")))
          (antes i mi) with
        | .error e => .error e
        | .ok m3 => .ok (m3.escribir (.texto tras))) m0 = .ok m1 ∧
      Impreso m (filaMayor R C V) m1 := by
  apply bucle_inv R _ (fun i mm => Impreso m (filaMayor i C V) mm) m0
    (by simpa [filaMayor] using h0)
  intro i mi hi hI
  obtain ⟨m3, hm3, hI3⟩ := bucle_inv C
    (fun j mj =>
      match leer i j mj with
      | .error e => .error e
      | .ok v => .ok ((mj.escribir (.valor v)).escribir (.texto " ")))
    (fun j mm => Impreso m (filaMayor i C V ++ (List.range j).map (fun j => V i j)) mm)
    (antes i mi) (by simpa using hantes i mi _ hI)
    (by
      intro j mj hj hIj
      beta_reduce
      refine ⟨(mj.escribir (.valor (V i j))).escribir (.texto " "),
        by simp only [hleer i j mj _ hi hj hIj], ?_⟩
      have := impreso_texto (impreso_valor hIj (V i j)) " "
      simpa [List.range_succ, List.map_append] using this)
  refine ⟨m3.escribir (.texto tras), by simp only [hm3], ?_⟩
  rw [filaMayor_succ]
  exact impreso_texto hI3 tras

/-- `imprimir` on a well-formed grid of either class: it succeeds, only appends to the
output, and the element values it writes are the row-major listing of the grid. -/
theorem imprimir_spec {m : Memoria T} {g : Nat} (hwf : bienFormadaEn m g = true) {f c : Int}
    (hf : MatrizBase.filas g m = .ok f) (hc : MatrizBase.columnas g m = .ok c) :
    ∃ m1, MatrizBase.imprimir g m = .ok m1 ∧
      Impreso m (filaMayor f.toNat c.toNat
        (fun i j => valorDe (MatrizBase.obtener g (i : Int) (j : Int) m) m.basura)) m1 := by
  cases ho : m.objetos g with
  | none => simp [bienFormadaEn, ho] at hwf
  | some o =>
    cases o with
    | dinamica d =>
      simp only [MatrizBase.filas, MatrizBase.columnas, ho, Except.ok.injEq] at hf hc
      subst hf; subst hc
      have hwd := bienFormadaEn_din hwf ho
      obtain ⟨m1, hm1, hI⟩ := imprimir_bucles (m := m) d._filas.toNat d._columnas.toNat
        (fun i j => valorDe (MatrizBase.obtener g (i : Int) (j : Int) m) m.basura)
        (fun i j mm => leerCelda d._datos i j mm)
        (by
          intro i j mm vals hi hj ⟨nuevos, hmm, _⟩
          obtain ⟨v, hv⟩ := leerCelda_ok hwd hi hj
          beta_reduce
          rw [hmm, leerCelda_conES, obtenerD_eq ho hi hj, hv]
          rfl)
        (fun i mi => (if i ≠ 0 then mi.escribir (.texto "\n") else mi).escribir (.texto "| "))
        "|"
        (by
          intro i mm vals h
          by_cases hi : i ≠ 0
          · simp only [if_pos hi]; exact impreso_texto (impreso_texto h _) _
          · simp only [if_neg hi]; exact impreso_texto h _)
        (m.escribir (.texto "| ")) (impreso_texto (impreso_inicio m) _)
      exact ⟨m1.escribir (.texto "\n"),
        by simp only [MatrizBase.imprimir, ho, MatrizDinamica.imprimir, objDin_eq ho, hm1],
        impreso_texto hI _⟩
    | estatica e =>
      simp only [MatrizBase.filas, MatrizBase.columnas, ho, Except.ok.injEq] at hf hc
      subst hf; subst hc
      have hwe := bienFormadaEn_est hwf ho
      obtain ⟨hfe, hce, _, _⟩ := bienFormadaE_iff.mp hwe
      obtain ⟨m1, hm1, hI⟩ := imprimir_bucles (m := m) e._filas.toNat e._columnas.toNat
        (fun i j => valorDe (MatrizBase.obtener g (i : Int) (j : Int) m) m.basura)
        (fun i j _ => leerInline e i j)
        (by
          intro i j mm vals hi hj _
          obtain ⟨v, hv⟩ := leerInline_ok hwe (i := i) (j := j) (by omega) (by omega)
          beta_reduce
          rw [obtenerE_eq ho hi hj, hv]
          rfl)
        (fun _ mi => mi.escribir (.texto "| "))
        "|\n"
        (fun i mm vals h => impreso_texto h _)
        m (impreso_inicio m)
      exact ⟨m1, by simp only [MatrizBase.imprimir, ho, MatrizEstatica.imprimir, objEst_eq ho, hm1],
        hI⟩

/-- C17. For a well-formed grid `g` of either class, `g.imprimir()` succeeds, and the
element values it writes (separators, padding and newlines aside) are exactly the
row-major listing `g(0,0), g(0,1), …, g(R-1,C-1)` of its `filas() × columnas()`
elements, each once and none omitted; the grid and the rest of the memory are unchanged. -/
theorem C17_imprimir_lista_por_filas (m : Memoria T) (g : Nat) (f c : Int)
    (hwf : bienFormadaEn m g = true)
    (hf : MatrizBase.filas g m = .ok f) (hc : MatrizBase.columnas g m = .ok c) :
    ∃ m1 nuevos elem, MatrizBase.imprimir g m = .ok m1 ∧
      m1.salida = m.salida ++ nuevos ∧
      (∀ i j : Nat, i < f.toNat → j < c.toNat →
        MatrizBase.obtener g (i : Int) (j : Int) m = .ok (elem i j)) ∧
      valoresDe nuevos = filaMayor f.toNat c.toNat elem ∧
      (valoresDe nuevos).length = f.toNat * c.toNat ∧
      m1.tablas = m.tablas ∧ m1.bloques = m.bloques ∧ m1.objetos = m.objetos ∧
      m1.entrada = m.entrada ∧ m1.libre = m.libre ∧
      MatrizBase.filas g m1 = .ok f ∧ MatrizBase.columnas g m1 = .ok c ∧
      ∀ i j : Int, MatrizBase.obtener g i j m1 = MatrizBase.obtener g i j m := by
  obtain ⟨m1, hrun, nuevos, hm1, hvals⟩ := imprimir_spec hwf hf hc
  refine ⟨m1, nuevos, _, hrun, by rw [hm1]; rfl, ?_, hvals, by rw [hvals, filaMayor_length],
    by rw [hm1]; rfl, by rw [hm1]; rfl, by rw [hm1]; rfl, by rw [hm1]; rfl, by rw [hm1]; rfl,
    by rw [hm1]; exact hf, by rw [hm1]; exact hc, fun i j => by rw [hm1]; rfl⟩
  intro i j hi hj
  obtain ⟨v, hv⟩ := obtener_ok hwf hf hc hi hj
  rw [hv]; rfl


/-- C17 on the two grids of the `int` demonstration of `main`: `Ai.imprimir()` writes the
values 1, 2, 3, 4 and `Bi.imprimir()` the values 5, 6, 7, 8. -/
theorem C17_imprimir_lista_por_filas_witness :
    bienFormadaEn memDemoInt 0 = true ∧ bienFormadaEn memDemoInt 4 = true ∧
    (∃ m1 nuevos elem, MatrizBase.imprimir 0 memDemoInt = .ok m1 ∧
      m1.salida = memDemoInt.salida ++ nuevos ∧
      (∀ i j : Nat, i < 2 → j < 2 →
        MatrizBase.obtener 0 (i : Int) (j : Int) memDemoInt = .ok (elem i j)) ∧
      valoresDe nuevos = filaMayor 2 2 elem) ∧
    (match MatrizBase.imprimir 0 memDemoInt with
      | .ok m1 => valoresDe m1.salida
      | .error _ => []) = [1, 2, 3, 4] ∧
    (match MatrizBase.imprimir 4 memDemoInt with
      | .ok m1 => valoresDe m1.salida
      | .error _ => []) = [5, 6, 7, 8] := by
  refine ⟨by decide, by decide, ?_, by decide, by decide⟩
  obtain ⟨m1, nuevos, elem, h1, h2, h3, h4, _⟩ :=
    C17_imprimir_lista_por_filas memDemoInt 0 2 2 (by decide) rfl rfl
  exact ⟨m1, nuevos, elem, h1, h2, h3, h4⟩

/-! ## The invariant of the whole memory -/

theorem bienFormada_esqueleto {m m1 : Memoria T} {d : MatrizDinamica}
    (ht : m1.tablas = m.tablas) (hl : m.libre ≤ m1.libre)
    (hb : ∀ r, (m1.bloques r).map List.length = (m.bloques r).map List.length)
    (hwf : d.bienFormada m = true) : d.bienFormada m1 = true := by
  by_cases hd : d._filas ≤ 0 ∨ d._columnas ≤ 0
  · have := bienFormada_deg hwf hd
    simp [MatrizDinamica.bienFormada, hd, this]
  · obtain ⟨p, ps, hp, htp, hlt, hlen, hall, hnd⟩ := bienFormada_pos hwf hd
    refine bienFormada_of hd hp (by rw [ht]; exact htp) (by omega) hlen ?_ hnd
    intro q hq
    obtain ⟨r, es, hqr, hr, hbr, hle⟩ := filaValida_iff.mp (hall q hq)
    have h := hb r
    rw [hbr] at h
    cases hb1 : m1.bloques r with
    | none => rw [hb1] at h; simp at h
    | some es1 =>
      rw [hb1] at h
      simp only [Option.map_some', Option.some.injEq] at h
      exact filaValida_iff.mpr ⟨r, es1, hqr, by omega, hb1, by omega⟩

/-- The invariant survives any change that keeps the tables, the sizes of the blocks
and the dynamic objects, and leaves the static objects well formed. -/
theorem invariante_de {m m1 : Memoria T} (hinv : Invariante m)
    (ht : m1.tablas = m.tablas) (hl : m.libre ≤ m1.libre)
    (hb : ∀ r, (m1.bloques r).map List.length = (m.bloques r).map List.length)
    (hdin : ∀ a d, m1.objetos a = some (.dinamica d) → m.objetos a = some (.dinamica d))
    (hest : ∀ a e, m1.objetos a = some (.estatica e) → e.bienFormada = true ∧ a < m1.libre) :
    Invariante m1 := by
  obtain ⟨hwf, hsep⟩ := hinv
  constructor
  · intro a o ho
    cases o with
    | dinamica d =>
      have hom := hdin a d ho
      have hw := hwf a _ hom
      simp only [bienFormadaEn, ho, Bool.and_eq_true, decide_eq_true_eq]
      exact ⟨by have := bienFormadaEn_lt hw; omega,
        bienFormada_esqueleto ht hl hb (bienFormadaEn_din hw hom)⟩
    | estatica e =>
      obtain ⟨h1, h2⟩ := hest a e ho
      simp only [bienFormadaEn, ho, Bool.and_eq_true, decide_eq_true_eq]
      exact ⟨h2, h1⟩
  · intro a b da db hab ha hb2 r hr hr2
    have e1 : filasDir m1 da._datos = filasDir m da._datos := by simp only [filasDir, ht]
    have e2 : filasDir m1 db._datos = filasDir m db._datos := by simp only [filasDir, ht]
    rw [e1] at hr; rw [e2] at hr2
    exact hsep a b da db hab (hdin a da ha) (hdin b db hb2) r hr hr2

theorem invariante_vacia (b : T) (E : List T) (s : List (Item T)) :
    Invariante ((Memoria.vacia b).conES E s) := by
  constructor
  · intro a o ho; cases ho
  · intro a b1 da db _ ha; cases ha

/-- The invariant survives the construction of a dynamic matrix in fresh storage. -/
theorem invariante_construida {m m2 : Memoria T} {f c : Int} {V : Nat → Nat → T}
    (hinv : Invariante m) (hc : Construida m f c V m2) : Invariante m2 := by
  obtain ⟨hwf, hsep⟩ := hinv
  obtain ⟨datos, hoN, hwN, hobjs, hmem, hrows, _, hlib, _⟩ := hc
  have hcons : Conserva m.libre m m2 := fun a ha =>
    ⟨(hmem a ha).1, (hmem a ha).2, hobjs a (by omega)⟩
  have hviejo : ∀ a o, a ≠ m.libre → m2.objetos a = some o →
      m.objetos a = some o ∧ bienFormadaEn m a = true := by
    intro a o ha ho
    rw [hobjs a ha] at ho
    exact ⟨ho, hwf a o ho⟩
  have hdir : ∀ a d, a ≠ m.libre → m2.objetos a = some (.dinamica d) →
      filasDir m2 d._datos = filasDir m d._datos ∧ ∀ r, r ∈ filasDir m d._datos → r < m.libre := by
    intro a d ha ho
    obtain ⟨hom, hw⟩ := hviejo a _ ha ho
    have hwd := bienFormadaEn_din hw hom
    exact ⟨filasDir_conserva hwd hcons, fun r hr => filasDir_lt hwd hr⟩
  constructor
  · intro a o ho
    by_cases ha : a = m.libre
    · subst ha
      rw [hoN] at ho
      cases ho
      simp only [bienFormadaEn, hoN, Bool.and_eq_true, decide_eq_true_eq]
      exact ⟨hlib, hwN⟩
    · obtain ⟨_, hw⟩ := hviejo a o ha ho
      exact bienFormadaEn_conserva hw hcons (by omega)
  · intro a b da db hab ha hb r hr hr2
    by_cases ha1 : a = m.libre
    · subst ha1
      rw [hoN] at ha
      cases ha
      obtain ⟨e2, hlt⟩ := hdir b db (Ne.symm hab) hb
      rw [e2] at hr2
      have := hrows r hr
      have := hlt r hr2
      omega
    · by_cases hb1 : b = m.libre
      · subst hb1
        rw [hoN] at hb
        cases hb
        obtain ⟨e1, hlt⟩ := hdir a da ha1 ha
        rw [e1] at hr
        have := hrows r hr2
        have := hlt r hr
        omega
      · obtain ⟨e1, _⟩ := hdir a da ha1 ha
        obtain ⟨e2, _⟩ := hdir b db hb1 hb
        rw [e1] at hr; rw [e2] at hr2
        exact hsep a b da db hab (hviejo a _ ha1 ha).1 (hviejo b _ hb1 hb).1 r hr hr2


theorem bucleDesde_parcial (cuerpo : Nat → Memoria T → Except Falla (Memoria T))
    (P : Memoria T → Prop)
    (paso : ∀ i mm mm1, P mm → cuerpo i mm = .ok mm1 → P mm1) (k : Nat) :
    ∀ (i : Nat) (m m1 : Memoria T), P m → bucleDesde cuerpo i k m = .ok m1 → P m1 := by
  induction k with
  | zero =>
    intro i m m1 h hrun
    simp only [bucleDesde, Except.ok.injEq] at hrun
    subst hrun; exact h
  | succ k ih =>
    intro i m m1 h hrun
    simp only [bucleDesde] at hrun
    cases hc : cuerpo i m with
    | error x => simp [hc] at hrun
    | ok m2 =>
      simp only [hc] at hrun
      exact ih (i + 1) m2 m1 (paso i m m2 h hc) hrun

/-- Partial-correctness rule for counted loops: a property kept by every successful
iteration holds after a successful loop. -/
theorem bucle_parcial (n : Nat) (cuerpo : Nat → Memoria T → Except Falla (Memoria T))
    (P : Memoria T → Prop)
    (paso : ∀ i mm mm1, P mm → cuerpo i mm = .ok mm1 → P mm1)
    {m m1 : Memoria T} (h : P m) (hrun : bucle n cuerpo m = .ok m1) : P m1 :=
  bucleDesde_parcial cuerpo P paso n 0 m m1 h hrun

/-- When the storage of the dynamic matrix `t` is released (and nothing else below
`m.libre` is touched), every other dynamic matrix keeps its table and its rows. -/
theorem otros_intactos {m : Memoria T} (m1 : Memoria T) (hinv : Invariante m) {t : Nat}
    {dt : MatrizDinamica} (ht : m.objetos t = some (.dinamica dt))
    (htab : ∀ a, a < m.libre → dt._datos ≠ some a → m1.tablas a = m.tablas a)
    (hblo : ∀ r, r < m.libre → r ∉ filasDir m dt._datos → m1.bloques r = m.bloques r)
    {y : Nat} {dy : MatrizDinamica} (hy : m.objetos y = some (.dinamica dy)) (hne : y ≠ t) :
    (∀ p, dy._datos = some p → m1.tablas p = m.tablas p) ∧
      (∀ r, r ∈ filasDir m dy._datos → m1.bloques r = m.bloques r) := by
  obtain ⟨hwf, hsep⟩ := hinv
  have hwy := bienFormadaEn_din (hwf y _ hy) hy
  have hsepy := hsep y t dy dt hne hy ht
  constructor
  · intro p hp
    have hd : ¬ (dy._filas ≤ 0 ∨ dy._columnas ≤ 0) := by
      intro hd; rw [bienFormada_deg hwy hd] at hp; cases hp
    obtain ⟨p1, _, hp1, _, hlt, _⟩ := bienFormada_pos hwy hd
    rw [hp] at hp1; cases hp1
    exact htab p hlt (tablas_distintas hwy hsepy hp)
  · intro r hr
    exact hblo r (filasDir_lt hwy hr) (hsepy r hr)

/-- The invariant survives a redistribution of storage among dynamic objects: in `m2`
every dynamic object either has no storage, or has the fields of a distinct object of
`m` (its origin) whose table and rows are still in place. -/
theorem invariante_reparto {m m2 : Memoria T} (hinv : Invariante m)
    (hl : m.libre ≤ m2.libre) (origen : Nat → Nat)
    (hdin : ∀ a d, m2.objetos a = some (.dinamica d) → a < m2.libre ∧
      ((d._datos = none ∧ d.bienFormada m2 = true) ∨
        (m.objetos (origen a) = some (.dinamica d) ∧
          (∀ p, d._datos = some p → m2.tablas p = m.tablas p) ∧
          (∀ r, r ∈ filasDir m d._datos → m2.bloques r = m.bloques r))))
    (hinj : ∀ a b da db, a ≠ b → m2.objetos a = some (.dinamica da) →
      m2.objetos b = some (.dinamica db) → da._datos ≠ none → db._datos ≠ none →
      origen a ≠ origen b)
    (hest : ∀ a e, m2.objetos a = some (.estatica e) → e.bienFormada = true ∧ a < m2.libre) :
    Invariante m2 := by
  obtain ⟨hwf, hsep⟩ := hinv
  constructor
  · intro a o ho
    cases o with
    | dinamica d =>
      obtain ⟨hlt, hcase⟩ := hdin a d ho
      simp only [bienFormadaEn, ho, Bool.and_eq_true, decide_eq_true_eq]
      refine ⟨hlt, ?_⟩
      rcases hcase with ⟨_, hw⟩ | ⟨hor, htab, hblo⟩
      · exact hw
      · exact bienFormada_marco (bienFormadaEn_din (hwf _ _ hor) hor) htab hblo hl
    | estatica e =>
      obtain ⟨h1, h2⟩ := hest a e ho
      simp only [bienFormadaEn, ho, Bool.and_eq_true, decide_eq_true_eq]
      exact ⟨h2, h1⟩
  · intro a b da db hab ha hb r hr hr2
    have hna : da._datos ≠ none := by
      intro e; rw [e] at hr; simp [filasDir] at hr
    have hnb : db._datos ≠ none := by
      intro e; rw [e] at hr2; simp [filasDir] at hr2
    obtain ⟨_, hca⟩ := hdin a da ha
    obtain ⟨_, hcb⟩ := hdin b db hb
    rcases hca with ⟨e, _⟩ | ⟨hora, htaba, _⟩
    · exact hna e
    · rcases hcb with ⟨e, _⟩ | ⟨horb, htabb, _⟩
      · exact hnb e
      · rw [filasDir_marco htaba] at hr
        rw [filasDir_marco htabb] at hr2
        exact hsep _ _ da db (hinj a b da db hab ha hb hna hnb) hora horb r hr hr2

theorem bienFormada_vacia (m : Memoria T) :
    MatrizDinamica.bienFormada m ⟨0, 0, none⟩ = true := by
  simp [MatrizDinamica.bienFormada]

theorem invariante_objeto {m : Memoria T} (hinv : Invariante m) {a : Nat} {o : Objeto T}
    (ho : m.objetos a = some o) : bienFormadaEn m a = true ∧ a < m.libre :=
  ⟨hinv.1 a o ho, bienFormadaEn_lt (hinv.1 a o ho)⟩

theorem invariante_estatica {m : Memoria T} (hinv : Invariante m) {a : Nat}
    {e : MatrizEstatica T} (ho : m.objetos a = some (.estatica e)) :
    e.bienFormada = true ∧ a < m.libre :=
  ⟨bienFormadaEn_est (hinv.1 a _ ho) ho, bienFormadaEn_lt (hinv.1 a _ ho)⟩


/-! ## Every public operation keeps the invariant -/

theorem objDin_ok {m : Memoria T} {a : Nat} {d : MatrizDinamica} (h : objDin m a = .ok d) :
    m.objetos a = some (.dinamica d) := by
  unfold objDin at h
  cases ho : m.objetos a with
  | none => simp [ho] at h
  | some o =>
    cases o with
    | dinamica d1 => simp only [ho, Except.ok.injEq] at h; rw [h]
    | estatica e => simp [ho] at h

theorem crear_invariante [Zero T] {m m2 : Memoria T} {f c : Int} {h : Nat}
    (hinv : Invariante m) (hrun : MatrizDinamica.crear f c m = .ok (h, m2)) :
    Invariante m2 := by
  obtain ⟨m3, h3, hc⟩ := crear_spec (T := T) f c m
  rw [h3] at hrun
  simp only [Except.ok.injEq, Prod.mk.injEq] at hrun
  rw [← hrun.2]
  exact invariante_construida hinv hc

theorem copiar_invariante {m m2 : Memoria T} {g h : Nat}
    (hinv : Invariante m) (hrun : MatrizDinamica.copiar g m = .ok (h, m2)) :
    Invariante m2 ∧ h = m.libre ∧ (∀ a, a ≠ m.libre → m2.objetos a = m.objetos a) ∧
      ∃ d, m2.objetos m.libre = some (.dinamica d) := by
  cases hg : objDin m g with
  | error x => simp [MatrizDinamica.copiar, hg] at hrun
  | ok d =>
    have ho := objDin_ok hg
    have hwd := bienFormadaEn_din (hinv.1 g _ ho) ho
    obtain ⟨m3, h3, hc⟩ := copiar_spec ho hwd
    rw [h3] at hrun
    simp only [Except.ok.injEq, Prod.mk.injEq] at hrun
    obtain ⟨e1, e2⟩ := hrun
    subst e1; subst e2
    refine ⟨invariante_construida hinv hc, rfl, ?_, ?_⟩
    · obtain ⟨datos, _, _, hobjs, _⟩ := hc
      exact hobjs
    · obtain ⟨datos, hoN, _⟩ := hc
      exact ⟨_, hoN⟩

theorem crearE_invariante [Zero T] {m m2 : Memoria T} {M N : Nat} {h : Nat}
    (hinv : Invariante m) (hrun : MatrizEstatica.crear M N m = .ok (h, m2)) :
    Invariante m2 := by
  obtain ⟨m3, e2, h3, hoN, _, _, _, _, hwN, htab, hblo, hlib, _, _, _, hobjs, _⟩ :=
    crearE_spec (T := T) M N m
  rw [h3] at hrun
  simp only [Except.ok.injEq, Prod.mk.injEq] at hrun
  rw [← hrun.2]
  refine invariante_de hinv htab (by omega) (fun r => by rw [hblo]) ?_ ?_
  · intro a d ho
    by_cases ha : a = m.libre
    · subst ha; rw [hoN] at ho; cases ho
    · rw [hobjs a ha] at ho; exact ho
  · intro a e ho
    by_cases ha : a = m.libre
    · subst ha; rw [hoN] at ho; cases ho
      exact ⟨hwN, by omega⟩
    · rw [hobjs a ha] at ho
      obtain ⟨h1, h2⟩ := invariante_estatica hinv ho
      exact ⟨h1, by omega⟩

theorem asignar_invariante {m m1 : Memoria T} {a : Nat} {i j : Int} {v : T}
    (hinv : Invariante m) (hrun : MatrizBase.asignar a i j v m = .ok m1) :
    Invariante m1 := by
  cases ho : m.objetos a with
  | none => simp [MatrizBase.asignar, ho] at hrun
  | some o =>
    cases o with
    | dinamica d =>
      obtain ⟨hs, _⟩ := asignarD_efecto ho hrun
      refine invariante_de hinv hs.1 (by rw [hs.2.2.1]) hs.2.2.2.2.2.2 ?_ ?_
      · intro x dx hx; rw [hs.2.1] at hx; exact hx
      · intro x e hx
        rw [hs.2.1] at hx
        obtain ⟨h1, h2⟩ := invariante_estatica hinv hx
        exact ⟨h1, by rw [hs.2.2.1]; exact h2⟩
    | estatica e =>
      obtain ⟨hwe, hlt⟩ := invariante_estatica hinv ho
      obtain ⟨hfe, hce, _, _⟩ := bienFormadaE_iff.mp hwe
      rw [asignarE_def ho] at hrun
      split at hrun
      · next hcond =>
        obtain ⟨e1, hw, ⟨_, _, _, _, hw1⟩, _, _⟩ := escribirInline_ok ho hwe
          (i := i.toNat) (j := j.toNat) (by omega) (by omega) v
        rw [hw] at hrun
        simp only [Except.ok.injEq] at hrun
        subst hrun
        refine invariante_de hinv rfl (Nat.le_refl _) (fun _ => rfl) ?_ ?_
        · intro x dx hx
          by_cases hxa : x = a
          · subst hxa; simp at hx
          · simpa [hxa] using hx
        · intro x ex hx
          by_cases hxa : x = a
          · subst hxa
            simp only [objetos_ponerObjeto, if_true, Option.some.injEq, Objeto.estatica.injEq] at hx
            subst hx
            exact ⟨hw1, hlt⟩
          · simp only [objetos_ponerObjeto, if_neg hxa] at hx
            exact invariante_estatica hinv hx
      · cases hrun

theorem sumarCelda_invariante [Add T] {m m1 : Memoria T} {R a b i j : Nat}
    (hinv : Invariante m) (hrun : sumarCelda R a b i j m = .ok m1) : Invariante m1 := by
  unfold sumarCelda at hrun
  cases hx : MatrizBase.obtener a (i : Int) (j : Int) m with
  | error x => simp [hx] at hrun
  | ok x =>
    cases hy : MatrizBase.obtener b (i : Int) (j : Int) m with
    | error y => simp [hx, hy] at hrun
    | ok y =>
      simp only [hx, hy] at hrun
      exact asignar_invariante hinv hrun

theorem sumar_bucles_invariante [Add T] {m m1 : Memoria T} (F C R a b : Nat)
    (hinv : Invariante m)
    (hrun : bucle F (fun i => bucle C (fun j => sumarCelda R a b i j)) m = .ok m1) :
    Invariante m1 :=
  bucle_parcial F _ Invariante
    (fun _ _ _ h hstep =>
      bucle_parcial C _ Invariante (fun _ _ _ hx hs => sumarCelda_invariante hx hs) h hstep)
    hinv hrun

theorem invariante_escribir {m : Memoria T} (hinv : Invariante m) (x : Item T) :
    Invariante (m.escribir x) :=
  invariante_de hinv rfl (Nat.le_refl _) (fun _ => rfl) (fun _ _ h => h)
    (fun _ _ h => invariante_estatica hinv h)

theorem sumar_invariante [Zero T] [Add T] {m m2 : Memoria T} {a b : Nat} {res : Option Nat}
    (hinv : Invariante m) (hrun : MatrizBase.sumar a b m = .ok (res, m2)) :
    Invariante m2 := by
  cases ho : m.objetos a with
  | none => simp [MatrizBase.sumar, ho] at hrun
  | some o =>
    cases hfb : MatrizBase.filas b m with
    | error x =>
      cases o <;>
        simp [MatrizBase.sumar, ho, MatrizDinamica.sumar, MatrizEstatica.sumar, hfb,
          objDin, objEst] at hrun
    | ok fb =>
      cases hcb : MatrizBase.columnas b m with
      | error x =>
        cases o <;>
          simp [MatrizBase.sumar, ho, MatrizDinamica.sumar, MatrizEstatica.sumar, hfb, hcb,
            objDin, objEst] at hrun
      | ok cb =>
        cases o with
        | dinamica d =>
          simp only [MatrizBase.sumar, ho, MatrizDinamica.sumar, objDin_eq ho, hfb, hcb] at hrun
          split at hrun
          · simp only [Except.ok.injEq, Prod.mk.injEq] at hrun
            rw [← hrun.2]; exact invariante_escribir hinv _
          · cases hcr : MatrizDinamica.crear d._filas d._columnas m with
            | error x => simp [hcr] at hrun
            | ok p =>
              obtain ⟨R, m1⟩ := p
              simp only [hcr] at hrun
              cases hb : bucle d._filas.toNat (fun i =>
                  bucle d._columnas.toNat (fun j => sumarCelda R a b i j)) m1 with
              | error x => simp [hb] at hrun
              | ok m3 =>
                simp only [hb, Except.ok.injEq, Prod.mk.injEq] at hrun
                rw [← hrun.2]
                exact sumar_bucles_invariante _ _ R a b (crear_invariante hinv hcr) hb
        | estatica s =>
          simp only [MatrizBase.sumar, ho, MatrizEstatica.sumar, objEst_eq ho, hfb, hcb] at hrun
          split at hrun
          · simp only [Except.ok.injEq, Prod.mk.injEq] at hrun
            rw [← hrun.2]; exact invariante_escribir hinv _
          · cases hcr : MatrizEstatica.crear s.M s.N m with
            | error x => simp [hcr] at hrun
            | ok p =>
              obtain ⟨R, m1⟩ := p
              simp only [hcr] at hrun
              cases hb : bucle s._filas.toNat (fun i =>
                  bucle s._columnas.toNat (fun j => sumarCelda R a b i j)) m1 with
              | error x => simp [hb] at hrun
              | ok m3 =>
                simp only [hb, Except.ok.injEq, Prod.mk.injEq] at hrun
                rw [← hrun.2]
                exact sumar_bucles_invariante _ _ R a b (crearE_invariante hinv hcr) hb

theorem cargarValores_invariante {m m1 : Memoria T} {g : Nat}
    (hinv : Invariante m) (hrun : MatrizBase.cargarValores g m = .ok m1) :
    Invariante m1 := by
  cases ho : m.objetos g with
  | none => simp [MatrizBase.cargarValores, ho] at hrun
  | some o =>
    obtain ⟨hwf, hlt⟩ := invariante_objeto hinv ho
    obtain ⟨f, c, hf, hc⟩ := filas_ok_of_bienFormadaEn hwf
    obtain ⟨m2, h2, _, _, _, _, hwf2, htab, hlib, hotros, hdin, hest⟩ :=
      cargarValores_spec hwf hf hc
    rw [h2] at hrun
    simp only [Except.ok.injEq] at hrun
    subst hrun
    cases o with
    | dinamica d =>
      obtain ⟨ho2, hlen, _⟩ := hdin d ho
      refine invariante_de hinv htab (by omega) hlen ?_ ?_
      · intro x dx hx
        by_cases hxg : x = g
        · subst hxg; rw [ho2] at hx; rw [ho]; exact hx
        · rw [hotros x hxg] at hx; exact hx
      · intro x e hx
        by_cases hxg : x = g
        · subst hxg; rw [ho2] at hx; cases hx
        · rw [hotros x hxg] at hx
          obtain ⟨h1, h2⟩ := invariante_estatica hinv hx
          exact ⟨h1, by omega⟩
    | estatica e =>
      obtain ⟨hblo, e2, ho2, hw2⟩ := hest e ho
      refine invariante_de hinv htab (by omega) (fun r => by rw [hblo]) ?_ ?_
      · intro x dx hx
        by_cases hxg : x = g
        · subst hxg; rw [ho2] at hx; cases hx
        · rw [hotros x hxg] at hx; exact hx
      · intro x ex hx
        by_cases hxg : x = g
        · subst hxg; rw [ho2] at hx; cases hx
          exact ⟨hw2, by omega⟩
        · rw [hotros x hxg] at hx
          obtain ⟨h1, h2⟩ := invariante_estatica hinv hx
          exact ⟨h1, by omega⟩

theorem imprimir_invariante {m m1 : Memoria T} {g : Nat}
    (hinv : Invariante m) (hrun : MatrizBase.imprimir g m = .ok m1) :
    Invariante m1 := by
  cases ho : m.objetos g with
  | none => simp [MatrizBase.imprimir, ho] at hrun
  | some o =>
    obtain ⟨hwf, hlt⟩ := invariante_objeto hinv ho
    obtain ⟨f, c, hf, hc⟩ := filas_ok_of_bienFormadaEn hwf
    obtain ⟨m2, h2, nuevos, hm2, _⟩ := imprimir_spec hwf hf hc
    rw [h2] at hrun
    simp only [Except.ok.injEq] at hrun
    subst hrun
    rw [hm2]
    exact invariante_de hinv rfl (Nat.le_refl _) (fun _ => rfl) (fun _ _ h => h)
      (fun _ _ h => invariante_estatica hinv h)


theorem mover_invariante {m m2 : Memoria T} {g h : Nat}
    (hinv : Invariante m) (hrun : MatrizDinamica.mover g m = .ok (h, m2)) :
    Invariante m2 := by
  cases hg : objDin m g with
  | error x => simp [MatrizDinamica.mover, hg] at hrun
  | ok d =>
    have ho := objDin_ok hg
    obtain ⟨_, hglt⟩ := invariante_objeto hinv ho
    simp only [MatrizDinamica.mover, hg, Except.ok.injEq, Prod.mk.injEq] at hrun
    obtain ⟨_, hm2⟩ := hrun
    subst hm2
    have hne : m.libre ≠ g := by omega
    refine invariante_reparto hinv (by simp) (fun a => if a = m.libre then g else a) ?_ ?_ ?_
    · intro a d1 ho1
      by_cases hag : a = g
      · subst hag
        simp only [objetos_ponerObjeto, if_true, Option.some.injEq, Objeto.dinamica.injEq] at ho1
        subst ho1
        exact ⟨by simp; omega, Or.inl ⟨rfl, bienFormada_vacia _⟩⟩
      · by_cases hal : a = m.libre
        · subst hal
          simp only [objetos_ponerObjeto, objetos_avanzar, if_neg hag, if_true, Option.some.injEq,
            Objeto.dinamica.injEq] at ho1
          subst ho1
          exact ⟨by simp, Or.inr ⟨by simpa using ho, fun _ _ => rfl, fun _ _ => rfl⟩⟩
        · simp only [objetos_ponerObjeto, objetos_avanzar, if_neg hag, if_neg hal] at ho1
          obtain ⟨_, hlt⟩ := invariante_objeto hinv ho1
          exact ⟨by simp; omega,
            Or.inr ⟨by simpa [hal] using ho1, fun _ _ => rfl, fun _ _ => rfl⟩⟩
    · intro a b da db hab ha hb hna hnb
      have hag : a ≠ g := by
        intro e; subst e
        simp only [objetos_ponerObjeto, if_true, Option.some.injEq, Objeto.dinamica.injEq] at ha
        subst ha; exact hna rfl
      have hbg : b ≠ g := by
        intro e; subst e
        simp only [objetos_ponerObjeto, if_true, Option.some.injEq, Objeto.dinamica.injEq] at hb
        subst hb; exact hnb rfl
      by_cases hal : a = m.libre
      · have hbl : b ≠ m.libre := fun e => hab (hal.trans e.symm)
        simp only [if_pos hal, if_neg hbl]
        exact Ne.symm hbg
      · by_cases hbl : b = m.libre
        · simp only [if_neg hal, if_pos hbl]
          exact hag
        · simp only [if_neg hal, if_neg hbl]
          exact hab
    · intro a e ho1
      have hag : a ≠ g := by
        intro e1; subst e1
        simp at ho1
      have hal : a ≠ m.libre := by
        intro e1; subst e1
        simp [hag] at ho1
      simp only [objetos_ponerObjeto, objetos_avanzar, if_neg hag, if_neg hal] at ho1
      obtain ⟨h1, h2⟩ := invariante_estatica hinv ho1
      exact ⟨h1, by simp; omega⟩

/-- The destructor of a dynamic matrix keeps the invariant: the object is gone, its
table and rows are released, and every other object is as it was. -/
theorem destruirD_invariante {m m1 : Memoria T} {g : Nat}
    (hinv : Invariante m) (hrun : MatrizDinamica.destruir g m = .ok m1) :
    Invariante m1 ∧ m1.objetos g = none ∧ (∀ a, a ≠ g → m1.objetos a = m.objetos a) := by
  cases hg : objDin m g with
  | error x => simp [MatrizDinamica.destruir, MatrizDinamica.liberar, hg] at hrun
  | ok d =>
    have ho := objDin_ok hg
    have hwd := bienFormadaEn_din (hinv.1 g _ ho) ho
    obtain ⟨mL, hL, _, hotros, _, htabSame, _, hbloSame, hlib, _⟩ := liberar_spec ho hwd
    simp only [MatrizDinamica.destruir, hL, Except.ok.injEq] at hrun
    subst hrun
    refine ⟨?_, by simp, fun a ha => by simp [ha, hotros a ha]⟩
    refine invariante_reparto hinv (by simp [hlib]) (fun a => a) ?_ ?_ ?_
    · intro a d1 ho1
      have hag : a ≠ g := by
        intro e; subst e; simp at ho1
      simp only [objetos_ponerObjeto, if_neg hag] at ho1
      rw [hotros a hag] at ho1
      obtain ⟨_, hlt⟩ := invariante_objeto hinv ho1
      obtain ⟨h1, h2⟩ := otros_intactos (mL.ponerObjeto g none) hinv ho
        (fun x _ hx => htabSame x hx) (fun r _ hr => hbloSame r hr) ho1 hag
      exact ⟨by simp [hlib]; exact hlt, Or.inr ⟨ho1, h1, h2⟩⟩
    · intro a b _ _ hab _ _ _ _
      exact hab
    · intro a e ho1
      have hag : a ≠ g := by
        intro e1; subst e1; simp at ho1
      simp only [objetos_ponerObjeto, if_neg hag] at ho1
      rw [hotros a hag] at ho1
      obtain ⟨h1, h2⟩ := invariante_estatica hinv ho1
      exact ⟨h1, by simp [hlib]; exact h2⟩

theorem destruir_invariante {m m1 : Memoria T} {g : Nat}
    (hinv : Invariante m) (hrun : MatrizBase.destruir g m = .ok m1) :
    Invariante m1 := by
  cases ho : m.objetos g with
  | none => simp [MatrizBase.destruir, ho] at hrun
  | some o =>
    cases o with
    | dinamica d =>
      simp only [MatrizBase.destruir, ho] at hrun
      exact (destruirD_invariante hinv hrun).1
    | estatica e =>
      simp only [MatrizBase.destruir, ho, Except.ok.injEq] at hrun
      subst hrun
      refine invariante_de hinv rfl (Nat.le_refl _) (fun _ => rfl) ?_ ?_
      · intro a d ha
        by_cases hag : a = g
        · subst hag; simp at ha
        · simpa [hag] using ha
      · intro a e1 ha
        by_cases hag : a = g
        · subst hag; simp at ha
        · simp only [objetos_ponerObjeto, if_neg hag] at ha
          exact invariante_estatica hinv ha

/-- Move assignment between two distinct dynamic matrices, step by step: the storage of
the target is released, the target takes the fields of the source, and the source is
left as `(0, 0, nullptr)`. -/
theorem asignarMov_pasos {m : Memoria T} {t s : Nat} {dt ds : MatrizDinamica}
    (hinv : Invariante m) (ht : m.objetos t = some (.dinamica dt))
    (hs : m.objetos s = some (.dinamica ds)) (hne : t ≠ s) :
    ∃ mL, MatrizDinamica.liberar t m = .ok mL ∧
      MatrizDinamica.asignarMov t s m = .ok
        ((mL.ponerObjeto t (some (.dinamica ⟨ds._filas, ds._columnas, ds._datos⟩))).ponerObjeto s
          (some (.dinamica ⟨0, 0, none⟩))) ∧
      (∀ a, a ≠ t → mL.objetos a = m.objetos a) ∧
      (∀ a, dt._datos ≠ some a → mL.tablas a = m.tablas a) ∧
      (∀ r, r ∉ filasDir m dt._datos → mL.bloques r = m.bloques r) ∧
      mL.libre = m.libre := by
  have hwd := bienFormadaEn_din (hinv.1 t _ ht) ht
  obtain ⟨mL, hL, hoT, hotros, _, htabSame, _, hbloSame, hlib, _⟩ := liberar_spec ht hwd
  have hoS : mL.objetos s = some (.dinamica ds) := by
    rw [hotros s (Ne.symm hne)]; exact hs
  exact ⟨mL, hL, by simp only [MatrizDinamica.asignarMov, if_neg hne, hL, objDin_eq hoT,
    objDin_eq hoS], hotros, htabSame, hbloSame, hlib⟩

theorem asignarMov_invariante {m m2 : Memoria T} {t s : Nat}
    (hinv : Invariante m) (hrun : MatrizDinamica.asignarMov t s m = .ok m2) :
    Invariante m2 := by
  by_cases hne : t = s
  · simp only [MatrizDinamica.asignarMov, if_pos hne, Except.ok.injEq] at hrun
    subst hrun; exact hinv
  · cases hgt : objDin m t with
    | error x =>
      simp [MatrizDinamica.asignarMov, hne, MatrizDinamica.liberar, hgt] at hrun
    | ok dt =>
      have ht := objDin_ok hgt
      have hwd := bienFormadaEn_din (hinv.1 t _ ht) ht
      obtain ⟨mL, hL, hoT, hotros, _, htabSame, _, hbloSame, hlib, _⟩ := liberar_spec ht hwd
      cases hgs : objDin mL s with
      | error x =>
        simp [MatrizDinamica.asignarMov, hne, hL, objDin_eq hoT, hgs] at hrun
      | ok ds =>
        have hs1 := objDin_ok hgs
        have hs : m.objetos s = some (.dinamica ds) := by
          rw [← hotros s (Ne.symm hne)]; exact hs1
        simp only [MatrizDinamica.asignarMov, if_neg hne, hL, objDin_eq hoT, hgs,
          Except.ok.injEq] at hrun
        subst hrun
        obtain ⟨_, htlt⟩ := invariante_objeto hinv ht
        obtain ⟨_, hslt⟩ := invariante_objeto hinv hs
        refine invariante_reparto hinv (by simp [hlib]) (fun a => if a = t then s else a)
          ?_ ?_ ?_
        · intro a d1 ho1
          by_cases has : a = s
          · subst has
            simp only [objetos_ponerObjeto, if_true, Option.some.injEq,
              Objeto.dinamica.injEq] at ho1
            subst ho1
            exact ⟨by simp [hlib]; exact hslt, Or.inl ⟨rfl, bienFormada_vacia _⟩⟩
          · by_cases hat : a = t
            · subst hat
              simp only [objetos_ponerObjeto, if_neg has, if_true, Option.some.injEq,
                Objeto.dinamica.injEq] at ho1
              subst ho1
              obtain ⟨h1, h2⟩ := otros_intactos
                ((mL.ponerObjeto a (some (.dinamica
                  ⟨ds._filas, ds._columnas, ds._datos⟩))).ponerObjeto s
                  (some (.dinamica ⟨0, 0, none⟩))) hinv ht
                (fun x _ hx => htabSame x hx) (fun r _ hr => hbloSame r hr) hs (Ne.symm hne)
              exact ⟨by simp [hlib]; exact htlt, Or.inr ⟨by simpa using hs, h1, h2⟩⟩
            · simp only [objetos_ponerObjeto, if_neg has, if_neg hat] at ho1
              rw [hotros a hat] at ho1
              obtain ⟨_, hlt⟩ := invariante_objeto hinv ho1
              obtain ⟨h1, h2⟩ := otros_intactos
                ((mL.ponerObjeto t (some (.dinamica
                  ⟨ds._filas, ds._columnas, ds._datos⟩))).ponerObjeto s
                  (some (.dinamica ⟨0, 0, none⟩))) hinv ht
                (fun x _ hx => htabSame x hx) (fun r _ hr => hbloSame r hr) ho1 hat
              exact ⟨by simp [hlib]; exact hlt, Or.inr ⟨by simpa [hat] using ho1, h1, h2⟩⟩
        · intro a b da db hab ha hb hna hnb
          have has : a ≠ s := by
            intro e; subst e
            simp only [objetos_ponerObjeto, if_true, Option.some.injEq,
              Objeto.dinamica.injEq] at ha
            subst ha; exact hna rfl
          have hbs : b ≠ s := by
            intro e; subst e
            simp only [objetos_ponerObjeto, if_true, Option.some.injEq,
              Objeto.dinamica.injEq] at hb
            subst hb; exact hnb rfl
          by_cases hat : a = t
          · have hbt : b ≠ t := fun e => hab (hat.trans e.symm)
            simp only [if_pos hat, if_neg hbt]
            exact Ne.symm hbs
          · by_cases hbt : b = t
            · simp only [if_neg hat, if_pos hbt]
              exact has
            · simp only [if_neg hat, if_neg hbt]
              exact hab
        · intro a e ho1
          have has : a ≠ s := by
            intro e1; subst e1; simp at ho1
          have hat : a ≠ t := by
            intro e1; subst e1; simp [has] at ho1
          simp only [objetos_ponerObjeto, if_neg has, if_neg hat] at ho1
          rw [hotros a hat] at ho1
          obtain ⟨h1, h2⟩ := invariante_estatica hinv ho1
          exact ⟨h1, by simp [hlib]; exact h2⟩


theorem asignarCopia_invariante {m m4 : Memoria T} {t s : Nat}
    (hinv : Invariante m) (hrun : MatrizDinamica.asignarCopia t s m = .ok m4) :
    Invariante m4 := by
  by_cases hne : t = s
  · simp only [MatrizDinamica.asignarCopia, if_pos hne, Except.ok.injEq] at hrun
    subst hrun; exact hinv
  · cases hcop : MatrizDinamica.copiar s m with
    | error x => simp [MatrizDinamica.asignarCopia, hne, hcop] at hrun
    | ok p =>
      obtain ⟨temp, m1⟩ := p
      obtain ⟨hinv1, _, _, _⟩ := copiar_invariante hinv hcop
      cases hgt : objDin m1 t with
      | error x => simp [MatrizDinamica.asignarCopia, hne, hcop, hgt] at hrun
      | ok d =>
        cases hgtemp : objDin m1 temp with
        | error x => simp [MatrizDinamica.asignarCopia, hne, hcop, hgt, hgtemp] at hrun
        | ok tt =>
          simp only [MatrizDinamica.asignarCopia, if_neg hne, hcop, hgt, hgtemp] at hrun
          have hoT := objDin_ok hgt
          have hoTemp := objDin_ok hgtemp
          obtain ⟨_, htlt⟩ := invariante_objeto hinv1 hoT
          obtain ⟨_, htemplt⟩ := invariante_objeto hinv1 hoTemp
          have hinv2 : Invariante ((m1.ponerObjeto t (some (.dinamica tt))).ponerObjeto temp
              (some (.dinamica d))) := by
            refine invariante_reparto hinv1 (by simp)
              (fun a => if a = temp then t else if a = t then temp else a) ?_ ?_ ?_
            · intro a d1 ho1
              by_cases ha1 : a = temp
              · subst ha1
                simp only [objetos_ponerObjeto, if_true, Option.some.injEq,
                  Objeto.dinamica.injEq] at ho1
                subst ho1
                exact ⟨by simpa using htemplt,
                  Or.inr ⟨by simpa using hoT, fun _ _ => rfl, fun _ _ => rfl⟩⟩
              · by_cases ha2 : a = t
                · subst ha2
                  simp only [objetos_ponerObjeto, if_neg ha1, if_true, Option.some.injEq,
                    Objeto.dinamica.injEq] at ho1
                  subst ho1
                  exact ⟨by simpa using htlt,
                    Or.inr ⟨by simpa [ha1] using hoTemp, fun _ _ => rfl, fun _ _ => rfl⟩⟩
                · simp only [objetos_ponerObjeto, if_neg ha1, if_neg ha2] at ho1
                  obtain ⟨_, hlt⟩ := invariante_objeto hinv1 ho1
                  exact ⟨by simpa using hlt,
                    Or.inr ⟨by simpa [ha1, ha2] using ho1, fun _ _ => rfl, fun _ _ => rfl⟩⟩
            · intro a b _ _ hab _ _ _ _
              simp only []
              split_ifs <;> omega
            · intro a e ho1
              have ha1 : a ≠ temp := by
                intro e1; subst e1; simp at ho1
              have ha2 : a ≠ t := by
                intro e1; subst e1; simp [ha1] at ho1
              simp only [objetos_ponerObjeto, if_neg ha1, if_neg ha2] at ho1
              obtain ⟨h1, h2⟩ := invariante_estatica hinv1 ho1
              exact ⟨h1, by simpa using h2⟩
          exact (destruirD_invariante hinv2 hrun).1

/-- Every public operation that returns keeps the invariant of the memory. -/
theorem aplicar_invariante [Zero T] [Add T] {m m1 : Memoria T} (op : Operacion T)
    (hinv : Invariante m) (hrun : op.aplicar m = .ok m1) : Invariante m1 := by
  cases op with
  | crear f c =>
    simp only [Operacion.aplicar] at hrun
    cases h : MatrizDinamica.crear f c m with
    | error x => simp [h, Except.map] at hrun
    | ok p =>
      obtain ⟨a, m2⟩ := p
      simp only [h, Except.map, Except.ok.injEq] at hrun
      subst hrun; exact crear_invariante hinv h
  | crearEstatica M N =>
    simp only [Operacion.aplicar] at hrun
    cases h : MatrizEstatica.crear M N m with
    | error x => simp [h, Except.map] at hrun
    | ok p =>
      obtain ⟨a, m2⟩ := p
      simp only [h, Except.map, Except.ok.injEq] at hrun
      subst hrun; exact crearE_invariante hinv h
  | copiar other =>
    simp only [Operacion.aplicar] at hrun
    cases h : MatrizDinamica.copiar other m with
    | error x => simp [h, Except.map] at hrun
    | ok p =>
      obtain ⟨a, m2⟩ := p
      simp only [h, Except.map, Except.ok.injEq] at hrun
      subst hrun; exact (copiar_invariante hinv h).1
  | mover other =>
    simp only [Operacion.aplicar] at hrun
    cases h : MatrizDinamica.mover other m with
    | error x => simp [h, Except.map] at hrun
    | ok p =>
      obtain ⟨a, m2⟩ := p
      simp only [h, Except.map, Except.ok.injEq] at hrun
      subst hrun; exact mover_invariante hinv h
  | asignarCopia this other => exact asignarCopia_invariante hinv hrun
  | asignarMov this other => exact asignarMov_invariante hinv hrun
  | destruir this => exact destruir_invariante hinv hrun
  | asignar this i j val => exact asignar_invariante hinv hrun
  | cargarValores this => exact cargarValores_invariante hinv hrun
  | sumar this otra =>
    simp only [Operacion.aplicar] at hrun
    cases h : MatrizBase.sumar this otra m with
    | error x => simp [h, Except.map] at hrun
    | ok p =>
      obtain ⟨a, m2⟩ := p
      simp only [h, Except.map, Except.ok.injEq] at hrun
      subst hrun; exact sumar_invariante hinv h
  | imprimir this => exact imprimir_invariante hinv hrun

theorem ejecutar_invariante [Zero T] [Add T] (ops : List (Operacion T)) :
    ∀ {m m1 : Memoria T}, Invariante m → ejecutar ops m = .ok m1 → Invariante m1 := by
  induction ops with
  | nil =>
    intro m m1 hinv hrun
    simp only [ejecutar, Except.ok.injEq] at hrun
    subst hrun; exact hinv
  | cons op resto ih =>
    intro m m1 hinv hrun
    simp only [ejecutar] at hrun
    cases h : op.aplicar m with
    | error x => simp [h] at hrun
    | ok m2 =>
      simp only [h] at hrun
      exact ih (aplicar_invariante op hinv h) hrun


/-- C18. In every memory reached from the empty one by public operations (constructors
with any integer arguments, copy and move construction, copy and move assignment,
`asignar`, `cargarValores`, and also `sumar`, `imprimir` and destruction), every live
`MatrizDinamica` has `_datos` null exactly when `_filas ≤ 0` or `_columnas ≤ 0`, and
otherwise a live table of exactly `_filas` distinct live rows of exactly `_columnas`
elements, shared with no other matrix. Consequently `liberar` succeeds and releases
exactly that table and those rows, and every access `_datos[i][j]` with
`0 ≤ i < _filas`, `0 ≤ j < _columnas` is within bounds. -/
theorem C18_invariante_de_representacion [Zero T] [Add T] (b : T) (E : List T)
    (ops : List (Operacion T)) (m : Memoria T) (g : Nat) (d : MatrizDinamica)
    (hrun : ejecutar ops ((Memoria.vacia b).conES E []) = .ok m)
    (hg : m.objetos g = some (.dinamica d)) :
    (d._datos = none ↔ (d._filas ≤ 0 ∨ d._columnas ≤ 0)) ∧
    (∀ p, d._datos = some p → ∃ ps, m.tablas p = some ps ∧ ps.length = d._filas.toNat ∧
      ps.Nodup ∧ (filasDir m d._datos).length = d._filas.toNat ∧
      ∀ q, q ∈ ps → ∃ r es, q = some r ∧ m.bloques r = some es ∧
        es.length = d._columnas.toNat) ∧
    (∀ g2 d2, g2 ≠ g → m.objetos g2 = some (.dinamica d2) →
      ∀ r, r ∈ filasDir m d._datos → r ∉ filasDir m d2._datos) ∧
    (∃ m1, MatrizDinamica.liberar g m = .ok m1 ∧
      (∀ p, d._datos = some p → m1.tablas p = none) ∧
      (∀ a, d._datos ≠ some a → m1.tablas a = m.tablas a) ∧
      (∀ r, r ∈ filasDir m d._datos → m1.bloques r = none) ∧
      (∀ r, r ∉ filasDir m d._datos → m1.bloques r = m.bloques r)) ∧
    (∀ (i j : Int) (v : T), 0 ≤ i → i < d._filas → 0 ≤ j → j < d._columnas →
      (∃ x, leerCelda d._datos i.toNat j.toNat m = .ok x) ∧
      (∃ m1, escribirCelda d._datos i.toNat j.toNat v m = .ok m1)) := by
  have hinv : Invariante m := ejecutar_invariante ops (invariante_vacia b E []) hrun
  have hwd := bienFormadaEn_din (hinv.1 g _ hg) hg
  refine ⟨⟨?_, fun hd => bienFormada_deg hwd hd⟩, ?_, ?_, ?_, ?_⟩
  · intro hnone
    by_contra hd
    obtain ⟨p, _, hp, _⟩ := bienFormada_pos hwd hd
    rw [hnone] at hp; cases hp
  · intro p hp
    have hd : ¬ (d._filas ≤ 0 ∨ d._columnas ≤ 0) := by
      intro hd; rw [bienFormada_deg hwd hd] at hp; cases hp
    obtain ⟨p1, ps, hp1, ht, _, hlen, hall, hnd⟩ := bienFormada_pos hwd hd
    rw [hp] at hp1; cases hp1
    refine ⟨ps, ht, hlen, hnd, (filasDir_length hwd hp).1, ?_⟩
    intro q hq
    obtain ⟨r, es, hqr, _, hb, hl⟩ := filaValida_iff.mp (hall q hq)
    exact ⟨r, es, hqr, hb, hl⟩
  · intro g2 d2 hne hg2
    exact hinv.2 g g2 d d2 (Ne.symm hne) hg hg2
  · obtain ⟨m1, h1, _, _, h4, h5, h6, h7, _⟩ := liberar_spec hg hwd
    exact ⟨m1, h1, h4, h5, h6, h7⟩
  · intro i j v hi0 hi hj0 hj
    have h1 : i.toNat < d._filas.toNat := by omega
    have h2 : j.toNat < d._columnas.toNat := by omega
    obtain ⟨_, _, _, _, _, hw, _⟩ := escribirCelda_ok hwd h1 h2 v
    exact ⟨leerCelda_ok hwd h1 h2, _, hw⟩

/-- C18 on a run that builds, copy-assigns, loads, moves and builds a degenerate
matrix: the matrix at address 0 ends as 3×2 with its table at address 10, the
moved-from matrix at address 4 and the `(-1, 2)` matrix at address 15 own nothing. -/
theorem C18_invariante_de_representacion_witness :
    ejecutar opsEjemplo ((Memoria.vacia (0 : Int)).conES [1, 2, 3, 4, 5, 6] [])
      = .ok (trasEjecutar opsEjemplo ((Memoria.vacia (0 : Int)).conES [1, 2, 3, 4, 5, 6] [])) ∧
    (trasEjecutar opsEjemplo ((Memoria.vacia (0 : Int)).conES [1, 2, 3, 4, 5, 6] [])).objetos 0
      = some (.dinamica ⟨3, 2, some 10⟩) ∧
    (trasEjecutar opsEjemplo ((Memoria.vacia (0 : Int)).conES [1, 2, 3, 4, 5, 6] [])).objetos 4
      = some (.dinamica ⟨0, 0, none⟩) ∧
    (trasEjecutar opsEjemplo ((Memoria.vacia (0 : Int)).conES [1, 2, 3, 4, 5, 6] [])).objetos 15
      = some (.dinamica ⟨-1, 2, none⟩) ∧
    (∃ ps, (trasEjecutar opsEjemplo
        ((Memoria.vacia (0 : Int)).conES [1, 2, 3, 4, 5, 6] [])).tablas 10 = some ps ∧
      ps.length = 3) ∧
    ((none : Option Nat) = none ↔ ((-1 : Int) ≤ 0 ∨ (2 : Int) ≤ 0)) := by
  have h0 := C18_invariante_de_representacion (0 : Int) [1, 2, 3, 4, 5, 6] opsEjemplo
    (trasEjecutar opsEjemplo ((Memoria.vacia (0 : Int)).conES [1, 2, 3, 4, 5, 6] []))
    0 ⟨3, 2, some 10⟩ rfl rfl
  have h15 := C18_invariante_de_representacion (0 : Int) [1, 2, 3, 4, 5, 6] opsEjemplo
    (trasEjecutar opsEjemplo ((Memoria.vacia (0 : Int)).conES [1, 2, 3, 4, 5, 6] []))
    15 ⟨-1, 2, none⟩ rfl rfl
  obtain ⟨ps, hps, hlen, _⟩ := h0.2.1 10 rfl
  exact ⟨rfl, rfl, rfl, rfl, ⟨ps, hps, hlen⟩, h15.1⟩


/-! ## What happens to the dimensions of a dynamic matrix -/

theorem sumar_total [Zero T] [Add T] {m : Memoria T} {a b : Nat}
    (ha : bienFormadaEn m a = true) (hb : bienFormadaEn m b = true) :
    ∃ res m2, MatrizBase.sumar a b m = .ok (res, m2) ∧ Conserva m.libre m m2 := by
  by_cases hdif : MatrizBase.filas a m ≠ MatrizBase.filas b m ∨
      MatrizBase.columnas a m ≠ MatrizBase.columnas b m
  · obtain ⟨s, hs⟩ := sumar_fallo ha hb hdif
    exact ⟨_, _, hs, conserva_escribir m _⟩
  · have hdims : MatrizBase.filas a m = MatrizBase.filas b m ∧
        MatrizBase.columnas a m = MatrizBase.columnas b m := by tauto
    obtain ⟨m3, hsum3, hcons, _⟩ := sumar_exito ha hb hdims.1 hdims.2
    exact ⟨_, _, hsum3, hcons⟩

/-- C15 (counterexample). The grid at address 0 is built 2×2; after the copy-assignment
`t = s` from the 3×2 grid at address 4 it reports `filas() = 3`, and likewise after the
move-assignment `t = std::move(s)`; after being moved from it reports 0×0: its dimensions
are not those of its construction. -/
theorem C15_contraejemplo_asignacion_cambia_dimensiones :
    (∃ m0, MatrizDinamica.crear 2 2 (Memoria.vacia (0 : Int)) = .ok (0, m0) ∧
      MatrizBase.filas 0 m0 = .ok 2) ∧
    MatrizBase.filas 0 memDosDinamicas = .ok 2 ∧
    (∃ m1, MatrizDinamica.asignarCopia 0 4 memDosDinamicas = .ok m1 ∧
      MatrizBase.filas 0 m1 = .ok 3) ∧
    (∃ m1, MatrizDinamica.asignarMov 0 4 memDosDinamicas = .ok m1 ∧
      MatrizBase.filas 0 m1 = .ok 3) ∧
    (∃ h m1, MatrizDinamica.mover 0 memDosDinamicas = .ok (h, m1) ∧
      MatrizBase.filas 0 m1 = .ok 0 ∧ MatrizBase.columnas 0 m1 = .ok 0) ∧
    ¬ (∀ m1, MatrizDinamica.asignarCopia 0 4 memDosDinamicas = .ok m1 →
      MatrizBase.filas 0 m1 = MatrizBase.filas 0 memDosDinamicas) := by
  refine ⟨⟨_, rfl, rfl⟩, rfl, ⟨_, rfl, rfl⟩, ⟨_, rfl, rfl⟩, ⟨_, _, rfl, rfl, rfl⟩, ?_⟩
  intro h
  have h1 := h (trasPasos [MatrizDinamica.asignarCopia 0 4] memDosDinamicas) rfl
  have h2 : MatrizBase.filas 0 (trasPasos [MatrizDinamica.asignarCopia 0 4] memDosDinamicas)
      = .ok 3 := rfl
  have h3 : MatrizBase.filas 0 memDosDinamicas = .ok 2 := rfl
  rw [h2, h3] at h1
  exact absurd (Except.ok.inj h1) (by decide)

/-- C15 (amended). For every live `MatrizDinamica` `g` in a memory satisfying the
invariant (no other hypothesis: `g` may be the only object): `filas()` and `columnas()`
of `g` are unchanged by `asignar` (which succeeds at every in-range index),
`cargarValores`, `imprimir`, and `sumar` with `g` as receiver or as argument and any live
matrix as the other operand, static, dynamic or `g` itself; copy-assignment and
move-assignment into `g` from any distinct dynamic matrix `s` leave `g` with the
dimensions of `s`, and self-assignment leaves the memory unchanged; and after `g` is
moved from (by move construction, or by move assignment into any distinct dynamic
matrix) both are 0. -/
theorem C15_dimensiones_tras_cada_operacion [Zero T] [Add T] (m : Memoria T) (g : Nat)
    (d : MatrizDinamica) (hinv : Invariante m)
    (hg : m.objetos g = some (.dinamica d)) :
    (∀ (i j : Int) (v : T),
      (0 ≤ i → i < d._filas → 0 ≤ j → j < d._columnas →
        ∃ m1, MatrizBase.asignar g i j v m = .ok m1) ∧
      (∀ m1, MatrizBase.asignar g i j v m = .ok m1 →
        MatrizBase.filas g m1 = .ok d._filas ∧
          MatrizBase.columnas g m1 = .ok d._columnas)) ∧
    (∃ m1, MatrizBase.cargarValores g m = .ok m1 ∧
      MatrizBase.filas g m1 = .ok d._filas ∧ MatrizBase.columnas g m1 = .ok d._columnas) ∧
    (∃ m1, MatrizBase.imprimir g m = .ok m1 ∧
      MatrizBase.filas g m1 = .ok d._filas ∧ MatrizBase.columnas g m1 = .ok d._columnas) ∧
    (∀ b o, m.objetos b = some o →
      (∃ res m1, MatrizBase.sumar g b m = .ok (res, m1) ∧
        MatrizBase.filas g m1 = .ok d._filas ∧
          MatrizBase.columnas g m1 = .ok d._columnas) ∧
      (∃ res m1, MatrizBase.sumar b g m = .ok (res, m1) ∧
        MatrizBase.filas g m1 = .ok d._filas ∧
          MatrizBase.columnas g m1 = .ok d._columnas)) ∧
    (∀ s ds, m.objetos s = some (.dinamica ds) → g ≠ s →
      (∃ m1, MatrizDinamica.asignarCopia g s m = .ok m1 ∧
        MatrizBase.filas g m1 = .ok ds._filas ∧
          MatrizBase.columnas g m1 = .ok ds._columnas) ∧
      (∃ m1, MatrizDinamica.asignarMov g s m = .ok m1 ∧
        MatrizBase.filas g m1 = .ok ds._filas ∧
          MatrizBase.columnas g m1 = .ok ds._columnas) ∧
      (∃ m1, MatrizDinamica.asignarMov s g m = .ok m1 ∧
        MatrizBase.filas g m1 = .ok 0 ∧ MatrizBase.columnas g m1 = .ok 0)) ∧
    MatrizDinamica.asignarCopia g g m = .ok m ∧ MatrizDinamica.asignarMov g g m = .ok m ∧
    (∃ h m1, MatrizDinamica.mover g m = .ok (h, m1) ∧
      MatrizBase.filas g m1 = .ok 0 ∧ MatrizBase.columnas g m1 = .ok 0) := by
  obtain ⟨hwg, hglt⟩ := invariante_objeto hinv hg
  have hfg : MatrizBase.filas g m = .ok d._filas := by simp only [MatrizBase.filas, hg]
  have hcg : MatrizBase.columnas g m = .ok d._columnas := by simp only [MatrizBase.columnas, hg]
  refine ⟨?_, ?_, ?_, ?_, ?_, ?_, ?_, ?_⟩
  · intro i j v
    constructor
    · intro hi0 hi hj0 hj
      obtain ⟨m1, h1, _⟩ := asignar_spec hwg hfg hcg hi0 hi hj0 hj v
      exact ⟨m1, h1⟩
    · intro m1 hrun
      obtain ⟨hsolo, _⟩ := asignarD_efecto hg hrun
      simp only [MatrizBase.filas, MatrizBase.columnas, hsolo.2.1, hg, and_self]
  · obtain ⟨m1, h1, _, _, h4, h5, _⟩ := cargarValores_spec hwg hfg hcg
    exact ⟨m1, h1, h4, h5⟩
  · obtain ⟨m1, h1, nuevos, hm1, _⟩ := imprimir_spec hwg hfg hcg
    exact ⟨m1, h1, by rw [hm1]; exact hfg, by rw [hm1]; exact hcg⟩
  · intro b o hb
    have hwb : bienFormadaEn m b = true := hinv.1 b o hb
    constructor
    · obtain ⟨res, m1, h1, hcons⟩ := sumar_total hwg hwb
      obtain ⟨e1, e2⟩ := filas_conserva hwg hcons
      exact ⟨res, m1, h1, e1.trans hfg, e2.trans hcg⟩
    · obtain ⟨res, m1, h1, hcons⟩ := sumar_total hwb hwg
      obtain ⟨e1, e2⟩ := filas_conserva hwg hcons
      exact ⟨res, m1, h1, e1.trans hfg, e2.trans hcg⟩
  · intro s ds hs hne
    obtain ⟨hws, hslt⟩ := invariante_objeto hinv hs
    refine ⟨?_, ?_, ?_⟩
    · obtain ⟨m4, datos, h1, hoT, _⟩ := asignarCopia_spec hg hs hwg hws hne
        ((separadas_iff hg hs).mpr (hinv.2 g s d ds hne hg hs))
      exact ⟨m4, h1, by simp only [MatrizBase.filas, hoT],
        by simp only [MatrizBase.columnas, hoT]⟩
    · obtain ⟨mL, _, h2, _⟩ := asignarMov_pasos hinv hg hs hne
      refine ⟨_, h2, ?_, ?_⟩
      · simp [MatrizBase.filas, hne]
      · simp [MatrizBase.columnas, hne]
    · obtain ⟨mL, _, h2, _⟩ := asignarMov_pasos hinv hs hg (Ne.symm hne)
      refine ⟨_, h2, ?_, ?_⟩
      · simp [MatrizBase.filas]
      · simp [MatrizBase.columnas]
  · simp only [MatrizDinamica.asignarCopia, if_true]
  · simp only [MatrizDinamica.asignarMov, if_true]
  · have hmov : MatrizDinamica.mover g m = .ok (m.libre,
        ((m.ponerObjeto m.libre (some (.dinamica ⟨d._filas, d._columnas, d._datos⟩))).avanzar).ponerObjeto
          g (some (.dinamica ⟨0, 0, none⟩))) := by
      simp only [MatrizDinamica.mover, objDin_eq hg]
    refine ⟨_, _, hmov, ?_, ?_⟩
    · simp [MatrizBase.filas]
    · simp [MatrizBase.columnas]

/-- C15 (amended) on the 2×2 dynamic matrix at address 0, next to the 2×2 static matrix
at address 4 and the 3×2 dynamic matrix at address 5: its dimensions survive
`cargarValores`, `sumar` with the static matrix and with itself; copy-assignment from
the 3×2 matrix makes it 3×2; move-assignment out of it leaves it 0×0. The second part is
a 2×2 dynamic matrix alone in the memory. -/
theorem C15_dimensiones_tras_cada_operacion_witness :
    (Invariante (trasEjecutar opsTres ((Memoria.vacia (0 : Int)).conES [] [])) ∧
     (∃ m1, MatrizBase.cargarValores 0
         (trasEjecutar opsTres ((Memoria.vacia (0 : Int)).conES [] [])) = .ok m1 ∧
       MatrizBase.filas 0 m1 = .ok 2 ∧ MatrizBase.columnas 0 m1 = .ok 2) ∧
     (∃ res m1, MatrizBase.sumar 0 4
         (trasEjecutar opsTres ((Memoria.vacia (0 : Int)).conES [] [])) = .ok (res, m1) ∧
       MatrizBase.filas 0 m1 = .ok 2 ∧ MatrizBase.columnas 0 m1 = .ok 2) ∧
     (∃ res m1, MatrizBase.sumar 4 0
         (trasEjecutar opsTres ((Memoria.vacia (0 : Int)).conES [] [])) = .ok (res, m1) ∧
       MatrizBase.filas 0 m1 = .ok 2 ∧ MatrizBase.columnas 0 m1 = .ok 2) ∧
     (∃ res m1, MatrizBase.sumar 0 0
         (trasEjecutar opsTres ((Memoria.vacia (0 : Int)).conES [] [])) = .ok (res, m1) ∧
       MatrizBase.filas 0 m1 = .ok 2 ∧ MatrizBase.columnas 0 m1 = .ok 2) ∧
     (∃ m1, MatrizDinamica.asignarCopia 0 5
         (trasEjecutar opsTres ((Memoria.vacia (0 : Int)).conES [] [])) = .ok m1 ∧
       MatrizBase.filas 0 m1 = .ok 3 ∧ MatrizBase.columnas 0 m1 = .ok 2) ∧
     (∃ m1, MatrizDinamica.asignarMov 5 0
         (trasEjecutar opsTres ((Memoria.vacia (0 : Int)).conES [] [])) = .ok m1 ∧
       MatrizBase.filas 0 m1 = .ok 0 ∧ MatrizBase.columnas 0 m1 = .ok 0)) ∧
    (Invariante (trasEjecutar [Operacion.crear 2 2] ((Memoria.vacia (0 : Int)).conES [] [])) ∧
     (∃ m1, MatrizBase.imprimir 0
         (trasEjecutar [Operacion.crear 2 2] ((Memoria.vacia (0 : Int)).conES [] []))
           = .ok m1 ∧
       MatrizBase.filas 0 m1 = .ok 2 ∧ MatrizBase.columnas 0 m1 = .ok 2) ∧
     (∃ m1, MatrizBase.asignar 0 1 1 7
         (trasEjecutar [Operacion.crear 2 2] ((Memoria.vacia (0 : Int)).conES [] []))
           = .ok m1) ∧
     (∃ res m1, MatrizBase.sumar 0 0
         (trasEjecutar [Operacion.crear 2 2] ((Memoria.vacia (0 : Int)).conES [] []))
           = .ok (res, m1) ∧
       MatrizBase.filas 0 m1 = .ok 2 ∧ MatrizBase.columnas 0 m1 = .ok 2)) := by
  have hinv : Invariante (trasEjecutar opsTres ((Memoria.vacia (0 : Int)).conES [] [])) :=
    ejecutar_invariante opsTres (invariante_vacia 0 [] []) rfl
  have hinv1 : Invariante
      (trasEjecutar [Operacion.crear 2 2] ((Memoria.vacia (0 : Int)).conES [] [])) :=
    ejecutar_invariante [Operacion.crear 2 2] (invariante_vacia 0 [] []) rfl
  have h := C15_dimensiones_tras_cada_operacion
    (trasEjecutar opsTres ((Memoria.vacia (0 : Int)).conES [] [])) 0
    ⟨2, 2, some 1⟩ hinv rfl
  have h1 := C15_dimensiones_tras_cada_operacion
    (trasEjecutar [Operacion.crear 2 2] ((Memoria.vacia (0 : Int)).conES [] [])) 0
    ⟨2, 2, some 1⟩ hinv1 rfl
  have hest := h.2.2.2.1 4 (.estatica ⟨2, 2, 2, 2, [[0, 0], [0, 0]]⟩) rfl
  have hdin := h.2.2.2.2.1 5 ⟨3, 2, some 6⟩ rfl (by decide)
  exact ⟨⟨hinv, h.2.1, hest.1, hest.2, (h.2.2.2.1 0 (.dinamica ⟨2, 2, some 1⟩) rfl).1,
      hdin.1, hdin.2.2⟩,
    ⟨hinv1, h1.2.2.1, (h1.1 1 1 7).1 (by decide) (by decide) (by decide) (by decide),
      (h1.2.2.2.1 0 (.dinamica ⟨2, 2, some 1⟩) rfl).1⟩⟩


end Matrices
